import Mathlib

/-!
# smd-pico-controller: buffer pool, drive sequencer and job engine

A shallow embedding of `clocked_read.c` (the buffer pool), `xop.c` (the drive
protocol sequencer and the jobs run on core 1) and the drain step of
`controller.c`, followed by theorems about them.

Conventions of the embedding:

* C globals become fields of an explicit state that every function receives
  and hands on.
* `PANIC(code)` never returns: a function that reaches it ends with the
  outcome `panic code s`, where `s` is the state at that moment.
* `job_halt()` never returns either (it spins in `while (1) {}`): outcome
  `halt s`.
* Core 1 can be stopped from outside (`multicore_reset_core1`); a job that is
  stopped while it sleeps ends with the outcome `cut s`.
* `unsigned` values are naturals below `2 ^ 32`, wrapped explicitly where the
  C arithmetic can wrap.
-/

namespace SmdPico

/-! ## Outcomes and the program monad -/

/-- The `enum buffer_status` of `clocked_read.h`, as used by `clocked_read.c`. -/
inductive buffer_status where
  | FREE
  | BUSY
  | WRITTEN
  | TRANSFERRED
  deriving DecidableEq, Repr

/-- The panic codes passed to `PANIC` in `clocked_read.c`. -/
inductive panic_code where
  | PANIC_BOUNDS_CHECK_FAILED
  | PANIC_UNEXPECTED_STATE
  | PANIC_ALLOCATION_ERROR
  deriving DecidableEq, Repr

/-- How a piece of C code ends: it returns a value, it reaches `job_halt`,
it reaches `PANIC`, or the core running it is reset while it sleeps. Every
outcome carries the state at that moment. -/
inductive Outcome (σ α : Type) where
  | ret (a : α) (s : σ)
  | halt (s : σ)
  | panic (c : panic_code) (s : σ)
  | cut (s : σ)
  deriving DecidableEq, Repr

/-- State at the end of an outcome. -/
def Outcome.state {σ α : Type} : Outcome σ α → σ
  | .ret _ s => s
  | .halt s => s
  | .panic _ s => s
  | .cut s => s

/-- A C function over the global state `σ` returning an `α`. -/
def Prog (σ α : Type) : Type := σ → Outcome σ α

/-- Sequencing: the second part runs only when the first one returns. -/
def Prog.bind {σ α β : Type} (m : Prog σ α) (f : α → Prog σ β) : Prog σ β :=
  fun s =>
    match m s with
    | .ret a s1 => f a s1
    | .halt s1 => .halt s1
    | .panic c s1 => .panic c s1
    | .cut s1 => .cut s1

instance {σ : Type} : Monad (Prog σ) where
  pure a := fun s => .ret a s
  bind := Prog.bind

/-- The macro `PANIC(code)` of `base.h`: never returns. -/
def PANIC {σ α : Type} (c : panic_code) : Prog σ α := fun s => .panic c s

/-! ## clocked_read.c: the buffer pool -/

/-- One `struct buffer`. `data` holds the bytes of the `data` array and
`filename` the C string stored in the `filename` array. -/
structure buffer where
  data : List Nat
  size : Nat
  status : buffer_status
  filename : List Char
  deriving DecidableEq, Repr

/-- The global array `buffers`; `CLOCKED_READ_BUFFER_COUNT` is its length. -/
abbrev Pool : Type := List buffer

/-- Value read at `buffers[i]` once `check_buffer_index` has passed. -/
def buffer_at (bufs : Pool) (i : Nat) : buffer :=
  bufs.getD i { data := [], size := 0, status := .FREE, filename := [] }

/-- Embedding of `check_buffer_index`. -/
def check_buffer_index (buffer_index : Nat) : Prog Pool Unit := fun bufs =>
  if buffer_index ≥ bufs.length then .panic .PANIC_BOUNDS_CHECK_FAILED bufs
  else .ret () bufs

/-- The loop of `find_buffer_index`, started at index `i` on the buffers from
`i` on: the first index whose status matches, or `-1`. The array holds far
fewer than `2 ^ 31` buffers, so the conversion of `i` to `int` is exact. -/
def find_buffer_index_loop (with_buffer_status : buffer_status) : List buffer → Nat → Int
  | [], _ => -1
  | b :: rest, i =>
    if b.status = with_buffer_status then (i : Int)
    else find_buffer_index_loop with_buffer_status rest (i + 1)

/-- Embedding of `find_buffer_index`. -/
def find_buffer_index (with_buffer_status : buffer_status) : Prog Pool Int := fun bufs =>
  .ret (find_buffer_index_loop with_buffer_status bufs 0) bufs

/-- Embedding of `get_next_free_buffer_index`. -/
def get_next_free_buffer_index : Prog Pool Int :=
  find_buffer_index .FREE

/-- Embedding of `get_written_buffer_index`. -/
def get_written_buffer_index : Prog Pool Int :=
  find_buffer_index .WRITTEN

/-- Embedding of `can_allocate_buffer`: the C value of `i >= 0` is 1 or 0. -/
def can_allocate_buffer : Prog Pool Nat := do
  let i ← get_next_free_buffer_index
  pure (if i ≥ 0 then 1 else 0)

/-- The assignment `buffers[i].status = st`. -/
def set_buffer_status (i : Nat) (st : buffer_status) : Prog Pool Unit := fun bufs =>
  .ret () (bufs.set i { buffer_at bufs i with status := st })

/-- The assignment `buffers[i].size = size`. -/
def set_buffer_size (i : Nat) (size : Nat) : Prog Pool Unit := fun bufs =>
  .ret () (bufs.set i { buffer_at bufs i with size := size })

/-- Embedding of `allocate_buffer`; `MAX_DATA_BUFFER_SIZE` is a parameter. -/
def allocate_buffer (MAX_DATA_BUFFER_SIZE : Nat) (size : Nat) : Prog Pool Nat := do
  let i ← get_next_free_buffer_index
  if i < 0 then PANIC .PANIC_ALLOCATION_ERROR
  check_buffer_index i.toNat
  set_buffer_status i.toNat .BUSY
  let size := if size > MAX_DATA_BUFFER_SIZE then MAX_DATA_BUFFER_SIZE else size
  set_buffer_size i.toNat size
  pure i.toNat

/-- Embedding of `get_buffer_status`. -/
def get_buffer_status (buffer_index : Nat) : Prog Pool buffer_status := do
  check_buffer_index buffer_index
  fun bufs => .ret (buffer_at bufs buffer_index).status bufs

/-- Embedding of `get_buffer_size`. -/
def get_buffer_size (buffer_index : Nat) : Prog Pool Nat := do
  check_buffer_index buffer_index
  fun bufs => .ret (buffer_at bufs buffer_index).size bufs

/-- Embedding of `wrote_buffer`. -/
def wrote_buffer (buffer_index : Nat) : Prog Pool Unit := do
  check_buffer_index buffer_index
  if (← get_buffer_status buffer_index) ≠ .BUSY then PANIC .PANIC_UNEXPECTED_STATE
  set_buffer_status buffer_index .WRITTEN

/-- Embedding of `transferred_buffer`. -/
def transferred_buffer (buffer_index : Nat) : Prog Pool Unit := do
  check_buffer_index buffer_index
  if (← get_buffer_status buffer_index) ≠ .WRITTEN then PANIC .PANIC_UNEXPECTED_STATE
  set_buffer_status buffer_index .TRANSFERRED

/-- Embedding of `release_buffer`. -/
def release_buffer (buffer_index : Nat) : Prog Pool Unit := do
  check_buffer_index buffer_index
  if (← get_buffer_status buffer_index) ≠ .TRANSFERRED then PANIC .PANIC_UNEXPECTED_STATE
  set_buffer_status buffer_index .FREE

/-- Embedding of `reset_buffers`: the loop sets every status to `FREE`. -/
def reset_buffers : Prog Pool Unit := fun bufs =>
  .ret () (bufs.map fun b => { b with status := .FREE })

/-- The cycle of the specification: FREE, BUSY, WRITTEN, TRANSFERRED, FREE.
This one follows the words of the specification, not the code; the
theorems compare the code with it. -/
def spec_successor : buffer_status → buffer_status
  | .FREE => .BUSY
  | .BUSY => .WRITTEN
  | .WRITTEN => .TRANSFERRED
  | .TRANSFERRED => .FREE

/-! ## xop.c: state of the machine -/

/-- The `enum xop_status` values that `xop.c` assigns to `status`. -/
inductive xop_status where
  | XST_RUNNING
  | XST_DONE
  | XST_ERR_DRIVE_ERROR
  | XST_ERR_DRIVE_NOT_READY
  | XST_ERR_TIMEOUT
  | XST_ERR_TEST
  deriving DecidableEq, Repr

/-- The functions that `run` hands to `multicore_launch_core1`. -/
inductive job_fn where
  | job_blink_test
  | job_select_unit0
  | job_tag3_strobe
  | job_select_cylinder
  | job_select_head
  | job_read_enable
  | job_read_data
  | job_batch_read
  deriving DecidableEq, Repr

/-- The output lines written with `gpio_put` in `xop.c`. -/
inductive out_line where
  | LED_PIN
  | GPIO_UNIT_SELECT_TAG
  | GPIO_TAG1
  | GPIO_TAG2
  | GPIO_TAG3
  | GPIO_BIT0
  | GPIO_BIT1
  | GPIO_BIT2
  | GPIO_BIT3
  | GPIO_BIT4
  | GPIO_BIT5
  | GPIO_BIT6
  | GPIO_BIT7
  | GPIO_BIT8
  | GPIO_BIT9
  deriving DecidableEq, Repr

/-- Level of every output line (`true` is high). -/
structure Outputs where
  LED_PIN : Bool
  GPIO_UNIT_SELECT_TAG : Bool
  GPIO_TAG1 : Bool
  GPIO_TAG2 : Bool
  GPIO_TAG3 : Bool
  GPIO_BIT0 : Bool
  GPIO_BIT1 : Bool
  GPIO_BIT2 : Bool
  GPIO_BIT3 : Bool
  GPIO_BIT4 : Bool
  GPIO_BIT5 : Bool
  GPIO_BIT6 : Bool
  GPIO_BIT7 : Bool
  GPIO_BIT8 : Bool
  GPIO_BIT9 : Bool
  deriving DecidableEq, Repr

/-- Effect of `gpio_put(line, v)` on the output levels. -/
def Outputs.put (o : Outputs) (l : out_line) (v : Bool) : Outputs :=
  match l with
  | .LED_PIN => { o with LED_PIN := v }
  | .GPIO_UNIT_SELECT_TAG => { o with GPIO_UNIT_SELECT_TAG := v }
  | .GPIO_TAG1 => { o with GPIO_TAG1 := v }
  | .GPIO_TAG2 => { o with GPIO_TAG2 := v }
  | .GPIO_TAG3 => { o with GPIO_TAG3 := v }
  | .GPIO_BIT0 => { o with GPIO_BIT0 := v }
  | .GPIO_BIT1 => { o with GPIO_BIT1 := v }
  | .GPIO_BIT2 => { o with GPIO_BIT2 := v }
  | .GPIO_BIT3 => { o with GPIO_BIT3 := v }
  | .GPIO_BIT4 => { o with GPIO_BIT4 := v }
  | .GPIO_BIT5 => { o with GPIO_BIT5 := v }
  | .GPIO_BIT6 => { o with GPIO_BIT6 := v }
  | .GPIO_BIT7 => { o with GPIO_BIT7 := v }
  | .GPIO_BIT8 => { o with GPIO_BIT8 := v }
  | .GPIO_BIT9 => { o with GPIO_BIT9 := v }

/-- The union `job_args`. Its members are kept as separate fields: every
launch function writes exactly the members its job body reads, so the overlap
of the members in memory is never observed. -/
structure job_args_t where
  blink_test_fail : Int
  select_cylinder_cylinder : Nat
  select_head_head : Nat
  tag3_strobe_ctrl : Nat
  read_enable_servo_offset : Int
  read_enable_data_strobe_delay : Int
  read_data_buffer_index : Nat
  read_data_n_32bit_words : Nat
  read_data_index_sync : Nat
  read_data_skip_checks : Nat
  batch_read_n_32bit_words_per_track : Nat
  batch_read_cylinder0 : Nat
  batch_read_cylinder1 : Nat
  batch_read_head_set : Nat
  batch_read_servo_offset : Int
  batch_read_data_strobe_delay : Int
  deriving DecidableEq, Repr

/-- Constants, pin numbers and macros that come from headers outside the
sources at hand (`clocked_read.h`, `pin_config.h`, `drive.h`, `base.h`,
`controller_protocol.h`); they are parameters of the embedding.
`index_fall_timeout_us` stands for the value of `FREQ_IN_MICROS(DRIVE_RPS)/10`
and `index_rise_timeout_us` for that of `FREQ_IN_MICROS(DRIVE_RPS/3)`. -/
structure Config where
  MAX_DATA_BUFFER_SIZE : Nat
  CLOCKED_READ_BUFFER_FILENAME_MAX_LENGTH : Nat
  DRIVE_HEAD_COUNT : Nat
  ENTIRE_RANGE : Int
  index_fall_timeout_us : Nat
  index_rise_timeout_us : Nat
  BYTES_TO_32BIT_WORDS : Nat → Nat
  GPIO_FAULT : Nat
  GPIO_SEEK_ERROR : Nat
  GPIO_UNIT_READY : Nat
  GPIO_UNIT_SELECTED : Nat
  GPIO_ON_CYLINDER : Nat
  GPIO_SEEK_END : Nat
  GPIO_INDEX : Nat
  TAG3BIT_READ_GATE : Nat
  TAG3BIT_SERVO_OFFSET_POSITIVE : Nat
  TAG3BIT_SERVO_OFFSET_NEGATIVE : Nat
  TAG3BIT_DATA_STROBE_LATE : Nat
  TAG3BIT_DATA_STROBE_EARLY : Nat

/-- What lies outside the program: the configuration, the word that
`gpio_get_all` returns and the answer of `dma_channel_is_busy` (each as a
function of the clock and of the number of samples taken so far), and the
time at which core 1 is next reset from core 0. -/
structure Env where
  cfg : Config
  pins : Nat → Nat → Nat
  dma_busy : Nat → Nat → Bool
  deadline : Nat

/-- What the drive is shown on the bus, and what the capture unit is told: a
strobe of tag1 with a cylinder, a strobe of tag2 with a head, tag3 raised with
a control word, a transfer armed for a number of 32-bit words, the tags and
the value bus put low by `clear_output`. -/
inductive bus_event where
  | tag1 (cylinder : Nat)
  | tag2 (head : Nat)
  | tag3 (ctrl : Nat)
  | capture (n_words : Nat)
  | clear
  deriving DecidableEq, Repr

/-- The globals of `xop.c` and `clocked_read.c`, the output lines, what runs
on core 1, the microsecond clock and the number of samples taken from the
environment. `status_log` is a ghost field: it records every value assigned
to `status`, in order. `bus_log` is a ghost field too: it records the tag
strobes, the armed transfers and the calls of `clear_output`, in order. -/
structure Machine where
  buffers : Pool
  dma_transfer : Option (Nat × Nat)
  status : xop_status
  status_log : List xop_status
  job_begin_time_us : Nat
  job_duration_us : Nat
  next_read_data_serial : Nat
  job_args : job_args_t
  out : Outputs
  core1 : Option job_fn
  time : Nat
  samples : Nat
  bus_log : List bus_event
  deriving DecidableEq, Repr

/-- A C function of `xop.c` over the machine state. -/
abbrev Job (α : Type) : Type := Prog Machine α

/-- Run a function of `clocked_read.c` on the pool of the machine. -/
def lift_pool {α : Type} (m : Prog Pool α) : Job α := fun s =>
  match m s.buffers with
  | .ret a b => .ret a { s with buffers := b }
  | .halt b => .halt { s with buffers := b }
  | .panic c b => .panic c { s with buffers := b }
  | .cut b => .cut { s with buffers := b }

/-- Read the whole machine state. -/
def machine : Job Machine := fun s => .ret s s

/-- Ghost statement: one more entry in `bus_log`. -/
def bus_record (e : bus_event) : Job Unit := fun s =>
  .ret () { s with bus_log := s.bus_log ++ [e] }

/-! ## Primitives of the SDK -/

/-- Model of `gpio_put`. -/
def gpio_put (l : out_line) (v : Bool) : Job Unit := fun s =>
  .ret () { s with out := s.out.put l v }

/-- Model of `get_absolute_time`: the clock of the machine. -/
def get_absolute_time : Job Nat := fun s => .ret s.time s

/-- Model of `sleep_us` on core 1: the clock advances by `n`, unless core 1
is reset before the sleep is over. -/
def sleep_us (E : Env) (n : Nat) : Job Unit := fun s =>
  if s.time + n ≤ E.deadline then .ret () { s with time := s.time + n }
  else .cut s

/-- Model of `sleep_ms` on core 1. -/
def sleep_ms (E : Env) (n : Nat) : Job Unit := sleep_us E (1000 * n)

/-- Model of `sleep_us` on core 0, which nothing interrupts. -/
def core0_sleep_us (n : Nat) : Job Unit := fun s =>
  .ret () { s with time := s.time + n }

/-- Model of `gpio_get_all`: one sample of the input word. -/
def gpio_get_all (E : Env) : Job Nat := fun s =>
  .ret (E.pins s.time s.samples) { s with samples := s.samples + 1 }

/-- Model of `multicore_reset_core1`. -/
def multicore_reset_core1 : Job Unit := fun s => .ret () { s with core1 := none }

/-- Model of `multicore_launch_core1`. -/
def multicore_launch_core1 (fn : job_fn) : Job Unit := fun s =>
  .ret () { s with core1 := some fn }

/-- The assignment `status = x`, logged in the ghost field. -/
def set_status (x : xop_status) : Job Unit := fun s =>
  .ret () { s with status := x, status_log := s.status_log ++ [x] }

/-- The argument of a `%d` conversion: a 32-bit word read as an `int`. -/
def to_int (x : Nat) : Int :=
  if x % 2 ^ 32 < 2 ^ 31 then (x % 2 ^ 32 : Nat) else ((x % 2 ^ 32 : Nat) : Int) - 2 ^ 32

/-- Model of the `printf` conversion `%.Pd` (`%d` is `%.1d`): a minus sign
for a negative value, then the decimal digits, padded with zeros on the left
to at least `precision` digits. -/
def fmt_d (precision : Nat) (v : Int) : List Char :=
  (if v < 0 then ['-'] else []) ++
    List.replicate (precision - (Nat.toDigits 10 v.natAbs).length) '0' ++
    Nat.toDigits 10 v.natAbs

/-- Model of `snprintf(dst, n, ...)` on the C string held in `dst`: at most
`n - 1` characters of the formatted text are stored; with `n = 0` nothing is
written. -/
def c_snprintf (n : Nat) (text : List Char) (old : List Char) : List Char :=
  if n = 0 then old else text.take (n - 1)

/-- Embedding of `get_buffer_filename`: the pointer to the `filename` array of
a buffer is represented by the index of that buffer. -/
def get_buffer_filename (buffer_index : Nat) : Job Nat := do
  lift_pool (check_buffer_index buffer_index)
  pure buffer_index

/-- The call `snprintf(dst, CLOCKED_READ_BUFFER_FILENAME_MAX_LENGTH, ...)`
where `dst` is the `filename` array of the buffer `dst` and `text` is the
formatted text. -/
def snprintf_filename (E : Env) (dst : Nat) (text : List Char) : Job Unit := fun s =>
  let b := buffer_at s.buffers dst
  let name := c_snprintf E.cfg.CLOCKED_READ_BUFFER_FILENAME_MAX_LENGTH text b.filename
  .ret () { s with buffers := s.buffers.set dst { b with filename := name } }

/-- The C value of `!x`. -/
def c_not (x : Nat) : Nat := if x = 0 then 1 else 0

/-! ## clocked_read.c: the capture -/

/-- Embedding of `clocked_read_into_buffer`: the programmed transfer (its
buffer and its transfer count) is recorded in `dma_transfer`, and its count
in `bus_log`. -/
def clocked_read_into_buffer (E : Env) (buffer_index : Nat) (n_bytes : Nat) : Job Unit := do
  let n_bytes := if n_bytes > E.cfg.MAX_DATA_BUFFER_SIZE then E.cfg.MAX_DATA_BUFFER_SIZE else n_bytes
  lift_pool (check_buffer_index buffer_index)
  if (buffer_at (← machine).buffers buffer_index).status ≠ .BUSY then PANIC .PANIC_UNEXPECTED_STATE
  fun s => .ret () { s with dma_transfer := some (buffer_index, E.cfg.BYTES_TO_32BIT_WORDS n_bytes) }
  bus_record (.capture (E.cfg.BYTES_TO_32BIT_WORDS n_bytes))

/-- Embedding of `clocked_read_is_running`: one sample of the busy flag. -/
def clocked_read_is_running (E : Env) : Job Bool := fun s =>
  .ret (E.dma_busy s.time s.samples) { s with samples := s.samples + 1 }

/-! ## xop.c: the drive protocol sequencer -/

/-- The macro `ERROR_MASK`. -/
def ERROR_MASK (c : Config) : Nat :=
  (1 <<< c.GPIO_FAULT) ||| (1 <<< c.GPIO_SEEK_ERROR)

/-- The macro `READY_MASK`. -/
def READY_MASK (c : Config) : Nat :=
  (1 <<< c.GPIO_UNIT_READY) ||| (1 <<< c.GPIO_UNIT_SELECTED)

/-- The constant `TAG_SLEEP_US`. -/
def TAG_SLEEP_US : Nat := 10

/-- Embedding of `unit0_select_tag`. -/
def unit0_select_tag : Job Unit :=
  gpio_put .GPIO_UNIT_SELECT_TAG true

/-- Embedding of `set_bits`: the ten expansions of the macro `PUT`. -/
def set_bits (value : Nat) : Job Unit := do
  gpio_put .GPIO_BIT0 (decide (value &&& (1 <<< 0) ≠ 0))
  gpio_put .GPIO_BIT1 (decide (value &&& (1 <<< 1) ≠ 0))
  gpio_put .GPIO_BIT2 (decide (value &&& (1 <<< 2) ≠ 0))
  gpio_put .GPIO_BIT3 (decide (value &&& (1 <<< 3) ≠ 0))
  gpio_put .GPIO_BIT4 (decide (value &&& (1 <<< 4) ≠ 0))
  gpio_put .GPIO_BIT5 (decide (value &&& (1 <<< 5) ≠ 0))
  gpio_put .GPIO_BIT6 (decide (value &&& (1 <<< 6) ≠ 0))
  gpio_put .GPIO_BIT7 (decide (value &&& (1 <<< 7) ≠ 0))
  gpio_put .GPIO_BIT8 (decide (value &&& (1 <<< 8) ≠ 0))
  gpio_put .GPIO_BIT9 (decide (value &&& (1 <<< 9) ≠ 0))

/-- Embedding of `clear_output`; the call is recorded in `bus_log`. -/
def clear_output : Job Unit := do
  gpio_put .GPIO_TAG1 false
  gpio_put .GPIO_TAG2 false
  gpio_put .GPIO_TAG3 false
  set_bits 0
  bus_record .clear

/-- Embedding of `tag1_cylinder`; the strobe is recorded in `bus_log`. -/
def tag1_cylinder (E : Env) (cylinder : Nat) : Job Unit := do
  clear_output
  set_bits cylinder
  gpio_put .GPIO_TAG1 true
  bus_record (.tag1 cylinder)
  sleep_us E TAG_SLEEP_US
  clear_output

/-- Embedding of `tag2_head`; the strobe is recorded in `bus_log`. -/
def tag2_head (E : Env) (head : Nat) : Job Unit := do
  clear_output
  set_bits head
  gpio_put .GPIO_TAG2 true
  bus_record (.tag2 head)
  sleep_us E TAG_SLEEP_US
  clear_output

/-- Embedding of `tag3_ctrl`; the raised tag is recorded in `bus_log`. -/
def tag3_ctrl (ctrl : Nat) : Job Unit := do
  clear_output
  set_bits ctrl
  gpio_put .GPIO_TAG3 true
  bus_record (.tag3 ctrl)

/-- Embedding of `tag3_ctrl_strobe`. -/
def tag3_ctrl_strobe (E : Env) (ctrl : Nat) : Job Unit := do
  tag3_ctrl ctrl
  sleep_us E TAG_SLEEP_US
  clear_output

/-- Embedding of `BEGIN`. -/
def BEGIN : Job Unit := do
  let t ← get_absolute_time
  fun s => .ret () { s with job_begin_time_us := t }

/-- Embedding of `job_halt`: the duration is stored, then the core spins. -/
def job_halt {α : Type} : Job α := do
  let t ← get_absolute_time
  fun s => .halt { s with job_duration_us := t - s.job_begin_time_us }

/-- Embedding of `DONE`. -/
def DONE {α : Type} : Job α := do
  set_status .XST_DONE
  job_halt

/-- Embedding of `ERROR`. -/
def ERROR {α : Type} (error_code : xop_status) : Job α := do
  set_status error_code
  job_halt

/-- Embedding of `check_drive_error`. -/
def check_drive_error (E : Env) : Job Unit := do
  let pins ← gpio_get_all E
  if (pins &&& ERROR_MASK E.cfg) ≠ 0 then ERROR .XST_ERR_DRIVE_ERROR
  if (pins &&& READY_MASK E.cfg) ≠ READY_MASK E.cfg then ERROR .XST_ERR_DRIVE_NOT_READY

/-- The `while (1)` loop of `pin_mask_wait`, for at most `fuel` rounds. Every
round that goes on sleeps for a microsecond, so the rounds are bounded by the
time left until core 1 is reset. -/
def pin_mask_wait_loop (E : Env) (mask value timeout_us check_error t0 : Nat) : Nat → Job Unit
  | 0 => fun s => .cut s
  | fuel + 1 => do
    if check_error ≠ 0 then check_drive_error E
    if ((← gpio_get_all E) &&& mask) = value then pure ()
    else do
      if (← get_absolute_time) - t0 > timeout_us then ERROR .XST_ERR_TIMEOUT
      sleep_us E 1
      pin_mask_wait_loop E mask value timeout_us check_error t0 fuel

/-- Embedding of `pin_mask_wait`. -/
def pin_mask_wait (E : Env) (mask value timeout_us check_error : Nat) : Job Unit := do
  let t0 ← get_absolute_time
  pin_mask_wait_loop E mask value timeout_us check_error t0 (E.deadline - t0 + 1)

/-- Embedding of `pin_wait`. -/
def pin_wait (E : Env) (gpio_pin value timeout_us check_error : Nat) : Job Unit :=
  pin_mask_wait E (1 <<< gpio_pin) (if value ≠ 0 then 1 <<< gpio_pin else 0) timeout_us check_error

/-- Embedding of `pin_wait_for_one`. -/
def pin_wait_for_one (E : Env) (gpio_pin timeout_us check_error : Nat) : Job Unit :=
  pin_wait E gpio_pin 1 timeout_us check_error

/-- Embedding of `pin_wait_for_zero`. -/
def pin_wait_for_zero (E : Env) (gpio_pin timeout_us check_error : Nat) : Job Unit :=
  pin_wait E gpio_pin 0 timeout_us check_error

/-- Embedding of `select_unit0`. -/
def select_unit0 (E : Env) : Job Unit := do
  unit0_select_tag
  pin_wait_for_one E E.cfg.GPIO_UNIT_SELECTED 100000 0
  check_drive_error E

/-- Embedding of `read_enable_ex`. -/
def read_enable_ex (E : Env) (servo_offset data_strobe_delay : Int) : Job Unit := do
  check_drive_error E
  let ctrl := E.cfg.TAG3BIT_READ_GATE
    ||| (if servo_offset > 0 then E.cfg.TAG3BIT_SERVO_OFFSET_POSITIVE
         else if servo_offset < 0 then E.cfg.TAG3BIT_SERVO_OFFSET_NEGATIVE
         else 0)
    ||| (if data_strobe_delay > 0 then E.cfg.TAG3BIT_DATA_STROBE_LATE
         else if data_strobe_delay < 0 then E.cfg.TAG3BIT_DATA_STROBE_EARLY
         else 0)
  tag3_ctrl ctrl

/-- Embedding of `select_cylinder`. -/
def select_cylinder (E : Env) (cylinder : Nat) : Job Unit := do
  check_drive_error E
  tag1_cylinder E cylinder
  sleep_us E 1000
  let bits := (1 <<< E.cfg.GPIO_ON_CYLINDER) ||| (1 <<< E.cfg.GPIO_SEEK_END)
  pin_mask_wait E bits bits 1000000 1

/-- Embedding of `select_head`. -/
def select_head (E : Env) (head : Nat) : Job Unit := do
  check_drive_error E
  tag2_head E head

/-- The `while (1)` loop of `read_data`, for at most `fuel` rounds. -/
def read_data_loop (E : Env) (skip_checks : Nat) : Nat → Job Unit
  | 0 => fun s => .cut s
  | fuel + 1 => do
    if !(← clocked_read_is_running E) then pure ()
    else do
      if c_not skip_checks ≠ 0 then check_drive_error E
      sleep_us E 1
      read_data_loop E skip_checks fuel

/-- The `while (1)` loop of `read_data`, with the rounds the time left until
core 1 is reset allows. -/
def read_data_wait (E : Env) (skip_checks : Nat) : Job Unit := fun s =>
  read_data_loop E skip_checks (E.deadline - s.time + 1) s

/-- Embedding of `read_data`. -/
def read_data (E : Env) (buffer_index n_32bit_words index_sync skip_checks : Nat) : Job Unit := do
  if c_not skip_checks ≠ 0 then check_drive_error E
  if index_sync ≠ 0 then do
    pin_wait_for_zero E E.cfg.GPIO_INDEX E.cfg.index_fall_timeout_us (c_not skip_checks)
    pin_wait_for_one E E.cfg.GPIO_INDEX E.cfg.index_rise_timeout_us (c_not skip_checks)
  clocked_read_into_buffer E buffer_index n_32bit_words
  read_data_wait E skip_checks
  lift_pool (wrote_buffer buffer_index)

/-! ## xop.c: launching, polling and terminating -/

/-- Embedding of `reset`. -/
def reset : Job Unit :=
  multicore_reset_core1

/-- Embedding of `reset_and_kill_output`. -/
def reset_and_kill_output : Job Unit := do
  reset
  core0_sleep_us 1
  clear_output

/-- Embedding of `run`. -/
def run (fn : job_fn) : Job Unit := do
  set_status .XST_RUNNING
  multicore_launch_core1 fn

/-- Embedding of `poll_xop_status`. -/
def poll_xop_status : Job xop_status := fun s => .ret s.status s

/-- Embedding of `xop_duration_us`. -/
def xop_duration_us : Job Nat := fun s => .ret s.job_duration_us s

/-- Embedding of `terminate_op`. -/
def terminate_op : Job Unit :=
  reset_and_kill_output

/-! ## xop.c: the jobs -/

/-- The loop of `job_blink_test`, `n` rounds. -/
def blink_loop (E : Env) : Nat → Job Unit
  | 0 => pure ()
  | n + 1 => do
    gpio_put .LED_PIN true
    sleep_ms E 50
    gpio_put .LED_PIN false
    sleep_ms E 50
    blink_loop E n

/-- Embedding of `job_blink_test`. -/
def job_blink_test (E : Env) : Job Unit := do
  BEGIN
  blink_loop E 15
  if (← machine).job_args.blink_test_fail = 0 then DONE
  else ERROR .XST_ERR_TEST

/-- Embedding of `xop_blink_test`. -/
def xop_blink_test (fail : Int) : Job Unit := do
  reset
  fun s => .ret () { s with job_args.blink_test_fail := fail }
  run .job_blink_test

/-- Embedding of `job_select_unit0`. -/
def job_select_unit0 (E : Env) : Job Unit := do
  BEGIN
  select_unit0 E
  DONE

/-- Embedding of `xop_select_unit0`. -/
def xop_select_unit0 : Job Unit := do
  reset_and_kill_output
  run .job_select_unit0

/-- Embedding of `job_tag3_strobe`. -/
def job_tag3_strobe (E : Env) : Job Unit := do
  BEGIN
  tag3_ctrl_strobe E (← machine).job_args.tag3_strobe_ctrl
  DONE

/-- Embedding of `xop_tag3_strobe`. -/
def xop_tag3_strobe (ctrl : Nat) : Job Unit := do
  reset_and_kill_output
  fun s => .ret () { s with job_args.tag3_strobe_ctrl := ctrl }
  run .job_tag3_strobe

/-- Embedding of `job_select_cylinder`. -/
def job_select_cylinder (E : Env) : Job Unit := do
  BEGIN
  select_cylinder E (← machine).job_args.select_cylinder_cylinder
  DONE

/-- Embedding of `xop_select_cylinder`. -/
def xop_select_cylinder (cylinder : Nat) : Job Unit := do
  reset_and_kill_output
  fun s => .ret () { s with job_args.select_cylinder_cylinder := cylinder }
  run .job_select_cylinder

/-- Embedding of `job_select_head`. -/
def job_select_head (E : Env) : Job Unit := do
  BEGIN
  select_head E (← machine).job_args.select_head_head
  DONE

/-- Embedding of `xop_select_head`. -/
def xop_select_head (head : Nat) : Job Unit := do
  reset_and_kill_output
  fun s => .ret () { s with job_args.select_head_head := head }
  run .job_select_head

/-- Embedding of `job_read_enable`. -/
def job_read_enable (E : Env) : Job Unit := do
  BEGIN
  let args := (← machine).job_args
  read_enable_ex E args.read_enable_servo_offset args.read_enable_data_strobe_delay
  DONE

/-- Embedding of `xop_read_enable`. -/
def xop_read_enable (servo_offset data_strobe_delay : Int) : Job Unit := do
  reset_and_kill_output
  fun s => .ret () { s with job_args.read_enable_servo_offset := servo_offset }
  fun s => .ret () { s with job_args.read_enable_data_strobe_delay := data_strobe_delay }
  run .job_read_enable

/-- The expression `next_read_data_serial++` on the 32-bit counter. -/
def next_read_data_serial_post_increment : Job Nat := fun s =>
  .ret s.next_read_data_serial
    { s with next_read_data_serial := (s.next_read_data_serial + 1) % 2 ^ 32 }

/-- The text that the format `"custom%.4d.nrz"` gives for the counter value
`serial`. -/
def custom_filename (serial : Nat) : List Char :=
  "custom".toList ++ fmt_d 4 (to_int serial) ++ ".nrz".toList

/-- Embedding of `job_read_data`. -/
def job_read_data (E : Env) : Job Unit := do
  BEGIN
  let buffer_index := (← machine).job_args.read_data_buffer_index
  let dst ← get_buffer_filename buffer_index
  let serial ← next_read_data_serial_post_increment
  snprintf_filename E dst (custom_filename serial)
  let args := (← machine).job_args
  read_data E buffer_index args.read_data_n_32bit_words args.read_data_index_sync
    args.read_data_skip_checks
  DONE

/-- Embedding of `xop_read_data`; `n_32bit_words << 2` is taken modulo
`2 ^ 32`. -/
def xop_read_data (E : Env) (n_32bit_words index_sync skip_checks : Nat) : Job Nat := do
  reset
  let buffer_index ← lift_pool
    (allocate_buffer E.cfg.MAX_DATA_BUFFER_SIZE ((n_32bit_words <<< 2) % 2 ^ 32))
  fun s => .ret () { s with job_args.read_data_buffer_index := buffer_index }
  fun s => .ret () { s with job_args.read_data_n_32bit_words := n_32bit_words }
  fun s => .ret () { s with job_args.read_data_index_sync := index_sync }
  fun s => .ret () { s with job_args.read_data_skip_checks := skip_checks }
  run .job_read_data
  pure buffer_index

/-! ### The batch read -/

/-- The initialisation of `servo_offset0` in `job_batch_read`. -/
def servo_offset0 (ENTIRE_RANGE arg_servo_offset : Int) : Int :=
  let servo_offset0 := if arg_servo_offset = ENTIRE_RANGE then -1 else arg_servo_offset
  if servo_offset0 < -1 then -1 else servo_offset0

/-- The initialisation of `servo_offset1` in `job_batch_read`. -/
def servo_offset1 (ENTIRE_RANGE arg_servo_offset : Int) : Int :=
  let servo_offset1 := if arg_servo_offset = ENTIRE_RANGE then 1 else arg_servo_offset
  if servo_offset1 > 1 then 1 else servo_offset1

/-- The initialisation of `data_strobe_delay0` in `job_batch_read`. -/
def data_strobe_delay0 (ENTIRE_RANGE arg_data_strobe_delay : Int) : Int :=
  let data_strobe_delay0 :=
    if arg_data_strobe_delay = ENTIRE_RANGE then -1 else arg_data_strobe_delay
  if data_strobe_delay0 < -1 then -1 else data_strobe_delay0

/-- The initialisation of `data_strobe_delay1` in `job_batch_read`. -/
def data_strobe_delay1 (ENTIRE_RANGE arg_data_strobe_delay : Int) : Int :=
  let data_strobe_delay1 :=
    if arg_data_strobe_delay = ENTIRE_RANGE then 1 else arg_data_strobe_delay
  if data_strobe_delay1 > 1 then 1 else data_strobe_delay1

/-- The values taken by `x` in `for (int x = lo; x <= hi; x++)`, in order. -/
def for_values (lo hi : Int) : List Int :=
  (List.range (hi + 1 - lo).toNat).map fun k => lo + (k : Int)

/-- The values of `servo_offset` that the loop of `job_batch_read` runs
through for the argument `arg_servo_offset`. -/
def servo_offset_values (ENTIRE_RANGE arg_servo_offset : Int) : List Int :=
  for_values (servo_offset0 ENTIRE_RANGE arg_servo_offset)
    (servo_offset1 ENTIRE_RANGE arg_servo_offset)

/-- The values of `data_strobe_delay` that the loop of `job_batch_read` runs
through for the argument `arg_data_strobe_delay`. -/
def data_strobe_delay_values (ENTIRE_RANGE arg_data_strobe_delay : Int) : List Int :=
  for_values (data_strobe_delay0 ENTIRE_RANGE arg_data_strobe_delay)
    (data_strobe_delay1 ENTIRE_RANGE arg_data_strobe_delay)

/-- A `for` loop over the values `xs`. -/
def for_each {β : Type} (xs : List β) (body : β → Job Unit) : Job Unit :=
  match xs with
  | [] => pure ()
  | x :: rest => do
    body x
    for_each rest body

/-- The text that the format `"cylinder%.4d-head%d%s%s.nrz"` gives in
`job_batch_read`. -/
def batch_filename (cylinder head : Nat) (servo_offset data_strobe_delay : Int) : List Char :=
  "cylinder".toList ++ fmt_d 4 (to_int cylinder) ++ "-head".toList ++ fmt_d 1 (to_int head)
    ++ (if servo_offset = -1 then "-servo-negative".toList
        else if servo_offset = 1 then "-servo-positive".toList
        else "".toList)
    ++ (if data_strobe_delay = -1 then "-strobe-early".toList
        else if data_strobe_delay = 1 then "-strobe-late".toList
        else "".toList)
    ++ ".nrz".toList

/-- The `snprintf` statement of the innermost loop of `job_batch_read`. -/
def batch_read_label (E : Env) (buffer_index cylinder head : Nat)
    (servo_offset data_strobe_delay : Int) : Job Unit := do
  let dst ← get_buffer_filename buffer_index
  snprintf_filename E dst (batch_filename cylinder head servo_offset data_strobe_delay)

/-- The body of the innermost loop of `job_batch_read`. -/
def batch_read_combination (E : Env) (buffer_index n_32bit_words_per_track cylinder head : Nat)
    (servo_offset data_strobe_delay : Int) : Job Unit := do
  batch_read_label E buffer_index cylinder head servo_offset data_strobe_delay
  read_enable_ex E servo_offset data_strobe_delay
  let b ← lift_pool (allocate_buffer E.cfg.MAX_DATA_BUFFER_SIZE n_32bit_words_per_track)
  read_data E b n_32bit_words_per_track 1 0
  clear_output

/-- The loop `while (!can_allocate_buffer())` of `job_batch_read`, for at
most `fuel` rounds. -/
def batch_read_wait_loop (E : Env) (t0 : Nat) : Nat → Job Unit
  | 0 => fun s => .cut s
  | fuel + 1 => do
    if c_not (← lift_pool can_allocate_buffer) = 0 then pure ()
    else do
      if (← get_absolute_time) - t0 > 10000000 then ERROR .XST_ERR_TIMEOUT
      sleep_us E 5
      batch_read_wait_loop E t0 fuel

/-- One round of the loop over the heads in `job_batch_read`, for the head
`head` and the current value of `mask`. -/
def batch_read_head (E : Env) (n_32bit_words_per_track head_set : Nat)
    (servo_offsets data_strobe_delays : List Int) (cylinder head mask : Nat) : Job Unit := do
  if head_set &&& mask = 0 then pure ()
  else do
    select_head E head
    let t0 ← get_absolute_time
    batch_read_wait_loop E t0 (E.deadline - t0 + 1)
    let buffer_index ← lift_pool
      (allocate_buffer E.cfg.MAX_DATA_BUFFER_SIZE n_32bit_words_per_track)
    for_each servo_offsets fun servo_offset =>
      for_each data_strobe_delays fun data_strobe_delay =>
        batch_read_combination E buffer_index n_32bit_words_per_track cylinder head
          servo_offset data_strobe_delay

/-- The loop over the heads in `job_batch_read`: `n` rounds are left, the
loop variables are `head` and `mask` (a 32-bit word shifted left each round). -/
def batch_read_head_loop (E : Env) (n_32bit_words_per_track head_set : Nat)
    (servo_offsets data_strobe_delays : List Int) (cylinder : Nat) : Nat → Nat → Nat → Job Unit
  | 0, _, _ => pure ()
  | n + 1, head, mask => do
    batch_read_head E n_32bit_words_per_track head_set servo_offsets data_strobe_delays
      cylinder head mask
    batch_read_head_loop E n_32bit_words_per_track head_set servo_offsets data_strobe_delays
      cylinder n (head + 1) ((mask <<< 1) % 2 ^ 32)

/-- The loop over the cylinders in `job_batch_read`, for at most `fuel`
rounds; `cylinder++` wraps at `2 ^ 32`. Every round that goes on has slept,
so the rounds are bounded by the time left until core 1 is reset. -/
def batch_read_cylinder_loop (E : Env) (n_32bit_words_per_track head_set : Nat)
    (servo_offsets data_strobe_delays : List Int) (cylinder1 : Nat) : Nat → Nat → Job Unit
  | 0, _ => fun s => .cut s
  | fuel + 1, cylinder =>
    if cylinder ≤ cylinder1 then do
      select_cylinder E cylinder
      batch_read_head_loop E n_32bit_words_per_track head_set servo_offsets data_strobe_delays
        cylinder E.cfg.DRIVE_HEAD_COUNT 0 1
      batch_read_cylinder_loop E n_32bit_words_per_track head_set servo_offsets
        data_strobe_delays cylinder1 fuel ((cylinder + 1) % 2 ^ 32)
    else pure ()

/-- The loop over the cylinders in `job_batch_read`, from `cylinder0` on, with
the rounds the time left until core 1 is reset allows. -/
def batch_read_cylinders (E : Env) (n_32bit_words_per_track head_set : Nat)
    (servo_offsets data_strobe_delays : List Int) (cylinder0 cylinder1 : Nat) : Job Unit :=
  fun s =>
    batch_read_cylinder_loop E n_32bit_words_per_track head_set servo_offsets
      data_strobe_delays cylinder1 (E.deadline - s.time + 1) cylinder0 s

/-- Embedding of `job_batch_read`. -/
def job_batch_read (E : Env) : Job Unit := do
  BEGIN
  check_drive_error E
  let args := (← machine).job_args
  batch_read_cylinders E args.batch_read_n_32bit_words_per_track args.batch_read_head_set
    (servo_offset_values E.cfg.ENTIRE_RANGE args.batch_read_servo_offset)
    (data_strobe_delay_values E.cfg.ENTIRE_RANGE args.batch_read_data_strobe_delay)
    args.batch_read_cylinder0 args.batch_read_cylinder1
  DONE

/-- Embedding of `xop_read_batch`. -/
def xop_read_batch (cylinder0 cylinder1 head_set n_32bit_words_per_track : Nat)
    (servo_offset data_strobe_delay : Int) : Job Unit := do
  reset_and_kill_output
  fun s => .ret () { s with
    job_args.batch_read_n_32bit_words_per_track := n_32bit_words_per_track }
  fun s => .ret () { s with job_args.batch_read_cylinder0 := cylinder0 }
  fun s => .ret () { s with job_args.batch_read_cylinder1 := cylinder1 }
  fun s => .ret () { s with job_args.batch_read_head_set := head_set }
  fun s => .ret () { s with job_args.batch_read_servo_offset := servo_offset }
  fun s => .ret () { s with job_args.batch_read_data_strobe_delay := data_strobe_delay }
  run .job_batch_read

/-- The body that core 1 runs for each function handed to `run`. -/
def job_body (E : Env) : job_fn → Job Unit
  | .job_blink_test => job_blink_test E
  | .job_select_unit0 => job_select_unit0 E
  | .job_tag3_strobe => job_tag3_strobe E
  | .job_select_cylinder => job_select_cylinder E
  | .job_select_head => job_select_head E
  | .job_read_enable => job_read_enable E
  | .job_read_data => job_read_data E
  | .job_batch_read => job_batch_read E

/-! ## Core 0 and core 1 together -/

/-- A request to launch a job: one entry point of `xop.c` with its arguments. -/
inductive request where
  | blink_test (fail : Int)
  | select_unit0
  | tag3_strobe (ctrl : Nat)
  | select_cylinder (cylinder : Nat)
  | select_head (head : Nat)
  | read_enable (servo_offset data_strobe_delay : Int)
  | read_data (n_32bit_words index_sync skip_checks : Nat)
  | read_batch (cylinder0 cylinder1 head_set n_32bit_words_per_track : Nat)
      (servo_offset data_strobe_delay : Int)
  deriving DecidableEq, Repr

/-- The job body that the entry point of a request hands to `run`. -/
def request.fn : request → job_fn
  | .blink_test _ => .job_blink_test
  | .select_unit0 => .job_select_unit0
  | .tag3_strobe _ => .job_tag3_strobe
  | .select_cylinder _ => .job_select_cylinder
  | .select_head _ => .job_select_head
  | .read_enable _ _ => .job_read_enable
  | .read_data _ _ _ => .job_read_data
  | .read_batch _ _ _ _ _ _ => .job_batch_read

/-- The entry point of `xop.c` called for a request. -/
def xop_launch (E : Env) : request → Job Unit
  | .blink_test fail => xop_blink_test fail
  | .select_unit0 => xop_select_unit0
  | .tag3_strobe ctrl => xop_tag3_strobe ctrl
  | .select_cylinder cylinder => xop_select_cylinder cylinder
  | .select_head head => xop_select_head head
  | .read_enable servo_offset data_strobe_delay => xop_read_enable servo_offset data_strobe_delay
  | .read_data n_32bit_words index_sync skip_checks => do
    let _ ← xop_read_data E n_32bit_words index_sync skip_checks
    pure ()
  | .read_batch cylinder0 cylinder1 head_set n_32bit_words_per_track servo_offset
      data_strobe_delay =>
    xop_read_batch cylinder0 cylinder1 head_set n_32bit_words_per_track servo_offset
      data_strobe_delay

/-- Core 1 runs what was launched on it, from the current state, until the job
halts or panics or until `budget` microseconds have passed; the state it
leaves is the state core 0 goes on from. -/
def core1_slice (E : Env) (budget : Nat) : Job Unit := fun s =>
  match s.core1 with
  | none => .ret () s
  | some fn => .ret () (job_body { E with deadline := s.time + budget } fn s).state

/-- What core 0 does, one step at a time: it launches a job (which then runs
on core 1 for at most `budget` microseconds before the next step), terminates
the running job, polls the status, or moves a buffer on. -/
inductive event where
  | launch (r : request) (budget : Nat)
  | terminate_op
  | poll
  | transferred_buffer (buffer_index : Nat)
  | release_buffer (buffer_index : Nat)
  deriving DecidableEq, Repr

/-- Effect of one step of core 0. -/
def do_event (E : Env) : event → Job Unit
  | .launch r budget => do
    xop_launch E r
    core1_slice E budget
  | .terminate_op => terminate_op
  | .poll => do
    let _ ← poll_xop_status
    pure ()
  | .transferred_buffer buffer_index => lift_pool (transferred_buffer buffer_index)
  | .release_buffer buffer_index => lift_pool (release_buffer buffer_index)

/-- Effect of a history of steps of core 0, in order; a panic on core 0 ends
the history. -/
def run_history (E : Env) : List event → Job Unit
  | [] => pure ()
  | e :: rest => do
    do_event E e
    run_history E rest

/-- Number of read-data jobs launched in a history. -/
def read_data_jobs : List event → Nat
  | [] => 0
  | .launch (.read_data _ _ _) _ :: rest => read_data_jobs rest + 1
  | _ :: rest => read_data_jobs rest

/-- The machine at startup: `next_read_data_serial` is initialised to 1; the
other fields are whatever they are. -/
def startup (s : Machine) : Machine :=
  { s with next_read_data_serial := 1 }

/-! ## Frame conditions, used in the proofs -/

/-- The program `m` keeps the observation `π` of the machine whenever it
returns, panics or is cut, and whenever it halts the state it halts in
satisfies `H` with respect to the observation at the start. -/
def Keeps {β α : Type} (π : Machine → β) (H : β → Machine → Prop) (m : Job α) : Prop :=
  ∀ s, match m s with
    | .halt s1 => H (π s) s1
    | .ret _ s1 => π s1 = π s
    | .panic _ s1 => π s1 = π s
    | .cut s1 => π s1 = π s

/-- The observation `π` does not depend on the fields that the code of a job
writes on its way, and `H` holds in the state in which `DONE` or `ERROR`
halts. -/
structure Frame {β : Type} (π : Machine → β) (H : β → Machine → Prop) : Prop where
  out : ∀ (s : Machine) o, π { s with out := o } = π s
  time : ∀ (s : Machine) t, π { s with time := t } = π s
  samples : ∀ (s : Machine) n, π { s with samples := n } = π s
  log : ∀ (s : Machine) l, π { s with bus_log := l } = π s
  begin_time : ∀ (s : Machine) t, π { s with job_begin_time_us := t } = π s
  dma : ∀ (s : Machine) d, π { s with dma_transfer := d } = π s
  pool : ∀ (s : Machine) b,
    b.map (fun x => x.filename) = s.buffers.map (fun x => x.filename) →
    π { s with buffers := b } = π s
  stop : ∀ (s : Machine) x d, x ≠ .XST_RUNNING →
    H (π s) { s with status := x, status_log := s.status_log ++ [x], job_duration_us := d }

/-- The program `m` never returns to its caller: it halts, panics or is cut. -/
def NeverReturns {α : Type} (m : Job α) : Prop :=
  ∀ s a s1, m s ≠ .ret a s1

/-- The status of the job together with the log of the assignments to it. -/
def status_view (s : Machine) : xop_status × List xop_status :=
  (s.status, s.status_log)

/-- The counter of single reads together with the labels of the buffers. -/
def label_view (s : Machine) : Nat × List (List Char) :=
  (s.next_read_data_serial, s.buffers.map fun x => x.filename)

/-- The statuses a job halts with: `DONE` or one of the error codes. -/
def terminal (x : xop_status) : Prop := x ≠ .XST_RUNNING

instance (x : xop_status) : Decidable (terminal x) := by
  unfold terminal; infer_instance

/-- What a job that halts leaves behind: one more entry in the log of the
status, the status it halted with, which is `DONE` or an error code. -/
def halted_once (p : xop_status × List xop_status) (s1 : Machine) : Prop :=
  s1.status_log = p.2 ++ [s1.status] ∧ terminal s1.status

/-! ## Notions of the specification, compared with the code in the theorems -/

/-- Exactly one buffer has moved, to the successor of its status in the cycle
of the specification; every other buffer is as before. -/
def one_step_forward (bufs bufs1 : Pool) : Prop :=
  ∃ (i : Nat) (x y : buffer), bufs[i]? = some x ∧ bufs1[i]? = some y ∧
    y.status = spec_successor x.status ∧
    bufs1.length = bufs.length ∧ ∀ j, j ≠ i → bufs1[j]? = bufs[j]?

/-- The lines tag1, tag2, tag3 and the ten bits of the value bus are low. -/
def outputs_low (o : Outputs) : Prop :=
  o.GPIO_TAG1 = false ∧ o.GPIO_TAG2 = false ∧ o.GPIO_TAG3 = false ∧
  o.GPIO_BIT0 = false ∧ o.GPIO_BIT1 = false ∧ o.GPIO_BIT2 = false ∧ o.GPIO_BIT3 = false ∧
  o.GPIO_BIT4 = false ∧ o.GPIO_BIT5 = false ∧ o.GPIO_BIT6 = false ∧ o.GPIO_BIT7 = false ∧
  o.GPIO_BIT8 = false ∧ o.GPIO_BIT9 = false

/-- The output levels once tag1, tag2, tag3 and the value bus have been put
low; the LED and the unit-select tag are as before. -/
def Outputs.cleared (o : Outputs) : Outputs :=
  { LED_PIN := o.LED_PIN
    GPIO_UNIT_SELECT_TAG := o.GPIO_UNIT_SELECT_TAG
    GPIO_TAG1 := false
    GPIO_TAG2 := false
    GPIO_TAG3 := false
    GPIO_BIT0 := false
    GPIO_BIT1 := false
    GPIO_BIT2 := false
    GPIO_BIT3 := false
    GPIO_BIT4 := false
    GPIO_BIT5 := false
    GPIO_BIT6 := false
    GPIO_BIT7 := false
    GPIO_BIT8 := false
    GPIO_BIT9 := false }

instance (o : Outputs) : Decidable (outputs_low o) := by
  unfold outputs_low; infer_instance

/-- The requests other than blink-test and read-data. -/
def request.drives_the_bus : request → Bool
  | .blink_test _ => false
  | .read_data _ _ _ => false
  | _ => true

/-- Neither fault nor seek-error is asserted in the input word `pins`. -/
def fault_free (c : Config) (pins : Nat) : Prop :=
  pins &&& ERROR_MASK c = 0

instance (c : Config) (pins : Nat) : Decidable (fault_free c pins) := by
  unfold fault_free; infer_instance

/-- Unit-ready and unit-selected are both asserted in the input word `pins`. -/
def ready_and_selected (c : Config) (pins : Nat) : Prop :=
  pins &&& READY_MASK c = READY_MASK c

instance (c : Config) (pins : Nat) : Decidable (ready_and_selected c pins) := by
  unfold ready_and_selected; infer_instance

/-- The state in which `ERROR(x)` halts when it is reached in the state `s`. -/
def halted_with (x : xop_status) (s : Machine) : Machine :=
  { s with status := x, status_log := s.status_log ++ [x],
           job_duration_us := s.time - s.job_begin_time_us }

/-- Samples of the input word that one round of `pin_mask_wait` takes. -/
def samples_per_poll (check_error : Nat) : Nat :=
  if check_error = 0 then 1 else 2

/-- A number in decimal, padded with zeros on the left to at least `width`
digits, in the words of the specification. -/
def spec_decimal (width n : Nat) : List Char :=
  List.replicate (width - (Nat.toDigits 10 n).length) '0' ++ Nat.toDigits 10 n

/-- The file name of a batch capture in the words of the specification:
`cylinderCCCC-headH[-servo-negative|-servo-positive][-strobe-early|-strobe-late].nrz`. -/
def spec_batch_filename (c h : Nat) (s d : Int) : List Char :=
  "cylinder".toList ++ spec_decimal 4 c ++ "-head".toList ++ spec_decimal 1 h
    ++ (if s = -1 then "-servo-negative".toList else [])
    ++ (if s = 1 then "-servo-positive".toList else [])
    ++ (if d = -1 then "-strobe-early".toList else [])
    ++ (if d = 1 then "-strobe-late".toList else [])
    ++ ".nrz".toList

/-- The file name of the `k`-th single read in the words of the
specification: `customNNNN.nrz`. -/
def spec_custom_filename (k : Nat) : List Char :=
  "custom".toList ++ spec_decimal 4 k ++ ".nrz".toList

/-- The list of values the specification gives for a spec value `v`: the
whole range for the sweep sentinel, else `v` clamped into `[-1, 1]`. -/
def spec_values (ENTIRE_RANGE v : Int) : List Int :=
  if v = ENTIRE_RANGE then [-1, 0, 1] else [max (-1) (min v 1)]

/-! ## Concrete inputs -/

/-- A configuration for the examples: buffers of 1024 bytes, labels of up to
64 bytes, 5 heads, the sentinel 100, and pin and bit numbers that are all
different. -/
def example_config : Config :=
  { MAX_DATA_BUFFER_SIZE := 1024
    CLOCKED_READ_BUFFER_FILENAME_MAX_LENGTH := 64
    DRIVE_HEAD_COUNT := 5
    ENTIRE_RANGE := 100
    index_fall_timeout_us := 1666
    index_rise_timeout_us := 50000
    BYTES_TO_32BIT_WORDS := fun n => (n + 3) / 4
    GPIO_FAULT := 10
    GPIO_SEEK_ERROR := 11
    GPIO_UNIT_READY := 12
    GPIO_UNIT_SELECTED := 13
    GPIO_ON_CYLINDER := 14
    GPIO_SEEK_END := 15
    GPIO_INDEX := 16
    TAG3BIT_READ_GATE := 2
    TAG3BIT_SERVO_OFFSET_POSITIVE := 4
    TAG3BIT_SERVO_OFFSET_NEGATIVE := 8
    TAG3BIT_DATA_STROBE_LATE := 128
    TAG3BIT_DATA_STROBE_EARLY := 64 }

/-- An environment for the examples: the drive is ready and selected, shows
no fault, is on cylinder with the seek ended; the capture is never busy; core
1 is left alone for a long time. -/
def example_env : Env :=
  { cfg := example_config
    pins := fun _ _ => (1 <<< 12) ||| (1 <<< 13) ||| (1 <<< 14) ||| (1 <<< 15)
    dma_busy := fun _ _ => false
    deadline := 100000000 }

/-- An environment for the examples in which the drive is not ready: every
input line is low. -/
def example_env_not_ready : Env :=
  { cfg := example_config
    pins := fun _ _ => 0
    dma_busy := fun _ _ => false
    deadline := 100000000 }

/-- A single read that completes at once (no index synchronisation, no
checks), followed by the two calls that hand its buffer back. -/
def example_round : List event :=
  [.launch (.read_data 1 0 1) 0, .transferred_buffer 0, .release_buffer 0]

/-- The history made of `n` rounds `example_round`. -/
def example_rounds : Nat → List event
  | 0 => []
  | n + 1 => example_round ++ example_rounds n

/-- A buffer with nothing in it, in the given status. -/
def example_buffer (st : buffer_status) : buffer :=
  { data := [], size := 0, status := st, filename := [] }

/-- A machine for the examples, with the given pool: all outputs are low,
nothing runs on core 1, the counter of single reads has its initial value,
nothing has been recorded. -/
def example_machine (bufs : Pool) : Machine :=
  { buffers := bufs
    dma_transfer := none
    status := .XST_DONE
    status_log := []
    job_begin_time_us := 0
    job_duration_us := 0
    next_read_data_serial := 1
    job_args :=
      { blink_test_fail := 0, select_cylinder_cylinder := 0, select_head_head := 0,
        tag3_strobe_ctrl := 0, read_enable_servo_offset := 0,
        read_enable_data_strobe_delay := 0, read_data_buffer_index := 0,
        read_data_n_32bit_words := 0, read_data_index_sync := 0, read_data_skip_checks := 0,
        batch_read_n_32bit_words_per_track := 0, batch_read_cylinder0 := 0,
        batch_read_cylinder1 := 0, batch_read_head_set := 0, batch_read_servo_offset := 0,
        batch_read_data_strobe_delay := 0 }
    out :=
      { LED_PIN := false, GPIO_UNIT_SELECT_TAG := false, GPIO_TAG1 := false,
        GPIO_TAG2 := false, GPIO_TAG3 := false, GPIO_BIT0 := false, GPIO_BIT1 := false,
        GPIO_BIT2 := false, GPIO_BIT3 := false, GPIO_BIT4 := false, GPIO_BIT5 := false,
        GPIO_BIT6 := false, GPIO_BIT7 := false, GPIO_BIT8 := false, GPIO_BIT9 := false }
    core1 := none
    time := 0
    samples := 0
    bus_log := [] }

/-! ## controller.c: the drain step -/

/-- Embedding of `handle_frontend_data_transfers`. The `printf` of the debug
line writes to the console only. A non-negative `int` converts to `unsigned`
as it is. -/
def handle_frontend_data_transfers : Prog Pool Unit := do
  let written_buffer_index ← get_written_buffer_index
  if written_buffer_index < 0 then pure ()
  else do
    let _buffer_size ← get_buffer_size written_buffer_index.toNat
    release_buffer written_buffer_index.toNat

/-! ## More concrete inputs -/

/-- An environment for the examples in which the drive stays ready, selected
and fault-free but never reports on-cylinder nor seek-end. -/
def example_env_seeking : Env :=
  { cfg := example_config
    pins := fun _ _ => (1 <<< 12) ||| (1 <<< 13)
    dma_busy := fun _ _ => false
    deadline := 100000000 }

/-- An environment for the examples in which the drive asserts fault all the
time and never reports unit-selected. -/
def example_env_faulty : Env :=
  { cfg := example_config
    pins := fun _ _ => (1 <<< 10) ||| (1 <<< 12)
    dma_busy := fun _ _ => false
    deadline := 100000000 }

/-- An environment for the examples in which the drive is ready, selected and
fault-free and off cylinder up to time 1014, and asserts fault from time 1015
on. -/
def example_env_late_fault : Env :=
  { cfg := example_config
    pins := fun t _ =>
      if t < 1015 then (1 <<< 12) ||| (1 <<< 13) else (1 <<< 10) ||| (1 <<< 12) ||| (1 <<< 13)
    dma_busy := fun _ _ => false
    deadline := 100000000 }

/-- An environment for the examples in which the drive is ready, selected,
fault-free and on cylinder with the seek ended, the index line is high at the
odd microseconds and low at the even ones, and the capture is never busy. -/
def example_env_spinning : Env :=
  { cfg := example_config
    pins := fun t _ =>
      if t % 2 = 1 then (1 <<< 12) ||| (1 <<< 13) ||| (1 <<< 14) ||| (1 <<< 15) ||| (1 <<< 16)
      else (1 <<< 12) ||| (1 <<< 13) ||| (1 <<< 14) ||| (1 <<< 15)
    dma_busy := fun _ _ => false
    deadline := 100000000 }

/-- A machine for the examples of the batch read, as `xop_read_batch(0, 0, 1,
8, servo_offset, 0)` leaves the arguments: cylinder 0 only, head 0 only, 8
words per track, the given servo offset, the data strobe delay 0. -/
def example_batch_machine (bufs : Pool) (servo_offset : Int) : Machine :=
  { example_machine bufs with
    job_args.batch_read_head_set := 1
    job_args.batch_read_n_32bit_words_per_track := 8
    job_args.batch_read_servo_offset := servo_offset }

/-! ## The drive of the batch read -/

/-- The two bits that the seek wait of `select_cylinder` waits for. -/
def seek_bits (c : Config) : Nat :=
  (1 <<< c.GPIO_ON_CYLINDER) ||| (1 <<< c.GPIO_SEEK_END)

/-- The control word that `read_enable_ex` puts on the bus. -/
def read_enable_word (c : Config) (servo_offset data_strobe_delay : Int) : Nat :=
  c.TAG3BIT_READ_GATE
    ||| (if servo_offset > 0 then c.TAG3BIT_SERVO_OFFSET_POSITIVE
         else if servo_offset < 0 then c.TAG3BIT_SERVO_OFFSET_NEGATIVE
         else 0)
    ||| (if data_strobe_delay > 0 then c.TAG3BIT_DATA_STROBE_LATE
         else if data_strobe_delay < 0 then c.TAG3BIT_DATA_STROBE_EARLY
         else 0)

/-- A drive that is always ready, selected and fault-free and that completes
every seek, every index wait and every capture: whenever a wait begins, the
awaited level is there within the time the wait allows, and a capture is over
within `capture_us` microseconds. -/
structure ideal_drive (E : Env) (capture_us : Nat) : Prop where
  clean : ∀ t n, fault_free E.cfg (E.pins t n) ∧ ready_and_selected E.cfg (E.pins t n)
  seek : ∀ t, ∃ j, j ≤ 1000000 ∧ ∀ n, E.pins (t + j) n &&& seek_bits E.cfg = seek_bits E.cfg
  index_fall : ∀ t, ∃ j, j ≤ E.cfg.index_fall_timeout_us ∧
    ∀ n, E.pins (t + j) n &&& (1 <<< E.cfg.GPIO_INDEX) = 0
  index_rise : ∀ t, ∃ j, j ≤ E.cfg.index_rise_timeout_us ∧
    ∀ n, E.pins (t + j) n &&& (1 <<< E.cfg.GPIO_INDEX) = 1 <<< E.cfg.GPIO_INDEX
  capture : ∀ t, ∃ j, j ≤ capture_us ∧ ∀ n, E.dma_busy (t + j) n = false

/-- The buffer `y` with the label that the `snprintf` statement of the batch
read stores in it for a combination. -/
def batch_labelled (E : Env) (y : buffer) (c h : Nat) (so dsd : Int) : buffer :=
  let name := c_snprintf E.cfg.CLOCKED_READ_BUFFER_FILENAME_MAX_LENGTH
    (batch_filename c h so dsd) y.filename
  { y with filename := name }

/-- The free buffer `f` once `allocate_buffer(n)` has taken it. -/
def allocated (E : Env) (f : buffer) (n : Nat) : buffer :=
  { f with status := .BUSY, size := min n E.cfg.MAX_DATA_BUFFER_SIZE }

/-- The free buffer `f` once `allocate_buffer(n)` has taken it and a capture
into it has been marked as written. -/
def captured (E : Env) (f : buffer) (n : Nat) : buffer :=
  { f with status := .WRITTEN, size := min n E.cfg.MAX_DATA_BUFFER_SIZE }

/-- The transfer count that `read_data` arms for the word count `n`. -/
def armed_words (E : Env) (n : Nat) : Nat :=
  E.cfg.BYTES_TO_32BIT_WORDS (min n E.cfg.MAX_DATA_BUFFER_SIZE)

/-- Number of free buffers in the pool. -/
def free_count (bufs : Pool) : Nat :=
  bufs.countP fun b => decide (b.status = .FREE)

/-- The entries that a loop over `xs` leaves in `bus_log` when the round for
`x` leaves the entries `f x`. -/
def trace_for {β : Type} (xs : List β) (f : β → List bus_event) : List bus_event :=
  match xs with
  | [] => []
  | x :: rest => f x ++ trace_for rest f

/-- The cylinders of a batch read, ascending. -/
def batch_cylinders (cylinder0 cylinder1 : Nat) : List Nat :=
  List.range' cylinder0 (cylinder1 + 1 - cylinder0)

/-- The heads of a batch read, ascending: the heads below `head_count` whose
bit is set in `head_set`. -/
def batch_heads (head_count head_set : Nat) : List Nat :=
  (List.range' 0 head_count).filter fun h => decide (head_set &&& (1 <<< h) ≠ 0)

/-- What one combination of a batch read shows on the bus: the read gate is
raised for the servo offset and the data strobe delay, one capture is armed,
the outputs are cleared. -/
def combination_trace (E : Env) (n : Nat) (servo_offset data_strobe_delay : Int) :
    List bus_event :=
  [.clear, .tag3 (read_enable_word E.cfg servo_offset data_strobe_delay),
   .capture (armed_words E n), .clear]

/-- What the round of a batch read for one head shows on the bus: the head is
selected, then the combinations follow, the servo offsets in order and for
each of them the data strobe delays in order. -/
def head_trace (E : Env) (n : Nat) (sos dsds : List Int) (head : Nat) : List bus_event :=
  [.clear, .tag2 head, .clear] ++
    trace_for sos fun so => trace_for dsds fun dsd => combination_trace E n so dsd

/-- What the round of a batch read for one cylinder shows on the bus: the
cylinder is selected, then the rounds of the heads follow in order. -/
def cylinder_trace (E : Env) (n : Nat) (heads : List Nat) (sos dsds : List Int)
    (cylinder : Nat) : List bus_event :=
  [.clear, .tag1 cylinder, .clear] ++ trace_for heads (head_trace E n sos dsds)

/-- What a batch read shows on the bus on an ideal drive: the rounds of the
cylinders in order. -/
def batch_trace (E : Env) (n : Nat) (cylinders heads : List Nat) (sos dsds : List Int) :
    List bus_event :=
  trace_for cylinders (cylinder_trace E n heads sos dsds)

/-- Microseconds that one combination of a batch read takes at most on an
ideal drive whose captures take at most `capture_us`. -/
def combination_us (E : Env) (capture_us : Nat) : Nat :=
  E.cfg.index_fall_timeout_us + E.cfg.index_rise_timeout_us + capture_us

/-- Microseconds that the round of one head takes at most. -/
def head_us (E : Env) (capture_us combinations : Nat) : Nat :=
  10 + combinations * combination_us E capture_us

/-- Microseconds that the round of one cylinder takes at most. -/
def cylinder_us (E : Env) (capture_us heads combinations : Nat) : Nat :=
  1001010 + heads * head_us E capture_us combinations

/-! # Theorems -/

/-! ## Sequencing -/

@[simp]
theorem Prog.pure_apply {σ α : Type} (a : α) (s : σ) :
    (pure a : Prog σ α) s = .ret a s := rfl

@[simp]
theorem Prog.bind_apply {σ α β : Type} (m : Prog σ α) (f : α → Prog σ β) (s : σ) :
    (m >>= f) s =
      match m s with
      | .ret a s1 => f a s1
      | .halt s1 => .halt s1
      | .panic c s1 => .panic c s1
      | .cut s1 => .cut s1 := rfl

theorem Prog.bind_ret {σ α β : Type} {m : Prog σ α} {f : α → Prog σ β} {s s1 : σ} {a : α}
    (h : m s = .ret a s1) : (m >>= f) s = f a s1 := by
  simp [h]

/-! ## The pool -/

theorem buffer_at_of_getElem? {bufs : Pool} {i : Nat} {b : buffer} (h : bufs[i]? = some b) :
    buffer_at bufs i = b := by
  simp [buffer_at, h]

theorem lt_length_of_getElem? {bufs : Pool} {i : Nat} {b : buffer} (h : bufs[i]? = some b) :
    i < bufs.length := by
  by_contra hc
  have : bufs[i]? = none := List.getElem?_eq_none (by omega)
  simp [this] at h

/-- The scan of `find_buffer_index`: either no buffer has the status and the
result is `-1`, or the result is the offset of the first buffer that has it. -/
theorem find_buffer_index_loop_spec (st : buffer_status) (l : List buffer) (i : Nat) :
    ((∀ b ∈ l, b.status ≠ st) ∧ find_buffer_index_loop st l i = -1) ∨
    ∃ k b, l[k]? = some b ∧ b.status = st ∧
      (∀ j b1, j < k → l[j]? = some b1 → b1.status ≠ st) ∧
      find_buffer_index_loop st l i = ((i + k : Nat) : Int) := by
  induction l generalizing i with
  | nil => left; simp [find_buffer_index_loop]
  | cons b rest ih =>
    by_cases hb : b.status = st
    · right
      refine ⟨0, b, by simp, hb, by intro j b1 hj; omega, by simp [find_buffer_index_loop, hb]⟩
    · rcases ih (i + 1) with ⟨hall, hres⟩ | ⟨k, b2, hk, hst, hmin, hres⟩
      · left
        refine ⟨?_, by simp [find_buffer_index_loop, hb, hres]⟩
        intro x hx
        rcases List.mem_cons.mp hx with rfl | hx
        · exact hb
        · exact hall x hx
      · right
        refine ⟨k + 1, b2, by simpa using hk, hst, ?_, ?_⟩
        · intro j b1 hj hj1
          cases j with
          | zero => simp at hj1; subst hj1; exact hb
          | succ j => exact hmin j b1 (by omega) (by simpa using hj1)
        · simp only [find_buffer_index_loop, hb, if_false, hres]
          congr 1; omega

theorem check_buffer_index_ok {bufs : Pool} {i : Nat} (h : i < bufs.length) :
    check_buffer_index i bufs = .ret () bufs := by
  simp [check_buffer_index]; omega

theorem get_buffer_status_ok {bufs : Pool} {i : Nat} {b : buffer} (h : bufs[i]? = some b) :
    get_buffer_status i bufs = .ret b.status bufs := by
  have hl := lt_length_of_getElem? h
  simp [get_buffer_status, check_buffer_index_ok hl, buffer_at_of_getElem? h]

theorem wrote_buffer_eq {bufs : Pool} {i : Nat} {b : buffer} (h : bufs[i]? = some b) :
    wrote_buffer i bufs =
      if b.status = .BUSY then .ret () (bufs.set i { b with status := .WRITTEN })
      else .panic .PANIC_UNEXPECTED_STATE bufs := by
  have hl := lt_length_of_getElem? h
  by_cases hs : b.status = .BUSY <;>
    simp [wrote_buffer, check_buffer_index_ok hl, get_buffer_status_ok h, hs, PANIC,
      set_buffer_status, buffer_at_of_getElem? h]

theorem transferred_buffer_eq {bufs : Pool} {i : Nat} {b : buffer} (h : bufs[i]? = some b) :
    transferred_buffer i bufs =
      if b.status = .WRITTEN then .ret () (bufs.set i { b with status := .TRANSFERRED })
      else .panic .PANIC_UNEXPECTED_STATE bufs := by
  have hl := lt_length_of_getElem? h
  by_cases hs : b.status = .WRITTEN <;>
    simp [transferred_buffer, check_buffer_index_ok hl, get_buffer_status_ok h, hs, PANIC,
      set_buffer_status, buffer_at_of_getElem? h]

theorem release_buffer_eq {bufs : Pool} {i : Nat} {b : buffer} (h : bufs[i]? = some b) :
    release_buffer i bufs =
      if b.status = .TRANSFERRED then .ret () (bufs.set i { b with status := .FREE })
      else .panic .PANIC_UNEXPECTED_STATE bufs := by
  have hl := lt_length_of_getElem? h
  by_cases hs : b.status = .TRANSFERRED <;>
    simp [release_buffer, check_buffer_index_ok hl, get_buffer_status_ok h, hs, PANIC,
      set_buffer_status, buffer_at_of_getElem? h]

/-- What `allocate_buffer` does, in terms of the scan: a panic when the scan
finds nothing, else the first free buffer made busy with the clamped size. -/
theorem allocate_buffer_eq (M size : Nat) (bufs : Pool) :
    ((∀ b ∈ bufs, b.status ≠ .FREE) ∧
      allocate_buffer M size bufs = .panic .PANIC_ALLOCATION_ERROR bufs) ∨
    ∃ k b, bufs[k]? = some b ∧ b.status = .FREE ∧
      (∀ j b1, j < k → bufs[j]? = some b1 → b1.status ≠ .FREE) ∧
      allocate_buffer M size bufs =
        .ret k (bufs.set k { b with status := .BUSY, size := min size M }) := by
  rcases find_buffer_index_loop_spec .FREE bufs 0 with ⟨hall, hres⟩ | ⟨k, b, hk, hst, hmin, hres⟩
  · left
    refine ⟨hall, ?_⟩
    simp [allocate_buffer, get_next_free_buffer_index, find_buffer_index, hres, PANIC]
  · right
    refine ⟨k, b, hk, hst, hmin, ?_⟩
    have hl := lt_length_of_getElem? hk
    have hmin2 : (if size > M then M else size) = min size M := by
      by_cases h : size > M
      · simp [h]; omega
      · simp [h]; omega
    simp only [Nat.zero_add] at hres
    have hk0 : ¬ ((k : Int) < 0) := by omega
    have hb : bufs[k] = b := by
      rw [List.getElem?_eq_getElem hl] at hk
      exact Option.some.inj hk
    simp [allocate_buffer, hk0, get_next_free_buffer_index, find_buffer_index, hres, PANIC,
      check_buffer_index_ok hl, set_buffer_status, set_buffer_size, buffer_at_of_getElem? hk,
      hmin2, buffer_at, hl, hb]

theorem one_step_forward_set {bufs : Pool} {i : Nat} {x y : buffer} (h : bufs[i]? = some x)
    (hy : y.status = spec_successor x.status) : one_step_forward bufs (bufs.set i y) := by
  have hl := lt_length_of_getElem? h
  refine ⟨i, x, y, h, by simp [hl], hy, by simp, ?_⟩
  intro j hj
  simp [List.getElem?_set_ne (Ne.symm hj)]

theorem can_allocate_buffer_eq (bufs : Pool) :
    ((∀ b ∈ bufs, b.status ≠ .FREE) ∧ can_allocate_buffer bufs = .ret 0 bufs) ∨
    ((∃ b ∈ bufs, b.status = .FREE) ∧ can_allocate_buffer bufs = .ret 1 bufs) := by
  rcases find_buffer_index_loop_spec .FREE bufs 0 with ⟨hall, hres⟩ | ⟨k, b, hk, hst, -, hres⟩
  · left
    refine ⟨hall, ?_⟩
    simp [can_allocate_buffer, get_next_free_buffer_index, find_buffer_index, hres]
  · right
    refine ⟨⟨b, List.getElem?_mem hk, hst⟩, ?_⟩
    simp only [Nat.zero_add] at hres
    simp [can_allocate_buffer, get_next_free_buffer_index, find_buffer_index, hres]

/-- C1. For every pool and every valid handle `h` (holding the buffer `b`):
`wrote_buffer`, `transferred_buffer` and `release_buffer` succeed exactly when
the buffer is BUSY, WRITTEN, TRANSFERRED respectively and then set it to
WRITTEN, TRANSFERRED, FREE; otherwise they panic and leave the pool as it
was. `allocate_buffer` either turns a FREE buffer into BUSY or panics and
leaves the pool as it was. Hence every successful call moves exactly one
buffer to its successor in the cycle FREE, BUSY, WRITTEN, TRANSFERRED, FREE. -/
theorem buffer_lifecycle_transitions (M size : Nat) (bufs : Pool) (h : Nat) (b : buffer)
    (hb : bufs[h]? = some b) :
    (wrote_buffer h bufs =
      if b.status = .BUSY then .ret () (bufs.set h { b with status := .WRITTEN })
      else .panic .PANIC_UNEXPECTED_STATE bufs) ∧
    (transferred_buffer h bufs =
      if b.status = .WRITTEN then .ret () (bufs.set h { b with status := .TRANSFERRED })
      else .panic .PANIC_UNEXPECTED_STATE bufs) ∧
    (release_buffer h bufs =
      if b.status = .TRANSFERRED then .ret () (bufs.set h { b with status := .FREE })
      else .panic .PANIC_UNEXPECTED_STATE bufs) ∧
    ((∃ i f, bufs[i]? = some f ∧ f.status = .FREE ∧
        allocate_buffer M size bufs =
          .ret i (bufs.set i { f with status := .BUSY, size := min size M })) ∨
      allocate_buffer M size bufs = .panic .PANIC_ALLOCATION_ERROR bufs) ∧
    (∀ bufs1, wrote_buffer h bufs = .ret () bufs1 → one_step_forward bufs bufs1) ∧
    (∀ bufs1, transferred_buffer h bufs = .ret () bufs1 → one_step_forward bufs bufs1) ∧
    (∀ bufs1, release_buffer h bufs = .ret () bufs1 → one_step_forward bufs bufs1) ∧
    (∀ i bufs1, allocate_buffer M size bufs = .ret i bufs1 → one_step_forward bufs bufs1) := by
  refine ⟨wrote_buffer_eq hb, transferred_buffer_eq hb, release_buffer_eq hb, ?_, ?_, ?_, ?_, ?_⟩
  · rcases allocate_buffer_eq M size bufs with ⟨-, hp⟩ | ⟨k, f, hk, hst, -, hr⟩
    · exact Or.inr hp
    · exact Or.inl ⟨k, f, hk, hst, hr⟩
  · intro bufs1 h1
    rw [wrote_buffer_eq hb] at h1
    by_cases hs : b.status = .BUSY
    · simp only [hs, if_true, Outcome.ret.injEq, true_and] at h1
      subst h1
      exact one_step_forward_set hb (by simp [hs, spec_successor])
    · simp [hs] at h1
  · intro bufs1 h1
    rw [transferred_buffer_eq hb] at h1
    by_cases hs : b.status = .WRITTEN
    · simp only [hs, if_true, Outcome.ret.injEq, true_and] at h1
      subst h1
      exact one_step_forward_set hb (by simp [hs, spec_successor])
    · simp [hs] at h1
  · intro bufs1 h1
    rw [release_buffer_eq hb] at h1
    by_cases hs : b.status = .TRANSFERRED
    · simp only [hs, if_true, Outcome.ret.injEq, true_and] at h1
      subst h1
      exact one_step_forward_set hb (by simp [hs, spec_successor])
    · simp [hs] at h1
  · intro i bufs1 h1
    rcases allocate_buffer_eq M size bufs with ⟨-, hp⟩ | ⟨k, f, hk, hst, -, hr⟩
    · rw [hp] at h1; simp at h1
    · rw [hr] at h1
      simp only [Outcome.ret.injEq] at h1
      obtain ⟨-, rfl⟩ := h1
      exact one_step_forward_set hk (by simp [hst, spec_successor])

/-- Witness of C1: a pool of one BUSY buffer and the handle 0. -/
theorem buffer_lifecycle_transitions_witness :
    [({ data := [], size := 4, status := .BUSY, filename := [] } : buffer)][0]? =
        some { data := [], size := 4, status := .BUSY, filename := [] } ∧
      wrote_buffer 0 [({ data := [], size := 4, status := .BUSY, filename := [] } : buffer)] =
        .ret () [{ data := [], size := 4, status := .WRITTEN, filename := [] }] := by
  refine ⟨rfl, ?_⟩
  have h := (buffer_lifecycle_transitions 8 4
    [({ data := [], size := 4, status := .BUSY, filename := [] } : buffer)] 0
    { data := [], size := 4, status := .BUSY, filename := [] } rfl).1
  simpa using h

/-- C2. Whenever some buffer is FREE, `allocate_buffer` returns the lowest
index `i` whose buffer is FREE, sets that buffer to BUSY with the size
`min size MAX_DATA_BUFFER_SIZE`, and leaves every other buffer as it was. It
panics exactly when no buffer is FREE. With the statuses BUSY, FREE, FREE it
returns the index 1. -/
theorem allocate_buffer_first_fit (M size : Nat) (bufs : Pool) :
    ((∃ b ∈ bufs, b.status = .FREE) →
      ∃ i f, bufs[i]? = some f ∧ f.status = .FREE ∧
        (∀ j b1, j < i → bufs[j]? = some b1 → b1.status ≠ .FREE) ∧
        allocate_buffer M size bufs =
          .ret i (bufs.set i { f with status := .BUSY, size := min size M }) ∧
        ∀ j, j ≠ i →
          (bufs.set i { f with status := .BUSY, size := min size M })[j]? = bufs[j]?) ∧
    ((∀ b ∈ bufs, b.status ≠ .FREE) ↔
      allocate_buffer M size bufs = .panic .PANIC_ALLOCATION_ERROR bufs) ∧
    (∀ b0 b1 b2 : buffer, b0.status = .BUSY → b1.status = .FREE → b2.status = .FREE →
      allocate_buffer M size [b0, b1, b2] =
        .ret 1 [b0, { b1 with status := .BUSY, size := min size M }, b2]) := by
  refine ⟨?_, ?_, ?_⟩
  · rintro ⟨x, hx, hxs⟩
    rcases allocate_buffer_eq M size bufs with ⟨hall, -⟩ | ⟨k, f, hk, hst, hmin, hr⟩
    · exact absurd hxs (hall x hx)
    · refine ⟨k, f, hk, hst, hmin, hr, ?_⟩
      intro j hj
      simp [List.getElem?_set_ne (Ne.symm hj)]
  · constructor
    · intro hall
      rcases allocate_buffer_eq M size bufs with ⟨-, hp⟩ | ⟨k, f, hk, hst, -, -⟩
      · exact hp
      · exact absurd hst (hall f (List.getElem?_mem hk))
    · intro hp
      rcases allocate_buffer_eq M size bufs with ⟨hall, -⟩ | ⟨k, f, -, -, -, hr⟩
      · exact hall
      · rw [hr] at hp; simp at hp
  · intro b0 b1 b2 h0 h1 h2
    rcases allocate_buffer_eq M size [b0, b1, b2] with ⟨hall, -⟩ | ⟨k, f, hk, hst, hmin, hr⟩
    · exact absurd h1 (hall b1 (by simp))
    · have hk1 : k = 1 := by
        rcases k with _ | _ | _ | k
        · simp at hk; subst hk; rw [h0] at hst; cases hst
        · rfl
        · exact absurd h1 (hmin 1 b1 (by omega) (by simp))
        · simp at hk
      subst hk1
      simp at hk
      subst hk
      simpa using hr

/-- Witness of C2: the pool with statuses BUSY, FREE, FREE. -/
theorem allocate_buffer_first_fit_witness :
    allocate_buffer 8 100
        [{ data := [], size := 0, status := .BUSY, filename := [] },
         { data := [], size := 0, status := .FREE, filename := [] },
         { data := [], size := 0, status := .FREE, filename := [] }] =
      .ret 1
        [{ data := [], size := 0, status := .BUSY, filename := [] },
         { data := [], size := 8, status := .BUSY, filename := [] },
         { data := [], size := 0, status := .FREE, filename := [] }] := by
  have h := (allocate_buffer_first_fit 8 100 []).2.2
    { data := [], size := 0, status := .BUSY, filename := [] }
    { data := [], size := 0, status := .FREE, filename := [] }
    { data := [], size := 0, status := .FREE, filename := [] } rfl rfl rfl
  simpa using h

/-- C3. `can_allocate_buffer` returns a non-zero value exactly when some
buffer is FREE, and it leaves the pool as it was. -/
theorem can_allocate_buffer_iff_free (bufs : Pool) :
    ∃ r, can_allocate_buffer bufs = .ret r bufs ∧ (r ≠ 0 ↔ ∃ b ∈ bufs, b.status = .FREE) := by
  rcases can_allocate_buffer_eq bufs with ⟨hall, hr⟩ | ⟨hex, hr⟩
  · refine ⟨0, hr, ?_⟩
    constructor
    · intro h; exact absurd rfl h
    · rintro ⟨b, hb, hs⟩; exact absurd hs (hall b hb)
  · exact ⟨1, hr, by simp [hex]⟩

/-- C4. `get_written_buffer_index` leaves the pool as it was and returns the
lowest index whose buffer is WRITTEN when there is one; its result is
negative exactly when no buffer is WRITTEN. -/
theorem get_written_buffer_index_lowest (bufs : Pool) :
    ∃ r, get_written_buffer_index bufs = .ret r bufs ∧
      (r < 0 ↔ ∀ b ∈ bufs, b.status ≠ .WRITTEN) ∧
      ((∃ b ∈ bufs, b.status = .WRITTEN) →
        ∃ (k : Nat) (b : buffer), r = (k : Int) ∧ bufs[k]? = some b ∧ b.status = .WRITTEN ∧
          ∀ (j : Nat) (b1 : buffer), j < k → bufs[j]? = some b1 → b1.status ≠ .WRITTEN) := by
  rcases find_buffer_index_loop_spec .WRITTEN bufs 0 with
    ⟨hall, hres⟩ | ⟨k, b, hk, hst, hmin, hres⟩
  · refine ⟨-1, by simp [get_written_buffer_index, find_buffer_index, hres], ?_, ?_⟩
    · simp only [Int.reduceNeg, Left.neg_neg_iff, zero_lt_one, true_iff]
      exact hall
    · rintro ⟨x, hx, hxs⟩
      exact absurd hxs (hall x hx)
  · simp only [Nat.zero_add] at hres
    refine ⟨k, by simp [get_written_buffer_index, find_buffer_index, hres], ?_, ?_⟩
    · constructor
      · intro h; omega
      · intro hall; exact absurd hst (hall b (List.getElem?_mem hk))
    · intro _
      exact ⟨k, b, rfl, hk, hst, hmin⟩

/-- Counterexample to C5 as stated: in the pool of one BUSY buffer, the
release call panics, leaves the pool as it was, and `can_allocate_buffer`
still returns 0. -/
theorem release_of_busy_buffer_panics :
    release_buffer 0 [{ data := [], size := 0, status := .BUSY, filename := [] }] =
        .panic .PANIC_UNEXPECTED_STATE
          [{ data := [], size := 0, status := .BUSY, filename := [] }] ∧
      can_allocate_buffer [{ data := [], size := 0, status := .BUSY, filename := [] }] =
        .ret 0 [{ data := [], size := 0, status := .BUSY, filename := [] }] := by
  constructor <;> rfl

/-- C5, amended. In a pool of any size in which no buffer is FREE,
`can_allocate_buffer` returns 0. One `release_buffer` call on a buffer of that
pool makes `can_allocate_buffer` return 1 when that buffer is TRANSFERRED;
otherwise (in particular when every buffer is BUSY) the call panics, leaves
the pool as it was, and `can_allocate_buffer` still returns 0. -/
theorem release_makes_allocatable (bufs : Pool) (i : Nat) (b : buffer)
    (hfull : ∀ x ∈ bufs, x.status ≠ .FREE) (hb : bufs[i]? = some b) :
    can_allocate_buffer bufs = .ret 0 bufs ∧
    (b.status = .TRANSFERRED →
      ∃ bufs1, release_buffer i bufs = .ret () bufs1 ∧
        can_allocate_buffer bufs1 = .ret 1 bufs1) ∧
    (b.status ≠ .TRANSFERRED →
      release_buffer i bufs = .panic .PANIC_UNEXPECTED_STATE bufs) := by
  have hl := lt_length_of_getElem? hb
  refine ⟨?_, ?_, ?_⟩
  · rcases can_allocate_buffer_eq bufs with ⟨-, hr⟩ | ⟨⟨x, hx, hxs⟩, -⟩
    · exact hr
    · exact absurd hxs (hfull x hx)
  · intro hs
    refine ⟨bufs.set i { b with status := .FREE }, by simp [release_buffer_eq hb, hs], ?_⟩
    rcases can_allocate_buffer_eq (bufs.set i { b with status := .FREE }) with
      ⟨hall, -⟩ | ⟨-, hr⟩
    · have hmem : ({ b with status := .FREE } : buffer) ∈ bufs.set i { b with status := .FREE } :=
        List.mem_iff_getElem?.mpr ⟨i, by simp [hl]⟩
      exact absurd rfl (hall _ hmem)
    · exact hr
  · intro hs
    simp [release_buffer_eq hb, hs]

/-- Witness of C5, amended: one TRANSFERRED buffer, released. -/
theorem release_makes_allocatable_witness :
    (∀ x ∈ [({ data := [], size := 0, status := .TRANSFERRED, filename := [] } : buffer)],
        x.status ≠ .FREE) ∧
      can_allocate_buffer
          [({ data := [], size := 0, status := .TRANSFERRED, filename := [] } : buffer)] =
        .ret 0 [{ data := [], size := 0, status := .TRANSFERRED, filename := [] }] :=
  ⟨by decide,
    (release_makes_allocatable
      [{ data := [], size := 0, status := .TRANSFERRED, filename := [] }] 0
      { data := [], size := 0, status := .TRANSFERRED, filename := [] } (by decide) rfl).1⟩

theorem for_values_same (v : Int) : for_values v v = [v] := by
  have h : (v + 1 - v).toNat = 1 := by omega
  have h1 : List.range 1 = [0] := rfl
  unfold for_values
  rw [h, h1]
  simp

theorem for_values_empty {lo hi : Int} (h : hi < lo) : for_values lo hi = [] := by
  have : (hi + 1 - lo).toNat = 0 := by omega
  simp [for_values, this]

theorem for_values_sweep : for_values (-1) 1 = [-1, 0, 1] := by
  decide

theorem loop_values_eq (ER v : Int) :
    for_values (servo_offset0 ER v) (servo_offset1 ER v) =
      if v = ER then [-1, 0, 1] else if -1 ≤ v ∧ v ≤ 1 then [v] else [] := by
  unfold servo_offset0 servo_offset1
  by_cases h : v = ER
  · simp only [h, if_true]
    exact for_values_sweep
  · simp only [h, if_false]
    by_cases h1 : v < -1
    · have h2 : ¬ v > 1 := by omega
      have h3 : ¬ (-1 ≤ v ∧ v ≤ 1) := by omega
      simp only [h1, h2, h3, if_true, if_false]
      exact for_values_empty h1
    · by_cases h2 : v > 1
      · have h3 : ¬ (-1 ≤ v ∧ v ≤ 1) := by omega
        simp only [h1, h2, h3, if_true, if_false]
        exact for_values_empty h2
      · have h3 : -1 ≤ v ∧ v ≤ 1 := by omega
        simp only [h1, h2, h3, if_true, if_false, and_self]
        exact for_values_same v

/-- C8, what the code does. For a spec value `v`, the loops of
`job_batch_read` over the servo offset and over the data strobe delay run
through `[-1, 0, 1]` when `v` is `ENTIRE_RANGE`, through `[v]` when `v` is in
`[-1, 1]`, and through nothing otherwise: each bound is clamped on one side
only, so a value outside `[-1, 1]` gives an empty range, not the clamped
value. In particular `v = 2` does not give `[1]` and `v = -5` does not give
`[-1]`, whatever the sentinel is. -/
theorem batch_loop_values (ER v : Int) :
    servo_offset_values ER v =
      (if v = ER then [-1, 0, 1] else if -1 ≤ v ∧ v ≤ 1 then [v] else []) ∧
    data_strobe_delay_values ER v =
      (if v = ER then [-1, 0, 1] else if -1 ≤ v ∧ v ≤ 1 then [v] else []) ∧
    servo_offset_values ER 2 ≠ [1] ∧ servo_offset_values ER (-5) ≠ [-1] ∧
    data_strobe_delay_values ER 2 ≠ [1] ∧ data_strobe_delay_values ER (-5) ≠ [-1] ∧
    servo_offset_values 100 2 = [] ∧ spec_values 100 2 = [1] := by
  have hs : ∀ w, servo_offset_values ER w =
      (if w = ER then [-1, 0, 1] else if -1 ≤ w ∧ w ≤ 1 then [w] else []) :=
    fun w => loop_values_eq ER w
  have hd : ∀ w, data_strobe_delay_values ER w =
      (if w = ER then [-1, 0, 1] else if -1 ≤ w ∧ w ≤ 1 then [w] else []) :=
    fun w => loop_values_eq ER w
  refine ⟨hs v, hd v, ?_, ?_, ?_, ?_, ?_, ?_⟩
  · rw [hs]; by_cases h : (2 : Int) = ER <;> simp [h]
  · rw [hs]; by_cases h : (-5 : Int) = ER <;> simp [h]
  · rw [hd]; by_cases h : (2 : Int) = ER <;> simp [h]
  · rw [hd]; by_cases h : (-5 : Int) = ER <;> simp [h]
  · rw [loop_values_eq 100 2 |> fun h => (h : servo_offset_values 100 2 = _)]; decide
  · decide

/-! ## File names -/

theorem to_int_of_lt {x : Nat} (h : x < 2 ^ 31) : to_int x = (x : Int) := by
  have h1 : x % 2 ^ 32 = x := Nat.mod_eq_of_lt (by omega)
  unfold to_int
  rw [h1, if_pos h]

theorem fmt_d_natCast (p n : Nat) : fmt_d p (n : Int) = spec_decimal p n := by
  have h : ¬ ((n : Int) < 0) := by omega
  simp [fmt_d, spec_decimal, h]

theorem c_snprintf_fits {n : Nat} {text old : List Char} (h : text.length < n) :
    c_snprintf n text old = text := by
  have h0 : n ≠ 0 := by omega
  simp only [c_snprintf, h0, if_false]
  exact List.take_of_length_le (by omega)

theorem batch_filename_eq_spec {c h : Nat} (s d : Int) (hc : c < 2 ^ 31) (hh : h < 2 ^ 31) :
    batch_filename c h s d = spec_batch_filename c h s d := by
  unfold batch_filename spec_batch_filename
  rw [to_int_of_lt hc, to_int_of_lt hh, fmt_d_natCast, fmt_d_natCast]
  by_cases hs : s = -1
  · have hs1 : ¬ s = 1 := by omega
    by_cases hd : d = -1
    · have hd1 : ¬ d = 1 := by omega
      simp [hs, hd]
    · by_cases hd1 : d = 1 <;> simp [hs, hd, hd1]
  · by_cases hs1 : s = 1
    · by_cases hd : d = -1
      · simp [hs1, hd]
      · by_cases hd1 : d = 1 <;> simp [hs1, hd, hd1]
    · by_cases hd : d = -1
      · simp [hs, hs1, hd]
      · by_cases hd1 : d = 1 <;> simp [hs, hs1, hd, hd1]

theorem get_buffer_filename_ok {s : Machine} {i : Nat} (h : i < s.buffers.length) :
    get_buffer_filename i s = .ret i s := by
  simp [get_buffer_filename, lift_pool, check_buffer_index_ok h]

/-- Counterexample to C9 as stated: for the cylinder `2 ^ 31` the `%.4d`
conversion prints the 32-bit word as a negative `int`, so the label is
`cylinder-2147483648-head0.nrz` (which fits 64 bytes) and not the name the
claim gives. -/
theorem batch_filename_of_cylinder_2_pow_31 :
    ((batch_read_label example_env 0 2147483648 0 0 0
        (example_machine [example_buffer .BUSY])).state.buffers.map fun b => b.filename) =
      ["cylinder-2147483648-head0.nrz".toList] ∧
    spec_batch_filename 2147483648 0 0 0 = "cylinder2147483648-head0.nrz".toList ∧
    (spec_batch_filename 2147483648 0 0 0).length <
      example_env.cfg.CLOCKED_READ_BUFFER_FILENAME_MAX_LENGTH := by
  refine ⟨?_, ?_, ?_⟩ <;> decide

/-- C9, amended. For every cylinder `c` and head `h` below `2 ^ 31` and every
servo offset `s` and data strobe delay `d`, the `snprintf` statement of the
batch read stores in the buffer the name made of `cylinder`, `c` in decimal
padded with zeros to at least 4 digits, `-head`, `h` in decimal,
`-servo-negative` if `s = -1` or `-servo-positive` if `s = 1`,
`-strobe-early` if `d = -1` or `-strobe-late` if `d = 1`, and `.nrz`, when
that name is shorter than `CLOCKED_READ_BUFFER_FILENAME_MAX_LENGTH`. Nothing
else in the machine changes. -/
theorem batch_read_label_filename (E : Env) (s : Machine) (i : Nat) (b : buffer) (c h : Nat)
    (so dsd : Int) (hb : s.buffers[i]? = some b) (hc : c < 2 ^ 31) (hh : h < 2 ^ 31)
    (hfit : (spec_batch_filename c h so dsd).length <
      E.cfg.CLOCKED_READ_BUFFER_FILENAME_MAX_LENGTH) :
    batch_read_label E i c h so dsd s =
      .ret ()
        { s with buffers := s.buffers.set i { b with filename := spec_batch_filename c h so dsd } } := by
  have hl := lt_length_of_getElem? hb
  simp [batch_read_label, get_buffer_filename_ok hl, snprintf_filename,
    buffer_at_of_getElem? hb, batch_filename_eq_spec so dsd hc hh, c_snprintf_fits hfit]

/-- Witness of C9: cylinder 3, head 1, servo offset -1, data strobe delay 0
give `cylinder0003-head1-servo-negative.nrz`. -/
theorem batch_read_label_filename_witness :
    spec_batch_filename 3 1 (-1) 0 = "cylinder0003-head1-servo-negative.nrz".toList ∧
    batch_read_label example_env 0 3 1 (-1) 0 (example_machine [example_buffer .BUSY]) =
      .ret () (example_machine
        [{ example_buffer .BUSY with filename := spec_batch_filename 3 1 (-1) 0 }]) :=
  ⟨by decide,
    batch_read_label_filename example_env (example_machine [example_buffer .BUSY]) 0
      (example_buffer .BUSY) 3 1 (-1) 0 rfl (by decide) (by decide) (by decide)⟩

/-! ## Launching -/

theorem clear_output_eq (s : Machine) :
    clear_output s =
      .ret () { s with out := s.out.cleared, bus_log := s.bus_log ++ [.clear] } := by
  simp [clear_output, set_bits, gpio_put, bus_record, Outputs.put, Outputs.cleared]

theorem reset_and_kill_output_eq (s : Machine) :
    reset_and_kill_output s =
      .ret () { s with core1 := none, time := s.time + 1, out := s.out.cleared,
                       bus_log := s.bus_log ++ [.clear] } := by
  simp [reset_and_kill_output, reset, multicore_reset_core1, core0_sleep_us, clear_output_eq]

theorem run_eq (fn : job_fn) (s : Machine) :
    run fn s = .ret ()
      { s with status := .XST_RUNNING, status_log := s.status_log ++ [.XST_RUNNING],
               core1 := some fn } := by
  simp [run, set_status, multicore_launch_core1]

theorem outputs_low_cleared (o : Outputs) : outputs_low o.cleared := by
  simp [outputs_low, Outputs.cleared]

theorem xop_read_data_frame (E : Env) (n i k : Nat) (s : Machine) :
    (∃ b s1, xop_read_data E n i k s = .ret b s1 ∧ s1.out = s.out ∧
        s1.core1 = some .job_read_data ∧ s1.status = .XST_RUNNING ∧
        s1.status_log = s.status_log ++ [.XST_RUNNING] ∧
        s1.next_read_data_serial = s.next_read_data_serial) ∨
    (∃ c s1, xop_read_data E n i k s = .panic c s1 ∧ s1.out = s.out ∧ s1.core1 = none ∧
        s1.status = s.status ∧ s1.status_log = s.status_log ∧
        s1.next_read_data_serial = s.next_read_data_serial) := by
  unfold xop_read_data
  generalize (n <<< 2) % 2 ^ 32 = sz
  rcases allocate_buffer_eq E.cfg.MAX_DATA_BUFFER_SIZE sz s.buffers with
    ⟨-, hp⟩ | ⟨j, f, -, -, -, hr⟩
  · right
    simp only [Prog.bind_apply, reset, multicore_reset_core1, lift_pool, hp]
    exact ⟨_, _, rfl, rfl, rfl, rfl, rfl, rfl⟩
  · left
    simp only [Prog.bind_apply, reset, multicore_reset_core1, lift_pool, hr, run_eq,
      Prog.pure_apply]
    exact ⟨_, _, rfl, rfl, rfl, rfl, rfl, rfl⟩

section frame

variable {β : Type} {π : Machine → β} {H : β → Machine → Prop}

set_option linter.unusedTactic false
set_option linter.unreachableTactic false

theorem Keeps_pure {α : Type} (a : α) : Keeps π H (pure a : Job α) := by
  intro s; rfl

theorem Keeps_bind {α γ : Type} {m : Job α} {f : α → Job γ} (hm : Keeps π H m)
    (hf : ∀ a, Keeps π H (f a)) : Keeps π H (m >>= f) := by
  intro s
  have h1 := hm s
  simp only [Prog.bind_apply]
  cases hms : m s with
  | ret a s1 =>
    rw [hms] at h1
    simp only at h1
    have h2 := hf a s1
    simp only
    cases hfs : f a s1 with
    | ret b s2 => rw [hfs] at h2; simp only at h2 ⊢; rw [h2, h1]
    | halt s2 => rw [hfs] at h2; simp only at h2 ⊢; rw [← h1]; exact h2
    | panic c s2 => rw [hfs] at h2; simp only at h2 ⊢; rw [h2, h1]
    | cut s2 => rw [hfs] at h2; simp only at h2 ⊢; rw [h2, h1]
  | halt s1 => rw [hms] at h1; simpa using h1
  | panic c s1 => rw [hms] at h1; simpa using h1
  | cut s1 => rw [hms] at h1; simpa using h1

theorem Keeps_ite {α : Type} (c : Prop) [Decidable c] {a b : Job α} (ha : Keeps π H a)
    (hb : Keeps π H b) : Keeps π H (if c then a else b) := by
  by_cases h : c
  · simpa [h] using ha
  · simpa [h] using hb

theorem Keeps_machine : Keeps π H machine := by
  intro s; rfl

theorem Keeps_get_absolute_time : Keeps π H get_absolute_time := by
  intro s; rfl

theorem Keeps_gpio_put (F : Frame π H) (l : out_line) (v : Bool) :
    Keeps π H (gpio_put l v) := by
  intro s; exact F.out s _

theorem Keeps_sleep_us (F : Frame π H) (E : Env) (n : Nat) : Keeps π H (sleep_us E n) := by
  intro s
  unfold sleep_us
  by_cases h : s.time + n ≤ E.deadline
  · simp only [h, if_true]; exact F.time s _
  · simp only [h, if_false]

theorem Keeps_sleep_ms (F : Frame π H) (E : Env) (n : Nat) : Keeps π H (sleep_ms E n) :=
  Keeps_sleep_us F E _

theorem Keeps_gpio_get_all (F : Frame π H) (E : Env) : Keeps π H (gpio_get_all E) := by
  intro s; exact F.samples s _

theorem Keeps_clocked_read_is_running (F : Frame π H) (E : Env) :
    Keeps π H (clocked_read_is_running E) := by
  intro s; exact F.samples s _

theorem Keeps_BEGIN (F : Frame π H) : Keeps π H BEGIN := by
  intro s; exact F.begin_time s _

theorem Keeps_ERROR (F : Frame π H) {α : Type} (x : xop_status) (hx : x ≠ .XST_RUNNING) :
    Keeps π H (ERROR x : Job α) := by
  intro s; exact F.stop s x _ hx

theorem Keeps_DONE (F : Frame π H) {α : Type} : Keeps π H (DONE : Job α) := by
  intro s; exact F.stop s .XST_DONE _ (by decide)

theorem Keeps_bus_record (F : Frame π H) (e : bus_event) : Keeps π H (bus_record e) := by
  intro s; exact F.log s _

theorem Keeps_check_drive_error (F : Frame π H) (E : Env) :
    Keeps π H (check_drive_error E) := by
  unfold check_drive_error
  repeat' with_reducible first
    | exact Keeps_pure _
    | exact Keeps_machine
    | exact Keeps_get_absolute_time
    | exact Keeps_gpio_put F _ _
    | exact Keeps_sleep_us F _ _
    | exact Keeps_sleep_ms F _ _
    | exact Keeps_gpio_get_all F _
    | exact Keeps_clocked_read_is_running F _
    | exact Keeps_BEGIN F
    | exact Keeps_DONE F
    | exact Keeps_ERROR F _ (by decide)
    | exact Keeps_bus_record F _
    | apply Keeps_bind
    | apply Keeps_ite
    | intro _

theorem Keeps_set_bits (F : Frame π H) (value : Nat) :
    Keeps π H (set_bits value) := by
  unfold set_bits
  repeat' with_reducible first
    | exact Keeps_pure _
    | exact Keeps_machine
    | exact Keeps_get_absolute_time
    | exact Keeps_gpio_put F _ _
    | exact Keeps_sleep_us F _ _
    | exact Keeps_sleep_ms F _ _
    | exact Keeps_gpio_get_all F _
    | exact Keeps_clocked_read_is_running F _
    | exact Keeps_BEGIN F
    | exact Keeps_DONE F
    | exact Keeps_ERROR F _ (by decide)
    | exact Keeps_bus_record F _
    | apply Keeps_bind
    | apply Keeps_ite
    | intro _

theorem Keeps_clear_output (F : Frame π H)  :
    Keeps π H (clear_output) := by
  unfold clear_output
  repeat' with_reducible first
    | exact Keeps_pure _
    | exact Keeps_machine
    | exact Keeps_get_absolute_time
    | exact Keeps_gpio_put F _ _
    | exact Keeps_sleep_us F _ _
    | exact Keeps_sleep_ms F _ _
    | exact Keeps_gpio_get_all F _
    | exact Keeps_clocked_read_is_running F _
    | exact Keeps_BEGIN F
    | exact Keeps_DONE F
    | exact Keeps_ERROR F _ (by decide)
    | exact Keeps_bus_record F _
    | exact Keeps_set_bits F _
    | apply Keeps_bind
    | apply Keeps_ite
    | intro _

theorem Keeps_unit0_select_tag (F : Frame π H)  :
    Keeps π H (unit0_select_tag) := by
  unfold unit0_select_tag
  repeat' with_reducible first
    | exact Keeps_pure _
    | exact Keeps_machine
    | exact Keeps_get_absolute_time
    | exact Keeps_gpio_put F _ _
    | exact Keeps_sleep_us F _ _
    | exact Keeps_sleep_ms F _ _
    | exact Keeps_gpio_get_all F _
    | exact Keeps_clocked_read_is_running F _
    | exact Keeps_BEGIN F
    | exact Keeps_DONE F
    | exact Keeps_ERROR F _ (by decide)
    | exact Keeps_bus_record F _
    | apply Keeps_bind
    | apply Keeps_ite
    | intro _

theorem Keeps_tag1_cylinder (F : Frame π H) (E : Env) (cylinder : Nat) :
    Keeps π H (tag1_cylinder E cylinder) := by
  unfold tag1_cylinder
  repeat' with_reducible first
    | exact Keeps_pure _
    | exact Keeps_machine
    | exact Keeps_get_absolute_time
    | exact Keeps_gpio_put F _ _
    | exact Keeps_sleep_us F _ _
    | exact Keeps_sleep_ms F _ _
    | exact Keeps_gpio_get_all F _
    | exact Keeps_clocked_read_is_running F _
    | exact Keeps_BEGIN F
    | exact Keeps_DONE F
    | exact Keeps_ERROR F _ (by decide)
    | exact Keeps_bus_record F _
    | exact Keeps_set_bits F _
    | exact Keeps_clear_output F
    | apply Keeps_bind
    | apply Keeps_ite
    | intro _

theorem Keeps_tag2_head (F : Frame π H) (E : Env) (head : Nat) :
    Keeps π H (tag2_head E head) := by
  unfold tag2_head
  repeat' with_reducible first
    | exact Keeps_pure _
    | exact Keeps_machine
    | exact Keeps_get_absolute_time
    | exact Keeps_gpio_put F _ _
    | exact Keeps_sleep_us F _ _
    | exact Keeps_sleep_ms F _ _
    | exact Keeps_gpio_get_all F _
    | exact Keeps_clocked_read_is_running F _
    | exact Keeps_BEGIN F
    | exact Keeps_DONE F
    | exact Keeps_ERROR F _ (by decide)
    | exact Keeps_bus_record F _
    | exact Keeps_set_bits F _
    | exact Keeps_clear_output F
    | apply Keeps_bind
    | apply Keeps_ite
    | intro _

theorem Keeps_tag3_ctrl (F : Frame π H) (ctrl : Nat) :
    Keeps π H (tag3_ctrl ctrl) := by
  unfold tag3_ctrl
  repeat' with_reducible first
    | exact Keeps_pure _
    | exact Keeps_machine
    | exact Keeps_get_absolute_time
    | exact Keeps_gpio_put F _ _
    | exact Keeps_sleep_us F _ _
    | exact Keeps_sleep_ms F _ _
    | exact Keeps_gpio_get_all F _
    | exact Keeps_clocked_read_is_running F _
    | exact Keeps_BEGIN F
    | exact Keeps_DONE F
    | exact Keeps_ERROR F _ (by decide)
    | exact Keeps_bus_record F _
    | exact Keeps_set_bits F _
    | exact Keeps_clear_output F
    | apply Keeps_bind
    | apply Keeps_ite
    | intro _

theorem Keeps_tag3_ctrl_strobe (F : Frame π H) (E : Env) (ctrl : Nat) :
    Keeps π H (tag3_ctrl_strobe E ctrl) := by
  unfold tag3_ctrl_strobe
  repeat' with_reducible first
    | exact Keeps_pure _
    | exact Keeps_machine
    | exact Keeps_get_absolute_time
    | exact Keeps_gpio_put F _ _
    | exact Keeps_sleep_us F _ _
    | exact Keeps_sleep_ms F _ _
    | exact Keeps_gpio_get_all F _
    | exact Keeps_clocked_read_is_running F _
    | exact Keeps_BEGIN F
    | exact Keeps_DONE F
    | exact Keeps_ERROR F _ (by decide)
    | exact Keeps_bus_record F _
    | exact Keeps_tag3_ctrl F _
    | exact Keeps_clear_output F
    | apply Keeps_bind
    | apply Keeps_ite
    | intro _

theorem Keeps_pin_mask_wait_loop (F : Frame π H) (E : Env)
    (mask value timeout_us check_error t0 fuel : Nat) :
    Keeps π H (pin_mask_wait_loop E mask value timeout_us check_error t0 fuel) := by
  induction fuel with
  | zero => intro s; rfl
  | succ n ih =>
    unfold pin_mask_wait_loop
    repeat' with_reducible first
      | exact Keeps_pure _
      | exact Keeps_machine
      | exact Keeps_get_absolute_time
      | exact Keeps_gpio_put F _ _
      | exact Keeps_sleep_us F _ _
      | exact Keeps_sleep_ms F _ _
      | exact Keeps_gpio_get_all F _
      | exact Keeps_clocked_read_is_running F _
      | exact Keeps_BEGIN F
      | exact Keeps_DONE F
      | exact Keeps_ERROR F _ (by decide)
      | exact Keeps_bus_record F _
      | exact Keeps_check_drive_error F _
      | exact ih
      | apply Keeps_bind
      | apply Keeps_ite
      | intro _

theorem Keeps_pin_mask_wait (F : Frame π H) (E : Env) (mask value timeout_us check_error : Nat) :
    Keeps π H (pin_mask_wait E mask value timeout_us check_error) := by
  unfold pin_mask_wait
  repeat' with_reducible first
    | exact Keeps_pure _
    | exact Keeps_machine
    | exact Keeps_get_absolute_time
    | exact Keeps_gpio_put F _ _
    | exact Keeps_sleep_us F _ _
    | exact Keeps_sleep_ms F _ _
    | exact Keeps_gpio_get_all F _
    | exact Keeps_clocked_read_is_running F _
    | exact Keeps_BEGIN F
    | exact Keeps_DONE F
    | exact Keeps_ERROR F _ (by decide)
    | exact Keeps_bus_record F _
    | exact Keeps_pin_mask_wait_loop F _ _ _ _ _ _ _
    | apply Keeps_bind
    | apply Keeps_ite
    | intro _

theorem Keeps_pin_wait (F : Frame π H) (E : Env) (gpio_pin value timeout_us check_error : Nat) :
    Keeps π H (pin_wait E gpio_pin value timeout_us check_error) :=
  Keeps_pin_mask_wait F _ _ _ _ _

theorem Keeps_pin_wait_for_one (F : Frame π H) (E : Env) (gpio_pin timeout_us check_error : Nat) :
    Keeps π H (pin_wait_for_one E gpio_pin timeout_us check_error) :=
  Keeps_pin_wait F _ _ _ _ _

theorem Keeps_pin_wait_for_zero (F : Frame π H) (E : Env) (gpio_pin timeout_us check_error : Nat) :
    Keeps π H (pin_wait_for_zero E gpio_pin timeout_us check_error) :=
  Keeps_pin_wait F _ _ _ _ _

theorem Keeps_select_unit0 (F : Frame π H) (E : Env) :
    Keeps π H (select_unit0 E) := by
  unfold select_unit0
  repeat' with_reducible first
    | exact Keeps_pure _
    | exact Keeps_machine
    | exact Keeps_get_absolute_time
    | exact Keeps_gpio_put F _ _
    | exact Keeps_sleep_us F _ _
    | exact Keeps_sleep_ms F _ _
    | exact Keeps_gpio_get_all F _
    | exact Keeps_clocked_read_is_running F _
    | exact Keeps_BEGIN F
    | exact Keeps_DONE F
    | exact Keeps_ERROR F _ (by decide)
    | exact Keeps_bus_record F _
    | exact Keeps_unit0_select_tag F
    | exact Keeps_pin_wait_for_one F _ _ _ _
    | exact Keeps_check_drive_error F _
    | apply Keeps_bind
    | apply Keeps_ite
    | intro _

theorem Keeps_read_enable_ex (F : Frame π H) (E : Env) (servo_offset data_strobe_delay : Int) :
    Keeps π H (read_enable_ex E servo_offset data_strobe_delay) := by
  unfold read_enable_ex
  repeat' with_reducible first
    | exact Keeps_pure _
    | exact Keeps_machine
    | exact Keeps_get_absolute_time
    | exact Keeps_gpio_put F _ _
    | exact Keeps_sleep_us F _ _
    | exact Keeps_sleep_ms F _ _
    | exact Keeps_gpio_get_all F _
    | exact Keeps_clocked_read_is_running F _
    | exact Keeps_BEGIN F
    | exact Keeps_DONE F
    | exact Keeps_ERROR F _ (by decide)
    | exact Keeps_bus_record F _
    | exact Keeps_check_drive_error F _
    | exact Keeps_tag3_ctrl F _
    | apply Keeps_bind
    | apply Keeps_ite
    | intro _

theorem Keeps_select_cylinder (F : Frame π H) (E : Env) (cylinder : Nat) :
    Keeps π H (select_cylinder E cylinder) := by
  unfold select_cylinder
  repeat' with_reducible first
    | exact Keeps_pure _
    | exact Keeps_machine
    | exact Keeps_get_absolute_time
    | exact Keeps_gpio_put F _ _
    | exact Keeps_sleep_us F _ _
    | exact Keeps_sleep_ms F _ _
    | exact Keeps_gpio_get_all F _
    | exact Keeps_clocked_read_is_running F _
    | exact Keeps_BEGIN F
    | exact Keeps_DONE F
    | exact Keeps_ERROR F _ (by decide)
    | exact Keeps_bus_record F _
    | exact Keeps_check_drive_error F _
    | exact Keeps_tag1_cylinder F _ _
    | exact Keeps_pin_mask_wait F _ _ _ _ _
    | apply Keeps_bind
    | apply Keeps_ite
    | intro _

theorem Keeps_select_head (F : Frame π H) (E : Env) (head : Nat) :
    Keeps π H (select_head E head) := by
  unfold select_head
  repeat' with_reducible first
    | exact Keeps_pure _
    | exact Keeps_machine
    | exact Keeps_get_absolute_time
    | exact Keeps_gpio_put F _ _
    | exact Keeps_sleep_us F _ _
    | exact Keeps_sleep_ms F _ _
    | exact Keeps_gpio_get_all F _
    | exact Keeps_clocked_read_is_running F _
    | exact Keeps_BEGIN F
    | exact Keeps_DONE F
    | exact Keeps_ERROR F _ (by decide)
    | exact Keeps_bus_record F _
    | exact Keeps_check_drive_error F _
    | exact Keeps_tag2_head F _ _
    | apply Keeps_bind
    | apply Keeps_ite
    | intro _

theorem Keeps_PANIC {α : Type} (c : panic_code) : Keeps π H (PANIC c : Job α) := by
  intro s; rfl

theorem Keeps_lift_pool (F : Frame π H) {α : Type} {m : Prog Pool α}
    (hm : ∀ bufs, (∀ b, m bufs ≠ .halt b) ∧
      (m bufs).state.map (fun x => x.filename) = bufs.map (fun x => x.filename)) :
    Keeps π H (lift_pool m) := by
  intro s
  obtain ⟨h1, h2⟩ := hm s.buffers
  unfold lift_pool
  cases hms : m s.buffers with
  | ret a b => rw [hms] at h2; exact F.pool s b h2
  | halt b => exact absurd hms (h1 b)
  | panic c b => rw [hms] at h2; exact F.pool s b h2
  | cut b => rw [hms] at h2; exact F.pool s b h2

theorem map_filename_set {bufs : Pool} {i : Nat} {b b1 : buffer} (h : bufs[i]? = some b)
    (hf : b1.filename = b.filename) :
    (bufs.set i b1).map (fun x => x.filename) = bufs.map (fun x => x.filename) := by
  apply List.ext_getElem?
  intro j
  by_cases hj : i = j
  · subst hj
    have hl := lt_length_of_getElem? h
    rw [List.getElem?_map, List.getElem?_map, List.getElem?_set_self hl, h]
    simp [hf]
  · simp [List.getElem?_map, List.getElem?_set_ne hj]

theorem pool_frame_check_buffer_index (i : Nat) (bufs : Pool) :
    (∀ b, check_buffer_index i bufs ≠ .halt b) ∧
      (check_buffer_index i bufs).state.map (fun x => x.filename) =
        bufs.map (fun x => x.filename) := by
  unfold check_buffer_index
  by_cases h : i ≥ bufs.length <;> simp [h, Outcome.state]

theorem pool_frame_can_allocate_buffer (bufs : Pool) :
    (∀ b, can_allocate_buffer bufs ≠ .halt b) ∧
      (can_allocate_buffer bufs).state.map (fun x => x.filename) =
        bufs.map (fun x => x.filename) := by
  rcases can_allocate_buffer_eq bufs with ⟨-, h⟩ | ⟨-, h⟩ <;> simp [h, Outcome.state]

theorem pool_frame_allocate_buffer (M size : Nat) (bufs : Pool) :
    (∀ b, allocate_buffer M size bufs ≠ .halt b) ∧
      (allocate_buffer M size bufs).state.map (fun x => x.filename) =
        bufs.map (fun x => x.filename) := by
  rcases allocate_buffer_eq M size bufs with ⟨-, h⟩ | ⟨k, f, hk, -, -, h⟩
  · simp [h, Outcome.state]
  · rw [h]
    exact ⟨fun b hb => (by cases hb), map_filename_set hk rfl⟩

theorem pool_frame_wrote_buffer (i : Nat) (bufs : Pool) :
    (∀ b, wrote_buffer i bufs ≠ .halt b) ∧
      (wrote_buffer i bufs).state.map (fun x => x.filename) =
        bufs.map (fun x => x.filename) := by
  by_cases hi : i < bufs.length
  · have hb : bufs[i]? = some bufs[i] := List.getElem?_eq_getElem hi
    rw [wrote_buffer_eq hb]
    by_cases hs : bufs[i].status = .BUSY
    · rw [if_pos hs]
      exact ⟨fun b hb => (by cases hb), map_filename_set hb rfl⟩
    · simp [hs, Outcome.state]
  · have hp : check_buffer_index i bufs = .panic .PANIC_BOUNDS_CHECK_FAILED bufs := by
      simp [check_buffer_index]; omega
    simp [wrote_buffer, hp, Outcome.state]

theorem Keeps_snprintf_filename (hp : ∀ (s : Machine) b, π { s with buffers := b } = π s)
    (E : Env) (dst : Nat) (text : List Char) : Keeps π H (snprintf_filename E dst text) := by
  intro s; exact hp s _

theorem Keeps_get_buffer_filename (F : Frame π H) (i : Nat) :
    Keeps π H (get_buffer_filename i) := by
  unfold get_buffer_filename
  exact Keeps_bind (Keeps_lift_pool F (pool_frame_check_buffer_index i)) fun _ => Keeps_pure _

theorem Keeps_dma_transfer (F : Frame π H) (d : Option (Nat × Nat)) :
    Keeps π H (fun s => .ret () { s with dma_transfer := d } : Job Unit) := by
  intro s; exact F.dma s _

theorem Keeps_for_each {γ : Type} (xs : List γ) {body : γ → Job Unit}
    (hb : ∀ x, Keeps π H (body x)) : Keeps π H (for_each xs body) := by
  induction xs with
  | nil => exact Keeps_pure _
  | cons x rest ih =>
    unfold for_each
    exact Keeps_bind (hb x) fun _ => ih

theorem Keeps_clocked_read_into_buffer (F : Frame π H) (E : Env) (buffer_index n_bytes : Nat) :
    Keeps π H (clocked_read_into_buffer E buffer_index n_bytes) := by
  unfold clocked_read_into_buffer
  repeat' with_reducible first
    | exact Keeps_pure _
    | exact Keeps_machine
    | exact Keeps_get_absolute_time
    | exact Keeps_gpio_put F _ _
    | exact Keeps_sleep_us F _ _
    | exact Keeps_sleep_ms F _ _
    | exact Keeps_gpio_get_all F _
    | exact Keeps_clocked_read_is_running F _
    | exact Keeps_BEGIN F
    | exact Keeps_DONE F
    | exact Keeps_ERROR F _ (by decide)
    | exact Keeps_bus_record F _
    | exact Keeps_lift_pool F (pool_frame_check_buffer_index _)
    | exact Keeps_lift_pool F pool_frame_can_allocate_buffer
    | exact Keeps_lift_pool F (pool_frame_allocate_buffer _ _)
    | exact Keeps_lift_pool F (pool_frame_wrote_buffer _)
    | exact Keeps_PANIC _
    | exact Keeps_dma_transfer F _
    | exact Keeps_check_drive_error F _
    | apply Keeps_bind
    | apply Keeps_ite
    | intro _

theorem Keeps_read_data_loop (F : Frame π H) (E : Env) (skip_checks fuel : Nat) :
    Keeps π H (read_data_loop E skip_checks fuel) := by
  induction fuel with
  | zero => intro s; rfl
  | succ n ih =>
    unfold read_data_loop
    repeat' with_reducible first
      | exact Keeps_pure _
      | exact Keeps_machine
      | exact Keeps_get_absolute_time
      | exact Keeps_gpio_put F _ _
      | exact Keeps_sleep_us F _ _
      | exact Keeps_sleep_ms F _ _
      | exact Keeps_gpio_get_all F _
      | exact Keeps_clocked_read_is_running F _
      | exact Keeps_BEGIN F
      | exact Keeps_DONE F
      | exact Keeps_ERROR F _ (by decide)
      | exact Keeps_bus_record F _
      | exact Keeps_lift_pool F (pool_frame_check_buffer_index _)
      | exact Keeps_lift_pool F pool_frame_can_allocate_buffer
      | exact Keeps_lift_pool F (pool_frame_allocate_buffer _ _)
      | exact Keeps_lift_pool F (pool_frame_wrote_buffer _)
      | exact Keeps_PANIC _
      | exact Keeps_dma_transfer F _
      | exact Keeps_check_drive_error F _
      | exact ih
      | apply Keeps_bind
      | apply Keeps_ite
      | intro _

theorem Keeps_read_data_wait (F : Frame π H) (E : Env) (skip_checks : Nat) :
    Keeps π H (read_data_wait E skip_checks) := by
  intro s; exact Keeps_read_data_loop F E skip_checks _ s

theorem Keeps_read_data (F : Frame π H) (E : Env) (buffer_index n_32bit_words index_sync skip_checks : Nat) :
    Keeps π H (read_data E buffer_index n_32bit_words index_sync skip_checks) := by
  unfold read_data
  repeat' with_reducible first
    | exact Keeps_pure _
    | exact Keeps_machine
    | exact Keeps_get_absolute_time
    | exact Keeps_gpio_put F _ _
    | exact Keeps_sleep_us F _ _
    | exact Keeps_sleep_ms F _ _
    | exact Keeps_gpio_get_all F _
    | exact Keeps_clocked_read_is_running F _
    | exact Keeps_BEGIN F
    | exact Keeps_DONE F
    | exact Keeps_ERROR F _ (by decide)
    | exact Keeps_bus_record F _
    | exact Keeps_lift_pool F (pool_frame_check_buffer_index _)
    | exact Keeps_lift_pool F pool_frame_can_allocate_buffer
    | exact Keeps_lift_pool F (pool_frame_allocate_buffer _ _)
    | exact Keeps_lift_pool F (pool_frame_wrote_buffer _)
    | exact Keeps_PANIC _
    | exact Keeps_dma_transfer F _
    | exact Keeps_check_drive_error F _
    | exact Keeps_pin_wait_for_zero F _ _ _ _
    | exact Keeps_pin_wait_for_one F _ _ _ _
    | exact Keeps_clocked_read_into_buffer F _ _ _
    | exact Keeps_read_data_wait F _ _
    | exact Keeps_select_unit0 F _
    | exact Keeps_read_enable_ex F _ _ _
    | exact Keeps_select_cylinder F _ _
    | exact Keeps_select_head F _ _
    | exact Keeps_tag3_ctrl_strobe F _ _
    | exact Keeps_clear_output F
    | exact Keeps_get_buffer_filename F _
    | apply Keeps_bind
    | apply Keeps_ite
    | intro _

theorem Keeps_blink_loop (F : Frame π H) (E : Env) (n : Nat) : Keeps π H (blink_loop E n) := by
  induction n with
  | zero => exact Keeps_pure _
  | succ n ih =>
    unfold blink_loop
    repeat' with_reducible first
      | exact Keeps_pure _
      | exact Keeps_machine
      | exact Keeps_get_absolute_time
      | exact Keeps_gpio_put F _ _
      | exact Keeps_sleep_us F _ _
      | exact Keeps_sleep_ms F _ _
      | exact Keeps_gpio_get_all F _
      | exact Keeps_clocked_read_is_running F _
      | exact Keeps_BEGIN F
      | exact Keeps_DONE F
      | exact Keeps_ERROR F _ (by decide)
      | exact Keeps_bus_record F _
      | exact ih
      | apply Keeps_bind
      | apply Keeps_ite
      | intro _

theorem Keeps_job_blink_test (F : Frame π H) (E : Env) :
    Keeps π H (job_blink_test E) := by
  unfold job_blink_test
  repeat' with_reducible first
    | exact Keeps_pure _
    | exact Keeps_machine
    | exact Keeps_get_absolute_time
    | exact Keeps_gpio_put F _ _
    | exact Keeps_sleep_us F _ _
    | exact Keeps_sleep_ms F _ _
    | exact Keeps_gpio_get_all F _
    | exact Keeps_clocked_read_is_running F _
    | exact Keeps_BEGIN F
    | exact Keeps_DONE F
    | exact Keeps_ERROR F _ (by decide)
    | exact Keeps_bus_record F _
    | exact Keeps_blink_loop F _ _
    | apply Keeps_bind
    | apply Keeps_ite
    | intro _

theorem Keeps_job_select_unit0 (F : Frame π H) (E : Env) :
    Keeps π H (job_select_unit0 E) := by
  unfold job_select_unit0
  repeat' with_reducible first
    | exact Keeps_pure _
    | exact Keeps_machine
    | exact Keeps_get_absolute_time
    | exact Keeps_gpio_put F _ _
    | exact Keeps_sleep_us F _ _
    | exact Keeps_sleep_ms F _ _
    | exact Keeps_gpio_get_all F _
    | exact Keeps_clocked_read_is_running F _
    | exact Keeps_BEGIN F
    | exact Keeps_DONE F
    | exact Keeps_ERROR F _ (by decide)
    | exact Keeps_bus_record F _
    | exact Keeps_pin_wait_for_zero F _ _ _ _
    | exact Keeps_pin_wait_for_one F _ _ _ _
    | exact Keeps_clocked_read_into_buffer F _ _ _
    | exact Keeps_read_data_wait F _ _
    | exact Keeps_select_unit0 F _
    | exact Keeps_read_enable_ex F _ _ _
    | exact Keeps_select_cylinder F _ _
    | exact Keeps_select_head F _ _
    | exact Keeps_tag3_ctrl_strobe F _ _
    | exact Keeps_clear_output F
    | exact Keeps_get_buffer_filename F _
    | apply Keeps_bind
    | apply Keeps_ite
    | intro _

theorem Keeps_job_tag3_strobe (F : Frame π H) (E : Env) :
    Keeps π H (job_tag3_strobe E) := by
  unfold job_tag3_strobe
  repeat' with_reducible first
    | exact Keeps_pure _
    | exact Keeps_machine
    | exact Keeps_get_absolute_time
    | exact Keeps_gpio_put F _ _
    | exact Keeps_sleep_us F _ _
    | exact Keeps_sleep_ms F _ _
    | exact Keeps_gpio_get_all F _
    | exact Keeps_clocked_read_is_running F _
    | exact Keeps_BEGIN F
    | exact Keeps_DONE F
    | exact Keeps_ERROR F _ (by decide)
    | exact Keeps_bus_record F _
    | exact Keeps_pin_wait_for_zero F _ _ _ _
    | exact Keeps_pin_wait_for_one F _ _ _ _
    | exact Keeps_clocked_read_into_buffer F _ _ _
    | exact Keeps_read_data_wait F _ _
    | exact Keeps_select_unit0 F _
    | exact Keeps_read_enable_ex F _ _ _
    | exact Keeps_select_cylinder F _ _
    | exact Keeps_select_head F _ _
    | exact Keeps_tag3_ctrl_strobe F _ _
    | exact Keeps_clear_output F
    | exact Keeps_get_buffer_filename F _
    | apply Keeps_bind
    | apply Keeps_ite
    | intro _

theorem Keeps_job_select_cylinder (F : Frame π H) (E : Env) :
    Keeps π H (job_select_cylinder E) := by
  unfold job_select_cylinder
  repeat' with_reducible first
    | exact Keeps_pure _
    | exact Keeps_machine
    | exact Keeps_get_absolute_time
    | exact Keeps_gpio_put F _ _
    | exact Keeps_sleep_us F _ _
    | exact Keeps_sleep_ms F _ _
    | exact Keeps_gpio_get_all F _
    | exact Keeps_clocked_read_is_running F _
    | exact Keeps_BEGIN F
    | exact Keeps_DONE F
    | exact Keeps_ERROR F _ (by decide)
    | exact Keeps_bus_record F _
    | exact Keeps_pin_wait_for_zero F _ _ _ _
    | exact Keeps_pin_wait_for_one F _ _ _ _
    | exact Keeps_clocked_read_into_buffer F _ _ _
    | exact Keeps_read_data_wait F _ _
    | exact Keeps_select_unit0 F _
    | exact Keeps_read_enable_ex F _ _ _
    | exact Keeps_select_cylinder F _ _
    | exact Keeps_select_head F _ _
    | exact Keeps_tag3_ctrl_strobe F _ _
    | exact Keeps_clear_output F
    | exact Keeps_get_buffer_filename F _
    | apply Keeps_bind
    | apply Keeps_ite
    | intro _

theorem Keeps_job_select_head (F : Frame π H) (E : Env) :
    Keeps π H (job_select_head E) := by
  unfold job_select_head
  repeat' with_reducible first
    | exact Keeps_pure _
    | exact Keeps_machine
    | exact Keeps_get_absolute_time
    | exact Keeps_gpio_put F _ _
    | exact Keeps_sleep_us F _ _
    | exact Keeps_sleep_ms F _ _
    | exact Keeps_gpio_get_all F _
    | exact Keeps_clocked_read_is_running F _
    | exact Keeps_BEGIN F
    | exact Keeps_DONE F
    | exact Keeps_ERROR F _ (by decide)
    | exact Keeps_bus_record F _
    | exact Keeps_pin_wait_for_zero F _ _ _ _
    | exact Keeps_pin_wait_for_one F _ _ _ _
    | exact Keeps_clocked_read_into_buffer F _ _ _
    | exact Keeps_read_data_wait F _ _
    | exact Keeps_select_unit0 F _
    | exact Keeps_read_enable_ex F _ _ _
    | exact Keeps_select_cylinder F _ _
    | exact Keeps_select_head F _ _
    | exact Keeps_tag3_ctrl_strobe F _ _
    | exact Keeps_clear_output F
    | exact Keeps_get_buffer_filename F _
    | apply Keeps_bind
    | apply Keeps_ite
    | intro _

theorem Keeps_job_read_enable (F : Frame π H) (E : Env) :
    Keeps π H (job_read_enable E) := by
  unfold job_read_enable
  repeat' with_reducible first
    | exact Keeps_pure _
    | exact Keeps_machine
    | exact Keeps_get_absolute_time
    | exact Keeps_gpio_put F _ _
    | exact Keeps_sleep_us F _ _
    | exact Keeps_sleep_ms F _ _
    | exact Keeps_gpio_get_all F _
    | exact Keeps_clocked_read_is_running F _
    | exact Keeps_BEGIN F
    | exact Keeps_DONE F
    | exact Keeps_ERROR F _ (by decide)
    | exact Keeps_bus_record F _
    | exact Keeps_pin_wait_for_zero F _ _ _ _
    | exact Keeps_pin_wait_for_one F _ _ _ _
    | exact Keeps_clocked_read_into_buffer F _ _ _
    | exact Keeps_read_data_wait F _ _
    | exact Keeps_select_unit0 F _
    | exact Keeps_read_enable_ex F _ _ _
    | exact Keeps_select_cylinder F _ _
    | exact Keeps_select_head F _ _
    | exact Keeps_tag3_ctrl_strobe F _ _
    | exact Keeps_clear_output F
    | exact Keeps_get_buffer_filename F _
    | apply Keeps_bind
    | apply Keeps_ite
    | intro _

theorem Keeps_next_read_data_serial_post_increment
    (hs : ∀ (s : Machine) n, π { s with next_read_data_serial := n } = π s) :
    Keeps π H next_read_data_serial_post_increment := by
  intro s; exact hs s _

theorem Keeps_job_read_data (F : Frame π H)
    (hp : ∀ (s : Machine) b, π { s with buffers := b } = π s)
    (hs : ∀ (s : Machine) n, π { s with next_read_data_serial := n } = π s) (E : Env) :
    Keeps π H (job_read_data E) := by
  unfold job_read_data
  repeat' with_reducible first
    | exact Keeps_pure _
    | exact Keeps_machine
    | exact Keeps_get_absolute_time
    | exact Keeps_gpio_put F _ _
    | exact Keeps_sleep_us F _ _
    | exact Keeps_sleep_ms F _ _
    | exact Keeps_gpio_get_all F _
    | exact Keeps_clocked_read_is_running F _
    | exact Keeps_BEGIN F
    | exact Keeps_DONE F
    | exact Keeps_ERROR F _ (by decide)
    | exact Keeps_bus_record F _
    | exact Keeps_lift_pool F (pool_frame_check_buffer_index _)
    | exact Keeps_lift_pool F pool_frame_can_allocate_buffer
    | exact Keeps_lift_pool F (pool_frame_allocate_buffer _ _)
    | exact Keeps_lift_pool F (pool_frame_wrote_buffer _)
    | exact Keeps_PANIC _
    | exact Keeps_dma_transfer F _
    | exact Keeps_check_drive_error F _
    | exact Keeps_pin_wait_for_zero F _ _ _ _
    | exact Keeps_pin_wait_for_one F _ _ _ _
    | exact Keeps_clocked_read_into_buffer F _ _ _
    | exact Keeps_read_data_wait F _ _
    | exact Keeps_select_unit0 F _
    | exact Keeps_read_enable_ex F _ _ _
    | exact Keeps_select_cylinder F _ _
    | exact Keeps_select_head F _ _
    | exact Keeps_tag3_ctrl_strobe F _ _
    | exact Keeps_clear_output F
    | exact Keeps_get_buffer_filename F _
    | exact Keeps_read_data F _ _ _ _ _
    | exact Keeps_snprintf_filename hp _ _ _
    | exact Keeps_next_read_data_serial_post_increment hs
    | apply Keeps_bind
    | apply Keeps_ite
    | intro _

theorem Keeps_batch_read_label (F : Frame π H)
    (hp : ∀ (s : Machine) b, π { s with buffers := b } = π s) (E : Env) (buffer_index cylinder head : Nat) (so dsd : Int) :
    Keeps π H (batch_read_label E buffer_index cylinder head so dsd) := by
  unfold batch_read_label
  repeat' with_reducible first
    | exact Keeps_pure _
    | exact Keeps_machine
    | exact Keeps_get_absolute_time
    | exact Keeps_gpio_put F _ _
    | exact Keeps_sleep_us F _ _
    | exact Keeps_sleep_ms F _ _
    | exact Keeps_gpio_get_all F _
    | exact Keeps_clocked_read_is_running F _
    | exact Keeps_BEGIN F
    | exact Keeps_DONE F
    | exact Keeps_ERROR F _ (by decide)
    | exact Keeps_bus_record F _
    | exact Keeps_pin_wait_for_zero F _ _ _ _
    | exact Keeps_pin_wait_for_one F _ _ _ _
    | exact Keeps_clocked_read_into_buffer F _ _ _
    | exact Keeps_read_data_wait F _ _
    | exact Keeps_select_unit0 F _
    | exact Keeps_read_enable_ex F _ _ _
    | exact Keeps_select_cylinder F _ _
    | exact Keeps_select_head F _ _
    | exact Keeps_tag3_ctrl_strobe F _ _
    | exact Keeps_clear_output F
    | exact Keeps_get_buffer_filename F _
    | exact Keeps_snprintf_filename hp _ _ _
    | apply Keeps_bind
    | apply Keeps_ite
    | intro _

theorem Keeps_batch_read_combination (F : Frame π H)
    (hp : ∀ (s : Machine) b, π { s with buffers := b } = π s) (E : Env) (buffer_index n cylinder head : Nat) (so dsd : Int) :
    Keeps π H (batch_read_combination E buffer_index n cylinder head so dsd) := by
  unfold batch_read_combination
  repeat' with_reducible first
    | exact Keeps_pure _
    | exact Keeps_machine
    | exact Keeps_get_absolute_time
    | exact Keeps_gpio_put F _ _
    | exact Keeps_sleep_us F _ _
    | exact Keeps_sleep_ms F _ _
    | exact Keeps_gpio_get_all F _
    | exact Keeps_clocked_read_is_running F _
    | exact Keeps_BEGIN F
    | exact Keeps_DONE F
    | exact Keeps_ERROR F _ (by decide)
    | exact Keeps_bus_record F _
    | exact Keeps_lift_pool F (pool_frame_check_buffer_index _)
    | exact Keeps_lift_pool F pool_frame_can_allocate_buffer
    | exact Keeps_lift_pool F (pool_frame_allocate_buffer _ _)
    | exact Keeps_lift_pool F (pool_frame_wrote_buffer _)
    | exact Keeps_PANIC _
    | exact Keeps_dma_transfer F _
    | exact Keeps_check_drive_error F _
    | exact Keeps_pin_wait_for_zero F _ _ _ _
    | exact Keeps_pin_wait_for_one F _ _ _ _
    | exact Keeps_clocked_read_into_buffer F _ _ _
    | exact Keeps_read_data_wait F _ _
    | exact Keeps_select_unit0 F _
    | exact Keeps_read_enable_ex F _ _ _
    | exact Keeps_select_cylinder F _ _
    | exact Keeps_select_head F _ _
    | exact Keeps_tag3_ctrl_strobe F _ _
    | exact Keeps_clear_output F
    | exact Keeps_get_buffer_filename F _
    | exact Keeps_read_data F _ _ _ _ _
    | exact Keeps_batch_read_label F hp _ _ _ _ _ _
    | apply Keeps_bind
    | apply Keeps_ite
    | intro _

theorem Keeps_batch_read_wait_loop (F : Frame π H) (E : Env) (t0 fuel : Nat) :
    Keeps π H (batch_read_wait_loop E t0 fuel) := by
  induction fuel with
  | zero => intro s; rfl
  | succ n ih =>
    unfold batch_read_wait_loop
    repeat' with_reducible first
      | exact Keeps_pure _
      | exact Keeps_machine
      | exact Keeps_get_absolute_time
      | exact Keeps_gpio_put F _ _
      | exact Keeps_sleep_us F _ _
      | exact Keeps_sleep_ms F _ _
      | exact Keeps_gpio_get_all F _
      | exact Keeps_clocked_read_is_running F _
      | exact Keeps_BEGIN F
      | exact Keeps_DONE F
      | exact Keeps_ERROR F _ (by decide)
      | exact Keeps_bus_record F _
      | exact Keeps_lift_pool F (pool_frame_check_buffer_index _)
      | exact Keeps_lift_pool F pool_frame_can_allocate_buffer
      | exact Keeps_lift_pool F (pool_frame_allocate_buffer _ _)
      | exact Keeps_lift_pool F (pool_frame_wrote_buffer _)
      | exact Keeps_PANIC _
      | exact Keeps_dma_transfer F _
      | exact Keeps_check_drive_error F _
      | exact ih
      | apply Keeps_bind
      | apply Keeps_ite
      | intro _

theorem Keeps_batch_read_head (F : Frame π H)
    (hp : ∀ (s : Machine) b, π { s with buffers := b } = π s) (E : Env) (n head_set : Nat)
    (sos dsds : List Int) (cylinder head mask : Nat) :
    Keeps π H (batch_read_head E n head_set sos dsds cylinder head mask) := by
  unfold batch_read_head
  repeat' with_reducible first
    | exact Keeps_pure _
    | exact Keeps_machine
    | exact Keeps_get_absolute_time
    | exact Keeps_gpio_put F _ _
    | exact Keeps_sleep_us F _ _
    | exact Keeps_sleep_ms F _ _
    | exact Keeps_gpio_get_all F _
    | exact Keeps_clocked_read_is_running F _
    | exact Keeps_BEGIN F
    | exact Keeps_DONE F
    | exact Keeps_ERROR F _ (by decide)
    | exact Keeps_bus_record F _
    | exact Keeps_lift_pool F (pool_frame_check_buffer_index _)
    | exact Keeps_lift_pool F pool_frame_can_allocate_buffer
    | exact Keeps_lift_pool F (pool_frame_allocate_buffer _ _)
    | exact Keeps_lift_pool F (pool_frame_wrote_buffer _)
    | exact Keeps_PANIC _
    | exact Keeps_dma_transfer F _
    | exact Keeps_check_drive_error F _
    | exact Keeps_pin_wait_for_zero F _ _ _ _
    | exact Keeps_pin_wait_for_one F _ _ _ _
    | exact Keeps_clocked_read_into_buffer F _ _ _
    | exact Keeps_read_data_wait F _ _
    | exact Keeps_select_unit0 F _
    | exact Keeps_read_enable_ex F _ _ _
    | exact Keeps_select_cylinder F _ _
    | exact Keeps_select_head F _ _
    | exact Keeps_tag3_ctrl_strobe F _ _
    | exact Keeps_clear_output F
    | exact Keeps_get_buffer_filename F _
    | exact Keeps_batch_read_wait_loop F _ _ _
    | exact Keeps_for_each _ fun _ => Keeps_for_each _ fun _ => Keeps_batch_read_combination F hp _ _ _ _ _ _ _
    | apply Keeps_bind
    | apply Keeps_ite
    | intro _

theorem Keeps_batch_read_head_loop (F : Frame π H)
    (hp : ∀ (s : Machine) b, π { s with buffers := b } = π s) (E : Env) (n head_set : Nat)
    (sos dsds : List Int) (cylinder k head mask : Nat) :
    Keeps π H (batch_read_head_loop E n head_set sos dsds cylinder k head mask) := by
  induction k generalizing head mask with
  | zero => exact Keeps_pure _
  | succ k ih =>
    unfold batch_read_head_loop
    exact Keeps_bind (Keeps_batch_read_head F hp _ _ _ _ _ _ _ _) fun _ => ih _ _

theorem Keeps_batch_read_cylinder_loop (F : Frame π H)
    (hp : ∀ (s : Machine) b, π { s with buffers := b } = π s) (E : Env) (n head_set : Nat)
    (sos dsds : List Int) (cylinder1 fuel cylinder : Nat) :
    Keeps π H (batch_read_cylinder_loop E n head_set sos dsds cylinder1 fuel cylinder) := by
  induction fuel generalizing cylinder with
  | zero => intro s; rfl
  | succ k ih =>
    unfold batch_read_cylinder_loop
    refine Keeps_ite _ ?_ (Keeps_pure _)
    refine Keeps_bind (Keeps_select_cylinder F _ _) fun _ => ?_
    exact Keeps_bind (Keeps_batch_read_head_loop F hp _ _ _ _ _ _ _ _ _) fun _ => ih _

theorem Keeps_batch_read_cylinders (F : Frame π H)
    (hp : ∀ (s : Machine) b, π { s with buffers := b } = π s) (E : Env) (n head_set : Nat)
    (sos dsds : List Int) (cylinder0 cylinder1 : Nat) :
    Keeps π H (batch_read_cylinders E n head_set sos dsds cylinder0 cylinder1) := by
  intro s
  exact Keeps_batch_read_cylinder_loop F hp E n head_set sos dsds cylinder1 _ cylinder0 s

theorem Keeps_job_batch_read (F : Frame π H)
    (hp : ∀ (s : Machine) b, π { s with buffers := b } = π s) (E : Env) :
    Keeps π H (job_batch_read E) := by
  unfold job_batch_read
  repeat' with_reducible first
    | exact Keeps_pure _
    | exact Keeps_machine
    | exact Keeps_get_absolute_time
    | exact Keeps_gpio_put F _ _
    | exact Keeps_sleep_us F _ _
    | exact Keeps_sleep_ms F _ _
    | exact Keeps_gpio_get_all F _
    | exact Keeps_clocked_read_is_running F _
    | exact Keeps_BEGIN F
    | exact Keeps_DONE F
    | exact Keeps_ERROR F _ (by decide)
    | exact Keeps_bus_record F _
    | exact Keeps_lift_pool F (pool_frame_check_buffer_index _)
    | exact Keeps_lift_pool F pool_frame_can_allocate_buffer
    | exact Keeps_lift_pool F (pool_frame_allocate_buffer _ _)
    | exact Keeps_lift_pool F (pool_frame_wrote_buffer _)
    | exact Keeps_PANIC _
    | exact Keeps_dma_transfer F _
    | exact Keeps_check_drive_error F _
    | exact Keeps_batch_read_cylinders F hp _ _ _ _ _ _ _
    | apply Keeps_bind
    | apply Keeps_ite
    | intro _

/-- Every job body keeps an observation that depends neither on the fields a
job writes on its way nor on the pool nor on the counter of single reads. -/
theorem Keeps_job_body (F : Frame π H)
    (hp : ∀ (s : Machine) b, π { s with buffers := b } = π s)
    (hs : ∀ (s : Machine) n, π { s with next_read_data_serial := n } = π s)
    (E : Env) (fn : job_fn) : Keeps π H (job_body E fn) := by
  cases fn with
  | job_blink_test => exact Keeps_job_blink_test F E
  | job_select_unit0 => exact Keeps_job_select_unit0 F E
  | job_tag3_strobe => exact Keeps_job_tag3_strobe F E
  | job_select_cylinder => exact Keeps_job_select_cylinder F E
  | job_select_head => exact Keeps_job_select_head F E
  | job_read_enable => exact Keeps_job_read_enable F E
  | job_read_data => exact Keeps_job_read_data F hp hs E
  | job_batch_read => exact Keeps_job_batch_read F hp E

end frame

/-! ## The status of a job -/

theorem status_frame : Frame status_view halted_once where
  out := fun _ _ => rfl
  time := fun _ _ => rfl
  samples := fun _ _ => rfl
  log := fun _ _ => rfl
  begin_time := fun _ _ => rfl
  dma := fun _ _ => rfl
  pool := fun _ _ _ => rfl
  stop := fun _ _ _ hx => ⟨rfl, hx⟩

theorem NeverReturns_DONE {α : Type} : NeverReturns (DONE : Job α) := by
  intro s a s1 h; cases h

theorem NeverReturns_ERROR {α : Type} (x : xop_status) : NeverReturns (ERROR x : Job α) := by
  intro s a s1 h; cases h

theorem NeverReturns_bind {α γ : Type} (m : Job α) {f : α → Job γ}
    (hf : ∀ a, NeverReturns (f a)) : NeverReturns (m >>= f) := by
  intro s b s2 h
  simp only [Prog.bind_apply] at h
  cases hm : m s with
  | ret a s1 => rw [hm] at h; exact hf a s1 b s2 h
  | halt s1 => rw [hm] at h; cases h
  | panic c s1 => rw [hm] at h; cases h
  | cut s1 => rw [hm] at h; cases h

theorem NeverReturns_ite {α : Type} (c : Prop) [Decidable c] {a b : Job α}
    (ha : NeverReturns a) (hb : NeverReturns b) : NeverReturns (if c then a else b) := by
  by_cases h : c
  · simpa [h] using ha
  · simpa [h] using hb

theorem NeverReturns_job_body (E : Env) (fn : job_fn) : NeverReturns (job_body E fn) := by
  cases fn
  all_goals
    simp only [job_body]
    first
      | unfold job_blink_test
      | unfold job_select_unit0
      | unfold job_tag3_strobe
      | unfold job_select_cylinder
      | unfold job_select_head
      | unfold job_read_enable
      | unfold job_read_data
      | unfold job_batch_read
    repeat' with_reducible first
      | exact NeverReturns_DONE
      | exact NeverReturns_ERROR _
      | apply NeverReturns_ite
      | apply NeverReturns_bind
      | intro _

theorem lift_pool_state_eq {α : Type} (m : Prog Pool α) (s : Machine) :
    (lift_pool m s).state = { s with buffers := (m s.buffers).state } := by
  unfold lift_pool
  cases m s.buffers <;> rfl

/-- What every entry point does to the status, to core 1 and to the counter
of single reads. -/
theorem xop_launch_frame (E : Env) (r : request) (s : Machine) :
    (∃ s1, xop_launch E r s = .ret () s1 ∧ s1.status = .XST_RUNNING ∧
        s1.status_log = s.status_log ++ [.XST_RUNNING] ∧ s1.core1 = some r.fn ∧
        s1.next_read_data_serial = s.next_read_data_serial) ∨
    (∃ c s1, xop_launch E r s = .panic c s1 ∧ s1.status = s.status ∧
        s1.status_log = s.status_log ∧ s1.core1 = none ∧
        s1.next_read_data_serial = s.next_read_data_serial) := by
  cases r with
  | blink_test fail =>
    left
    simp only [xop_launch, xop_blink_test, Prog.bind_apply, reset, multicore_reset_core1, run_eq]
    exact ⟨_, rfl, rfl, rfl, rfl, rfl⟩
  | select_unit0 =>
    left
    simp only [xop_launch, xop_select_unit0, Prog.bind_apply, reset_and_kill_output_eq, run_eq]
    exact ⟨_, rfl, rfl, rfl, rfl, rfl⟩
  | tag3_strobe ctrl =>
    left
    simp only [xop_launch, xop_tag3_strobe, Prog.bind_apply, reset_and_kill_output_eq, run_eq]
    exact ⟨_, rfl, rfl, rfl, rfl, rfl⟩
  | select_cylinder cylinder =>
    left
    simp only [xop_launch, xop_select_cylinder, Prog.bind_apply, reset_and_kill_output_eq,
      run_eq]
    exact ⟨_, rfl, rfl, rfl, rfl, rfl⟩
  | select_head head =>
    left
    simp only [xop_launch, xop_select_head, Prog.bind_apply, reset_and_kill_output_eq, run_eq]
    exact ⟨_, rfl, rfl, rfl, rfl, rfl⟩
  | read_enable so dsd =>
    left
    simp only [xop_launch, xop_read_enable, Prog.bind_apply, reset_and_kill_output_eq, run_eq]
    exact ⟨_, rfl, rfl, rfl, rfl, rfl⟩
  | read_data n i k =>
    rcases xop_read_data_frame E n i k s with
      ⟨b, s1, h, -, hc, hst, hlog, hser⟩ | ⟨c, s1, h, -, hc, hst, hlog, hser⟩
    · left
      simp only [xop_launch, Prog.bind_apply, h, Prog.pure_apply]
      exact ⟨_, rfl, hst, hlog, hc, hser⟩
    · right
      simp only [xop_launch, Prog.bind_apply, h]
      exact ⟨_, _, rfl, hst, hlog, hc, hser⟩
  | read_batch c0 c1 hs n so dsd =>
    left
    simp only [xop_launch, xop_read_batch, Prog.bind_apply, reset_and_kill_output_eq, run_eq]
    exact ⟨_, rfl, rfl, rfl, rfl, rfl⟩

theorem serial_frame :
    Frame (fun s : Machine => s.next_read_data_serial)
      (fun p s1 => s1.next_read_data_serial = p) where
  out := fun _ _ => rfl
  time := fun _ _ => rfl
  samples := fun _ _ => rfl
  log := fun _ _ => rfl
  begin_time := fun _ _ => rfl
  dma := fun _ _ => rfl
  pool := fun _ _ _ => rfl
  stop := fun _ _ _ _ => rfl

theorem label_frame : Frame label_view (fun p s1 => label_view s1 = p) where
  out := fun _ _ => rfl
  time := fun _ _ => rfl
  samples := fun _ _ => rfl
  log := fun _ _ => rfl
  begin_time := fun _ _ => rfl
  dma := fun _ _ => rfl
  pool := fun s b h => by simp only [label_view, h]
  stop := fun _ _ _ _ => rfl

theorem Keeps_state {β α : Type} {π : Machine → β} {m : Job α}
    (h : Keeps π (fun p s1 => π s1 = p) m) (s : Machine) : π (m s).state = π s := by
  have hs := h s
  cases hm : m s with
  | ret a s1 => rw [hm] at hs; exact hs
  | halt s1 => rw [hm] at hs; exact hs
  | panic c s1 => rw [hm] at hs; exact hs
  | cut s1 => rw [hm] at hs; exact hs

theorem getElem?_map_filename {bufs bufs1 : Pool} (i : Nat)
    (h : bufs1.map (fun x => x.filename) = bufs.map (fun x => x.filename)) :
    (buffer_at bufs1 i).filename = (buffer_at bufs i).filename := by
  have h1 : (bufs1.map (fun x => x.filename))[i]? = (bufs.map (fun x => x.filename))[i]? := by
    rw [h]
  simp only [List.getElem?_map] at h1
  unfold buffer_at
  simp only [List.getD_eq_getElem?_getD]
  cases hb1 : bufs1[i]? <;> cases hb : bufs[i]? <;> simp_all

theorem of_label_view {a b : Machine} (h : label_view a = label_view b) (i : Nat) :
    a.next_read_data_serial = b.next_read_data_serial ∧
      (buffer_at a.buffers i).filename = (buffer_at b.buffers i).filename := by
  simp only [label_view, Prod.mk.injEq] at h
  exact ⟨h.1, getElem?_map_filename i h.2⟩

theorem buffer_at_set_self {bufs : Pool} {i : Nat} (h : i < bufs.length) (b : buffer) :
    buffer_at (bufs.set i b) i = b := by
  simp [buffer_at, h]

/-- The tail of `job_read_data`, after the label has been written. -/
theorem Keeps_read_data_then_DONE (E : Env) (buffer_index : Nat) :
    Keeps label_view (fun p s1 => label_view s1 = p)
      (do
        let args := (← machine).job_args
        read_data E buffer_index args.read_data_n_32bit_words args.read_data_index_sync
          args.read_data_skip_checks
        (DONE : Job Unit)) := by
  refine Keeps_bind Keeps_machine fun m => ?_
  exact Keeps_bind (Keeps_read_data label_frame E _ _ _ _) fun _ => Keeps_DONE label_frame

/-- What `job_read_data` does to the counter and to the label of its buffer,
however it ends. -/
theorem job_read_data_label (E : Env) (s : Machine) (x : buffer)
    (hb : s.buffers[s.job_args.read_data_buffer_index]? = some x) :
    (job_read_data E s).state.next_read_data_serial = (s.next_read_data_serial + 1) % 2 ^ 32 ∧
    (buffer_at (job_read_data E s).state.buffers s.job_args.read_data_buffer_index).filename =
      c_snprintf E.cfg.CLOCKED_READ_BUFFER_FILENAME_MAX_LENGTH
        (custom_filename s.next_read_data_serial) x.filename := by
  have hl := lt_length_of_getElem? hb
  have h1 : BEGIN s = .ret () { s with job_begin_time_us := s.time } := rfl
  unfold job_read_data
  rw [Prog.bind_ret h1]
  rw [Prog.bind_ret (rfl : machine { s with job_begin_time_us := s.time } = .ret _ _)]
  simp only []
  rw [Prog.bind_ret (get_buffer_filename_ok (s := { s with job_begin_time_us := s.time }) hl)]
  rw [Prog.bind_ret (rfl : next_read_data_serial_post_increment _ = .ret _ _)]
  rw [Prog.bind_ret (rfl : snprintf_filename E _ _ _ = .ret _ _)]
  have hx := buffer_at_of_getElem? hb
  constructor
  · exact (of_label_view (Keeps_state (Keeps_read_data_then_DONE E _) _) 0).1.trans rfl
  · refine (of_label_view (Keeps_state (Keeps_read_data_then_DONE E _) _) _).2.trans ?_
    simp only [snprintf_filename]
    rw [buffer_at_set_self hl]
    simp only [hx]

theorem xop_read_data_ret {E : Env} {n i k b : Nat} {s s1 : Machine}
    (h : xop_read_data E n i k s = .ret b s1) :
    s1.job_args.read_data_buffer_index = b ∧ (∃ x, s1.buffers[b]? = some x) ∧
      s1.core1 = some .job_read_data ∧
      s1.next_read_data_serial = s.next_read_data_serial := by
  unfold xop_read_data at h
  generalize (n <<< 2) % 2 ^ 32 = sz at h
  rcases allocate_buffer_eq E.cfg.MAX_DATA_BUFFER_SIZE sz s.buffers with
    ⟨-, hp⟩ | ⟨j, f, hj, -, -, hr⟩
  · simp only [Prog.bind_apply, reset, multicore_reset_core1, lift_pool, hp] at h
    cases h
  · simp only [Prog.bind_apply, reset, multicore_reset_core1, lift_pool, hr, run_eq,
      Prog.pure_apply, Outcome.ret.injEq] at h
    obtain ⟨rfl, rfl⟩ := h
    have hl := lt_length_of_getElem? hj
    exact ⟨rfl, ⟨_, List.getElem?_set_self hl⟩, rfl, rfl⟩

theorem job_body_serial (E : Env) (fn : job_fn) (h : fn ≠ .job_read_data) (s : Machine) :
    (job_body E fn s).state.next_read_data_serial = s.next_read_data_serial := by
  cases fn with
  | job_blink_test => exact Keeps_state (Keeps_job_blink_test serial_frame E) s
  | job_select_unit0 => exact Keeps_state (Keeps_job_select_unit0 serial_frame E) s
  | job_tag3_strobe => exact Keeps_state (Keeps_job_tag3_strobe serial_frame E) s
  | job_select_cylinder => exact Keeps_state (Keeps_job_select_cylinder serial_frame E) s
  | job_select_head => exact Keeps_state (Keeps_job_select_head serial_frame E) s
  | job_read_enable => exact Keeps_state (Keeps_job_read_enable serial_frame E) s
  | job_read_data => exact absurd rfl h
  | job_batch_read =>
    exact Keeps_state (Keeps_job_batch_read serial_frame (fun _ _ => rfl) E) s

theorem core1_slice_eq {E : Env} {budget : Nat} {s : Machine} {fn : job_fn}
    (h : s.core1 = some fn) :
    core1_slice E budget s =
      .ret () (job_body { E with deadline := s.time + budget } fn s).state := by
  simp only [core1_slice, h]

theorem launch_other_serial {E : Env} {r : request} {s s1 : Machine}
    (hr : r.fn ≠ .job_read_data) (hn : ∀ budget, read_data_jobs [.launch r budget] = 0)
    (budget : Nat) (h : do_event E (.launch r budget) s = .ret () s1) :
    s1.next_read_data_serial % 2 ^ 32 =
      (s.next_read_data_serial + read_data_jobs [.launch r budget]) % 2 ^ 32 := by
  rw [hn budget]
  rcases xop_launch_frame E r s with ⟨s2, hx, -, -, hc, hser⟩ | ⟨c, s2, hx, -⟩
  · simp only [do_event, Prog.bind_apply, hx] at h
    rw [core1_slice_eq hc] at h
    simp only [Outcome.ret.injEq, true_and] at h
    subst h
    rw [job_body_serial _ _ hr, hser]
    rfl
  · simp only [do_event, Prog.bind_apply, hx] at h
    cases h

/-- One step of core 0 advances the counter of single reads by one when it
launches a read-data job and not at all otherwise. -/
theorem do_event_serial {E : Env} {e : event} {s s1 : Machine}
    (h : do_event E e s = .ret () s1) :
    s1.next_read_data_serial % 2 ^ 32 =
      (s.next_read_data_serial + read_data_jobs [e]) % 2 ^ 32 := by
  cases e with
  | launch r budget =>
    have hd := h
    simp only [do_event, Prog.bind_apply] at h
    cases r with
    | read_data n i k =>
      simp only [xop_launch, Prog.bind_apply, Prog.pure_apply] at h
      cases hx : xop_read_data E n i k s with
      | ret b s2 =>
        rw [hx] at h
        simp only at h
        obtain ⟨hidx, ⟨x, hxb⟩, hc, hser⟩ := xop_read_data_ret hx
        rw [core1_slice_eq hc] at h
        simp only [Outcome.ret.injEq, true_and] at h
        subst h
        rw [← hidx] at hxb
        have hj := (job_read_data_label { E with deadline := s2.time + budget } s2 x hxb).1
        simp only [job_body, read_data_jobs]
        rw [hj, hser]
        omega
      | halt s2 => rw [hx] at h; cases h
      | panic c s2 => rw [hx] at h; cases h
      | cut s2 => rw [hx] at h; cases h
    | blink_test fail => 
      refine launch_other_serial ?_ ?_ budget hd
      · intro hh; cases hh
      · intro _; rfl
    | select_unit0 => 
      refine launch_other_serial ?_ ?_ budget hd
      · intro hh; cases hh
      · intro _; rfl
    | tag3_strobe ctrl => 
      refine launch_other_serial ?_ ?_ budget hd
      · intro hh; cases hh
      · intro _; rfl
    | select_cylinder c => 
      refine launch_other_serial ?_ ?_ budget hd
      · intro hh; cases hh
      · intro _; rfl
    | select_head c => 
      refine launch_other_serial ?_ ?_ budget hd
      · intro hh; cases hh
      · intro _; rfl
    | read_enable a b => 
      refine launch_other_serial ?_ ?_ budget hd
      · intro hh; cases hh
      · intro _; rfl
    | read_batch a b c d e f => 
      refine launch_other_serial ?_ ?_ budget hd
      · intro hh; cases hh
      · intro _; rfl
  | terminate_op =>
    simp only [do_event, terminate_op, reset_and_kill_output_eq, Outcome.ret.injEq,
      true_and] at h
    subst h
    simp [read_data_jobs]
  | poll =>
    simp only [do_event, Prog.bind_apply, poll_xop_status, Prog.pure_apply, Outcome.ret.injEq,
      true_and] at h
    subst h
    simp [read_data_jobs]
  | transferred_buffer i =>
    have h2 := lift_pool_state_eq (transferred_buffer i) s
    simp only [do_event] at h
    rw [h] at h2
    simp only [Outcome.state] at h2
    subst h2
    simp [read_data_jobs]
  | release_buffer i =>
    have h2 := lift_pool_state_eq (release_buffer i) s
    simp only [do_event] at h
    rw [h] at h2
    simp only [Outcome.state] at h2
    subst h2
    simp [read_data_jobs]

theorem read_data_jobs_cons (e : event) (rest : List event) :
    read_data_jobs (e :: rest) = read_data_jobs [e] + read_data_jobs rest := by
  cases e with
  | launch r budget => cases r <;> simp [read_data_jobs]; omega
  | terminate_op => simp [read_data_jobs]
  | poll => simp [read_data_jobs]
  | transferred_buffer i => simp [read_data_jobs]
  | release_buffer i => simp [read_data_jobs]

theorem run_history_cons {E : Env} {e : event} {rest : List event} {s s2 : Machine}
    (h : run_history E (e :: rest) s = .ret () s2) :
    ∃ s1, do_event E e s = .ret () s1 ∧ run_history E rest s1 = .ret () s2 := by
  simp only [run_history, Prog.bind_apply] at h
  cases hd : do_event E e s with
  | ret a s1 => rw [hd] at h; exact ⟨s1, rfl, h⟩
  | halt s1 => rw [hd] at h; cases h
  | panic c s1 => rw [hd] at h; cases h
  | cut s1 => rw [hd] at h; cases h

/-- After a history, the counter of single reads has advanced by the number
of read-data jobs launched, modulo `2 ^ 32`. -/
theorem run_history_serial {E : Env} (evs : List event) {s s1 : Machine}
    (h : run_history E evs s = .ret () s1) :
    s1.next_read_data_serial % 2 ^ 32 =
      (s.next_read_data_serial + read_data_jobs evs) % 2 ^ 32 := by
  induction evs generalizing s with
  | nil =>
    simp only [run_history, Prog.pure_apply, Outcome.ret.injEq, true_and] at h
    subst h
    simp [read_data_jobs]
  | cons e rest ih =>
    obtain ⟨s2, hd, hr⟩ := run_history_cons h
    have h1 := do_event_serial hd
    have h2 := ih hr
    rw [read_data_jobs_cons]
    omega

theorem to_int_mod (x : Nat) : to_int (x % 2 ^ 32) = to_int x := by
  simp [to_int]

theorem custom_filename_congr {a b : Nat} (h : a % 2 ^ 32 = b % 2 ^ 32) :
    custom_filename a = custom_filename b := by
  unfold custom_filename
  rw [← to_int_mod a, ← to_int_mod b, h]

theorem custom_filename_eq_spec {k : Nat} (hk : k < 2 ^ 31) :
    custom_filename k = spec_custom_filename k := by
  unfold custom_filename spec_custom_filename
  rw [to_int_of_lt hk, fmt_d_natCast]

/-- The label written by the read-data job launched after a history that
started at startup: the text of `custom%.4d.nrz` for the 32-bit counter, cut
to the length of the label. -/
theorem read_data_label_after_history (E : Env) (s0 s s1 : Machine) (evs : List event)
    (n i k b budget : Nat) (hrun : run_history E evs (startup s0) = .ret () s)
    (hl : xop_read_data E n i k s = .ret b s1) :
    (buffer_at (core1_slice E budget s1).state.buffers b).filename =
      c_snprintf E.cfg.CLOCKED_READ_BUFFER_FILENAME_MAX_LENGTH
        (custom_filename (read_data_jobs evs + 1)) (buffer_at s1.buffers b).filename := by
  obtain ⟨hidx, ⟨x, hxb⟩, hc, hser⟩ := xop_read_data_ret hl
  have hs := run_history_serial evs hrun
  rw [core1_slice_eq hc]
  have hxb2 := hxb
  rw [← hidx] at hxb
  have hj := (job_read_data_label { E with deadline := s1.time + budget } s1 x hxb).2
  rw [hidx] at hj
  have hst : (Outcome.ret ()
      (job_body { E with deadline := s1.time + budget } .job_read_data s1).state :
      Outcome Machine Unit).state =
      (job_read_data { E with deadline := s1.time + budget } s1).state := rfl
  rw [hst, hj, buffer_at_of_getElem? hxb2]
  have hmod : s1.next_read_data_serial % 2 ^ 32 = (read_data_jobs evs + 1) % 2 ^ 32 := by
    rw [hser]
    simp only [startup] at hs
    omega
  rw [custom_filename_congr hmod]

/-- C10, amended. Take any history of steps of core 0 from startup (launches
of any job kind, each running on core 1 until it halts, panics or is reset;
terminations; polls; buffers handed on) that core 0 survives, and let `k` be
one more than the number of read-data jobs launched in it. If `k < 2 ^ 31`
and `custom`, `k` in decimal padded with zeros to at least 4 digits, `.nrz`
is shorter than `CLOCKED_READ_BUFFER_FILENAME_MAX_LENGTH`, then the read-data
job launched next leaves exactly that name as the label of its buffer,
however it ends and whenever it is reset. -/
theorem kth_read_data_label (E : Env) (s0 s s1 : Machine) (evs : List event)
    (n i k b budget : Nat) (hrun : run_history E evs (startup s0) = .ret () s)
    (hl : xop_read_data E n i k s = .ret b s1)
    (hk : read_data_jobs evs + 1 < 2 ^ 31)
    (hfit : (spec_custom_filename (read_data_jobs evs + 1)).length <
      E.cfg.CLOCKED_READ_BUFFER_FILENAME_MAX_LENGTH) :
    (buffer_at (core1_slice E budget s1).state.buffers b).filename =
      spec_custom_filename (read_data_jobs evs + 1) := by
  rw [read_data_label_after_history E s0 s s1 evs n i k b budget hrun hl,
    custom_filename_eq_spec hk]
  exact c_snprintf_fits hfit

/-! ## A long history of single reads -/

/-- One round `example_round` on a pool of one free buffer succeeds and leaves
a pool of one free buffer. -/
theorem example_round_ok (s : Machine) (b : buffer) (hb : s.buffers = [b])
    (hf : b.status = .FREE) :
    ∃ s1 b1, run_history example_env example_round s = .ret () s1 ∧ s1.buffers = [b1] ∧
      b1.status = .FREE := by
  obtain ⟨bufs, dma, st, lg, jb, jd, ser, args, out, c1, t, sm, bl⟩ := s
  simp only at hb
  subst hb
  obtain ⟨d, sz, bst, fname⟩ := b
  simp only at hf
  subst hf
  simp [example_round, run_history, do_event, xop_launch, xop_read_data, reset,
    multicore_reset_core1, lift_pool, allocate_buffer, get_next_free_buffer_index,
    find_buffer_index, find_buffer_index_loop, check_buffer_index, set_buffer_status,
    set_buffer_size, buffer_at, run, set_status, multicore_launch_core1, core1_slice,
    job_body, job_read_data, BEGIN, get_absolute_time, machine, get_buffer_filename,
    next_read_data_serial_post_increment, snprintf_filename, read_data, c_not,
    clocked_read_into_buffer, read_data_wait, read_data_loop, clocked_read_is_running,
    example_env, wrote_buffer, get_buffer_status, DONE, job_halt, Outcome.state, bus_record,
    transferred_buffer, release_buffer, PANIC]

theorem run_history_append {E : Env} (l1 l2 : List event) {s s1 : Machine}
    (h : run_history E l1 s = .ret () s1) :
    run_history E (l1 ++ l2) s = run_history E l2 s1 := by
  induction l1 generalizing s with
  | nil =>
    simp only [run_history, Prog.pure_apply, Outcome.ret.injEq, true_and] at h
    subst h
    rfl
  | cons e rest ih =>
    obtain ⟨s2, hd, hr⟩ := run_history_cons h
    simp only [List.cons_append, run_history, Prog.bind_apply, hd]
    exact ih hr

/-- Any number of rounds `example_round` on a pool of one free buffer succeed
and leave a pool of one free buffer. -/
theorem example_rounds_ok (n : Nat) (s : Machine) (b : buffer) (hb : s.buffers = [b])
    (hf : b.status = .FREE) :
    ∃ s1 b1, run_history example_env (example_rounds n) s = .ret () s1 ∧ s1.buffers = [b1] ∧
      b1.status = .FREE := by
  induction n generalizing s b with
  | zero => exact ⟨s, b, rfl, hb, hf⟩
  | succ n ih =>
    obtain ⟨s1, b1, h1, hb1, hf1⟩ := example_round_ok s b hb hf
    obtain ⟨s2, b2, h2, hb2, hf2⟩ := ih s1 b1 hb1 hf1
    refine ⟨s2, b2, ?_, hb2, hf2⟩
    simp only [example_rounds]
    rw [run_history_append _ _ h1]
    exact h2

theorem read_data_jobs_example_rounds (n : Nat) : read_data_jobs (example_rounds n) = n := by
  induction n with
  | zero => rfl
  | succ n ih =>
    simp [example_rounds, example_round, read_data_jobs, ih]

/-- On a pool of one free buffer the entry point of the single read returns
the handle 0. -/
theorem xop_read_data_example (s : Machine) (b : buffer) (hb : s.buffers = [b])
    (hf : b.status = .FREE) (n i k : Nat) :
    ∃ s1, xop_read_data example_env n i k s = .ret 0 s1 := by
  obtain ⟨bufs, dma, st, lg, jb, jd, ser, args, out, c1, t, sm, bl⟩ := s
  simp only at hb
  subst hb
  obtain ⟨d, sz, bst, fname⟩ := b
  simp only at hf
  subst hf
  simp [xop_read_data, reset, multicore_reset_core1, lift_pool, allocate_buffer,
    get_next_free_buffer_index, find_buffer_index, find_buffer_index_loop, check_buffer_index,
    set_buffer_status, set_buffer_size, buffer_at, run, set_status, multicore_launch_core1]

/-- Counterexample to C10 as stated: after 2147483647 single reads that all
complete and whose buffers are handed back, the next single read, which is the
2147483648-th, writes the label `custom-2147483648.nrz` (the counter is printed
as an `int`), not `custom2147483648.nrz`. -/
theorem read_data_label_of_job_2_pow_31 :
    ∃ s s1 b,
      run_history example_env (example_rounds 2147483647)
        (startup (example_machine [example_buffer .FREE])) = .ret () s ∧
      read_data_jobs (example_rounds 2147483647) + 1 = 2147483648 ∧
      xop_read_data example_env 1 0 1 s = .ret b s1 ∧
      (buffer_at (core1_slice example_env 0 s1).state.buffers b).filename =
        "custom-2147483648.nrz".toList ∧
      spec_custom_filename 2147483648 = "custom2147483648.nrz".toList := by
  obtain ⟨s, b, hrun, hb, hf⟩ := example_rounds_ok 2147483647
    (startup (example_machine [example_buffer .FREE])) (example_buffer .FREE) rfl rfl
  obtain ⟨s1, hl⟩ := xop_read_data_example s b hb hf 1 0 1
  refine ⟨s, s1, 0, hrun, ?_, hl, ?_, by decide⟩
  · rw [read_data_jobs_example_rounds]
  · rw [read_data_label_after_history example_env _ s s1 _ 1 0 1 0 0 hrun hl,
      read_data_jobs_example_rounds]
    have h : custom_filename (2147483647 + 1) = "custom-2147483648.nrz".toList := by decide
    rw [h]
    exact c_snprintf_fits (by decide)

/-! ## The bounded waits -/

/-- What `check_drive_error` does with the word it samples. -/
theorem check_drive_error_eq (E : Env) (s : Machine) :
    check_drive_error E s =
      if ¬ fault_free E.cfg (E.pins s.time s.samples) then
        .halt (halted_with .XST_ERR_DRIVE_ERROR { s with samples := s.samples + 1 })
      else if ¬ ready_and_selected E.cfg (E.pins s.time s.samples) then
        .halt (halted_with .XST_ERR_DRIVE_NOT_READY { s with samples := s.samples + 1 })
      else .ret () { s with samples := s.samples + 1 } := by
  by_cases h1 : fault_free E.cfg (E.pins s.time s.samples)
  · by_cases h2 : ready_and_selected E.cfg (E.pins s.time s.samples)
    · simp only [h1, h2, not_true_eq_false, if_false]
      unfold fault_free at h1
      unfold ready_and_selected at h2
      simp [check_drive_error, gpio_get_all, h1, h2]
    · simp only [h1, h2, not_true_eq_false, not_false_eq_true, if_true, if_false]
      unfold fault_free at h1
      unfold ready_and_selected at h2
      simp [check_drive_error, gpio_get_all, h1, h2, ERROR, set_status, job_halt,
        get_absolute_time, halted_with]
  · simp only [h1, not_false_eq_true, if_true]
    unfold fault_free at h1
    simp [check_drive_error, gpio_get_all, h1, ERROR, set_status, job_halt,
      get_absolute_time, halted_with]

theorem check_drive_error_ok {E : Env} {s : Machine}
    (h1 : fault_free E.cfg (E.pins s.time s.samples))
    (h2 : ready_and_selected E.cfg (E.pins s.time s.samples)) :
    check_drive_error E s = .ret () { s with samples := s.samples + 1 } := by
  rw [check_drive_error_eq]
  simp [h1, h2]

/-- A round of `pin_mask_wait` in which the checks pass and the masked word
has the awaited value: the wait is over. -/
theorem pin_mask_wait_loop_match {E : Env} {mask value timeout c t0 fuel : Nat} {s : Machine}
    (hck : c ≠ 0 → fault_free E.cfg (E.pins s.time s.samples) ∧
      ready_and_selected E.cfg (E.pins s.time s.samples))
    (hm : E.pins s.time (s.samples + (samples_per_poll c - 1)) &&& mask = value) :
    pin_mask_wait_loop E mask value timeout c t0 (fuel + 1) s =
      .ret () { s with samples := s.samples + samples_per_poll c } := by
  by_cases hc : c = 0
  · simp only [samples_per_poll, hc, if_true, Nat.sub_self, Nat.add_zero] at hm
    simp [pin_mask_wait_loop, hc, gpio_get_all, samples_per_poll, hm]
  · obtain ⟨h1, h2⟩ := hck hc
    simp only [samples_per_poll, hc, if_false, Nat.add_one_sub_one] at hm
    simp [pin_mask_wait_loop, hc, check_drive_error_ok h1 h2, gpio_get_all, samples_per_poll, hm]

/-- A round of `pin_mask_wait` in which the checks pass, the masked word has
not the awaited value and the time is not up: a sleep of one microsecond, then
the next round. -/
theorem pin_mask_wait_loop_step {E : Env} {mask value timeout c t0 fuel : Nat} {s : Machine}
    (hck : c ≠ 0 → fault_free E.cfg (E.pins s.time s.samples) ∧
      ready_and_selected E.cfg (E.pins s.time s.samples))
    (hm : E.pins s.time (s.samples + (samples_per_poll c - 1)) &&& mask ≠ value)
    (hel : s.time - t0 ≤ timeout) (hdl : s.time + 1 ≤ E.deadline) :
    pin_mask_wait_loop E mask value timeout c t0 (fuel + 1) s =
      pin_mask_wait_loop E mask value timeout c t0 fuel
        { s with samples := s.samples + samples_per_poll c, time := s.time + 1 } := by
  have hel2 : ¬ (timeout < s.time - t0) := by omega
  by_cases hc : c = 0
  · simp only [samples_per_poll, hc, if_true, Nat.sub_self, Nat.add_zero] at hm
    simp [pin_mask_wait_loop, hc, gpio_get_all, samples_per_poll, hm, get_absolute_time, hel2,
      sleep_us, hdl]
  · obtain ⟨h1, h2⟩ := hck hc
    simp only [samples_per_poll, hc, if_false, Nat.add_one_sub_one] at hm
    simp [pin_mask_wait_loop, hc, check_drive_error_ok h1 h2, gpio_get_all, samples_per_poll, hm,
      get_absolute_time, hel2, sleep_us, hdl]

/-- A round of `pin_mask_wait` in which the checks pass, the masked word has
not the awaited value and the time is up: the job ends with the timeout
error. -/
theorem pin_mask_wait_loop_timeout {E : Env} {mask value timeout c t0 fuel : Nat} {s : Machine}
    (hck : c ≠ 0 → fault_free E.cfg (E.pins s.time s.samples) ∧
      ready_and_selected E.cfg (E.pins s.time s.samples))
    (hm : E.pins s.time (s.samples + (samples_per_poll c - 1)) &&& mask ≠ value)
    (hel : s.time - t0 > timeout) :
    pin_mask_wait_loop E mask value timeout c t0 (fuel + 1) s =
      .halt (halted_with .XST_ERR_TIMEOUT
        { s with samples := s.samples + samples_per_poll c }) := by
  have hel2 : timeout < s.time - t0 := hel
  by_cases hc : c = 0
  · simp only [samples_per_poll, hc, if_true, Nat.sub_self, Nat.add_zero] at hm
    simp [pin_mask_wait_loop, hc, gpio_get_all, samples_per_poll, hm, get_absolute_time, hel2,
      ERROR, set_status, job_halt, halted_with]
  · obtain ⟨h1, h2⟩ := hck hc
    simp only [samples_per_poll, hc, if_false, Nat.add_one_sub_one] at hm
    simp [pin_mask_wait_loop, hc, check_drive_error_ok h1 h2, gpio_get_all, samples_per_poll, hm,
      get_absolute_time, hel2, ERROR, set_status, job_halt, halted_with]

/-- A round of `pin_mask_wait` with the checks on in which they do not pass:
the job ends with drive-error when fault or seek-error is asserted, else with
drive-not-ready. -/
theorem pin_mask_wait_loop_check {E : Env} {mask value timeout c t0 fuel : Nat} {s : Machine}
    (hc : c ≠ 0)
    (hck : ¬ (fault_free E.cfg (E.pins s.time s.samples) ∧
      ready_and_selected E.cfg (E.pins s.time s.samples))) :
    pin_mask_wait_loop E mask value timeout c t0 (fuel + 1) s =
      .halt (halted_with
        (if fault_free E.cfg (E.pins s.time s.samples) then .XST_ERR_DRIVE_NOT_READY
          else .XST_ERR_DRIVE_ERROR)
        { s with samples := s.samples + 1 }) := by
  by_cases h1 : fault_free E.cfg (E.pins s.time s.samples)
  · have h2 : ¬ ready_and_selected E.cfg (E.pins s.time s.samples) := fun h => hck ⟨h1, h⟩
    simp [pin_mask_wait_loop, hc, check_drive_error_eq, h1, h2]
  · simp [pin_mask_wait_loop, hc, check_drive_error_eq, h1]

/-- While the checks pass, the masked word has not the awaited value and the
time is not up, `pin_mask_wait` polls once per microsecond: `r` such rounds
take `r` microseconds. -/
theorem pin_mask_wait_loop_advance (E : Env) (mask value timeout c t0 : Nat) (r : Nat) :
    ∀ (fuel : Nat) (s : Machine),
      (∀ t n, s.time ≤ t → t < s.time + r →
        (c ≠ 0 → fault_free E.cfg (E.pins t n) ∧ ready_and_selected E.cfg (E.pins t n)) ∧
          E.pins t n &&& mask ≠ value) →
      s.time + r ≤ t0 + timeout + 1 → s.time + r ≤ E.deadline →
      pin_mask_wait_loop E mask value timeout c t0 (fuel + r) s =
        pin_mask_wait_loop E mask value timeout c t0 fuel
          { s with samples := s.samples + samples_per_poll c * r, time := s.time + r } := by
  induction r with
  | zero => intro fuel s _ _ _; rfl
  | succ r ih =>
    intro fuel s hb h1 h2
    have hf : fuel + (r + 1) = (fuel + r) + 1 := by omega
    rw [hf, pin_mask_wait_loop_step (hb _ _ (le_refl _) (by omega)).1
      (hb _ _ (le_refl _) (by omega)).2 (by omega) (by omega)]
    rw [ih fuel _ (fun t n ht1 ht2 => hb t n (by simp only at ht1; omega)
      (by simp only at ht2; omega)) (by simp only; omega) (by simp only; omega)]
    have e1 : s.samples + samples_per_poll c + samples_per_poll c * r =
        s.samples + samples_per_poll c * (r + 1) := by ring
    have e2 : s.time + 1 + r = s.time + (r + 1) := by omega
    simp only [e1, e2]

/-! ## The seek wait -/

theorem set_bits_eq (value : Nat) (s : Machine) :
    set_bits value s = .ret ()
      { s with out := { s.out with
          GPIO_BIT0 := decide (value &&& (1 <<< 0) ≠ 0)
          GPIO_BIT1 := decide (value &&& (1 <<< 1) ≠ 0)
          GPIO_BIT2 := decide (value &&& (1 <<< 2) ≠ 0)
          GPIO_BIT3 := decide (value &&& (1 <<< 3) ≠ 0)
          GPIO_BIT4 := decide (value &&& (1 <<< 4) ≠ 0)
          GPIO_BIT5 := decide (value &&& (1 <<< 5) ≠ 0)
          GPIO_BIT6 := decide (value &&& (1 <<< 6) ≠ 0)
          GPIO_BIT7 := decide (value &&& (1 <<< 7) ≠ 0)
          GPIO_BIT8 := decide (value &&& (1 <<< 8) ≠ 0)
          GPIO_BIT9 := decide (value &&& (1 <<< 9) ≠ 0) } } := by
  simp [set_bits, gpio_put, Outputs.put]

theorem tag1_cylinder_ok {E : Env} {s : Machine} (cylinder : Nat)
    (h : s.time + 10 ≤ E.deadline) :
    tag1_cylinder E cylinder s = .ret ()
      { s with time := s.time + 10, out := s.out.cleared,
               bus_log := s.bus_log ++ [.clear, .tag1 cylinder, .clear] } := by
  simp [tag1_cylinder, clear_output_eq, set_bits_eq, gpio_put, bus_record, sleep_us,
    TAG_SLEEP_US, h, Outputs.put, Outputs.cleared]

/-- A wait that nothing ends: the checks always pass (or are off) and the
masked word never has the awaited value. It polls once per microsecond and
ends the job with the timeout error at the first poll at which more than
`timeout` microseconds have passed, after `timeout + 2` polls. -/
theorem pin_mask_wait_times_out (E : Env) (mask value timeout c : Nat) (s : Machine)
    (hb : ∀ t n, (c ≠ 0 → fault_free E.cfg (E.pins t n) ∧ ready_and_selected E.cfg (E.pins t n)) ∧
      E.pins t n &&& mask ≠ value)
    (hdl : s.time + timeout + 1 ≤ E.deadline) :
    pin_mask_wait E mask value timeout c s =
      .halt (halted_with .XST_ERR_TIMEOUT
        { s with time := s.time + (timeout + 1),
                 samples := s.samples + samples_per_poll c * (timeout + 2) }) := by
  have hf : E.deadline - s.time + 1 = (E.deadline - s.time - (timeout + 1) + 1) + (timeout + 1) := by
    omega
  simp only [pin_mask_wait, Prog.bind_apply, get_absolute_time]
  rw [hf, pin_mask_wait_loop_advance E mask value timeout c s.time (timeout + 1) _ s
    (fun t n _ _ => hb t n) (by omega) (by omega)]
  rw [pin_mask_wait_loop_timeout (fun hc => (hb _ _).1 hc) (hb _ _).2 (by simp only; omega)]
  have e : s.samples + samples_per_poll c * (timeout + 1) + samples_per_poll c =
      s.samples + samples_per_poll c * (timeout + 2) := by ring
  simp only [e]

/-- The seek of `select_cylinder` on a drive that stays ready, selected and
fault-free and never reports on-cylinder together with seek-end. -/
theorem select_cylinder_seek_timeout (E : Env) (s : Machine) (cylinder : Nat)
    (hdrive : ∀ t n, fault_free E.cfg (E.pins t n) ∧ ready_and_selected E.cfg (E.pins t n) ∧
      E.pins t n &&& ((1 <<< E.cfg.GPIO_ON_CYLINDER) ||| (1 <<< E.cfg.GPIO_SEEK_END)) ≠
        (1 <<< E.cfg.GPIO_ON_CYLINDER) ||| (1 <<< E.cfg.GPIO_SEEK_END))
    (hdl : s.time + 1010 + 1000001 ≤ E.deadline) :
    select_cylinder E cylinder s =
      .halt (halted_with .XST_ERR_TIMEOUT
        { s with time := s.time + 1010 + 1000001,
                 samples := s.samples + 1 + 2 * 1000002,
                 out := s.out.cleared,
                 bus_log := s.bus_log ++ [.clear, .tag1 cylinder, .clear] }) := by
  have h1 := check_drive_error_ok (hdrive s.time s.samples).1 (hdrive s.time s.samples).2.1
  unfold select_cylinder
  rw [Prog.bind_ret h1, Prog.bind_ret (tag1_cylinder_ok cylinder (by simp only; omega))]
  have h3 : ∀ s2 : Machine, s2.time + 1000 ≤ E.deadline →
      sleep_us E 1000 s2 = .ret () { s2 with time := s2.time + 1000 } := by
    intro s2 h; simp [sleep_us, h]
  rw [Prog.bind_ret (h3 _ (by simp only; omega))]
  simp only []
  rw [pin_mask_wait_times_out E _ _ 1000000 1 _
    (fun t n => ⟨fun _ => ⟨(hdrive t n).1, (hdrive t n).2.1⟩, (hdrive t n).2.2⟩)
    (by simp only; omega)]
  have e1 : s.time + 10 + 1000 + (1000000 + 1) = s.time + 1010 + 1000001 := by omega
  have e2 : s.samples + 1 + samples_per_poll 1 * (1000000 + 2) = s.samples + 1 + 2 * 1000002 := by
    simp [samples_per_poll]
  simp only [e1, e2]

theorem example_env_seeking_drive (t n : Nat) :
    fault_free example_env_seeking.cfg (example_env_seeking.pins t n) ∧
      ready_and_selected example_env_seeking.cfg (example_env_seeking.pins t n) ∧
      example_env_seeking.pins t n &&&
          ((1 <<< example_env_seeking.cfg.GPIO_ON_CYLINDER) |||
            (1 <<< example_env_seeking.cfg.GPIO_SEEK_END)) ≠
        (1 <<< example_env_seeking.cfg.GPIO_ON_CYLINDER) |||
          (1 <<< example_env_seeking.cfg.GPIO_SEEK_END) := by
  have h : fault_free example_config ((1 <<< 12) ||| (1 <<< 13)) ∧
      ready_and_selected example_config ((1 <<< 12) ||| (1 <<< 13)) ∧
      ((1 <<< 12) ||| (1 <<< 13)) &&& ((1 <<< 14) ||| (1 <<< 15)) ≠
        (1 <<< 14) ||| (1 <<< 15) := by decide
  exact h

/-- Counterexample to C11 as stated: on a drive that stays ready, selected and
fault-free and never reports on-cylinder nor seek-end, `select_cylinder(3)`
started at time 0 begins its wait at time 1010 and ends the job with the
timeout error at time 1001011, after 1000002 polls (one sample before the
wait and two per poll): not at time 501011, the first poll at which more than
500000 microseconds have passed since the wait began. -/
theorem select_cylinder_polls_for_a_second :
    ∃ s1, select_cylinder example_env_seeking 3 (example_machine []) = .halt s1 ∧
      s1.status = .XST_ERR_TIMEOUT ∧ s1.time = 1010 + 1000001 ∧
      s1.samples = 1 + 2 * 1000002 ∧ s1.time ≠ 1010 + 500001 :=
  ⟨_, select_cylinder_seek_timeout example_env_seeking (example_machine []) 3
    example_env_seeking_drive (by decide), rfl, rfl, rfl, by decide⟩

/-- C11, amended. The clock is the field `time` of the state; it advances by
one microsecond at every poll that goes on. Take a drive that stays ready,
selected and fault-free but never asserts on-cylinder together with seek-end,
and leave core 1 alone for long enough. Then for every cylinder `n`,
`select_cylinder(n)` strobes tag1 (10 microseconds), sleeps 1000 microseconds,
begins its wait, polls once per microsecond and ends the job with the timeout
error code at the first poll at which more than 1000000 microseconds (one
second) have passed since the wait began, that is 1000001 microseconds after
the wait began, at its 1000002-th poll; it does not poll beyond that point.
One sample of the input word is taken before the wait and two at every
poll. -/
theorem select_cylinder_times_out_after_a_second (E : Env) (s : Machine) (n : Nat)
    (hdrive : ∀ t k, fault_free E.cfg (E.pins t k) ∧ ready_and_selected E.cfg (E.pins t k) ∧
      E.pins t k &&& ((1 <<< E.cfg.GPIO_ON_CYLINDER) ||| (1 <<< E.cfg.GPIO_SEEK_END)) ≠
        (1 <<< E.cfg.GPIO_ON_CYLINDER) ||| (1 <<< E.cfg.GPIO_SEEK_END))
    (hdl : s.time + 1010 + 1000001 ≤ E.deadline) :
    select_cylinder E n s =
      .halt (halted_with .XST_ERR_TIMEOUT
        { s with time := s.time + 1010 + 1000001,
                 samples := s.samples + 1 + 2 * 1000002,
                 out := s.out.cleared,
                 bus_log := s.bus_log ++ [.clear, .tag1 n, .clear] }) :=
  select_cylinder_seek_timeout E s n hdrive hdl

/-- Witness of C11, amended: cylinder 5 on the example drive that never
reports on-cylinder, from time 0. -/
theorem select_cylinder_times_out_after_a_second_witness :
    (select_cylinder example_env_seeking 5 (example_machine [])).state.status =
        .XST_ERR_TIMEOUT ∧
      (select_cylinder example_env_seeking 5 (example_machine [])).state.time = 1001011 := by
  rw [select_cylinder_times_out_after_a_second example_env_seeking (example_machine []) 5
    example_env_seeking_drive (by decide)]
  exact ⟨rfl, rfl⟩

/-! ## The drive lines during the waits -/

/-- A wait with the checks on, on a drive whose lines are fine and whose
masked word has not the awaited value until the time `T`, at which the checks
fail: the wait polls once per microsecond until `T` and ends the job there. -/
theorem pin_mask_wait_check_fails (E : Env) (mask value timeout c T : Nat) (s : Machine)
    (hc : c ≠ 0)
    (hbefore : ∀ t n, s.time ≤ t → t < T →
      (fault_free E.cfg (E.pins t n) ∧ ready_and_selected E.cfg (E.pins t n)) ∧
        E.pins t n &&& mask ≠ value)
    (hT1 : s.time ≤ T) (hT2 : T ≤ s.time + timeout + 1) (hdl : T ≤ E.deadline)
    (hbad : ¬ (fault_free E.cfg (E.pins T (s.samples + 2 * (T - s.time))) ∧
      ready_and_selected E.cfg (E.pins T (s.samples + 2 * (T - s.time))))) :
    pin_mask_wait E mask value timeout c s =
      .halt (halted_with
        (if fault_free E.cfg (E.pins T (s.samples + 2 * (T - s.time))) then
          .XST_ERR_DRIVE_NOT_READY
        else .XST_ERR_DRIVE_ERROR)
        { s with time := T, samples := s.samples + 2 * (T - s.time) + 1 }) := by
  have hf : E.deadline - s.time + 1 = (E.deadline - s.time - (T - s.time) + 1) + (T - s.time) := by
    omega
  have hp : samples_per_poll c = 2 := by simp [samples_per_poll, hc]
  have hT : s.time + (T - s.time) = T := by omega
  simp only [pin_mask_wait, Prog.bind_apply, get_absolute_time]
  rw [hf, pin_mask_wait_loop_advance E mask value timeout c s.time (T - s.time) _ s
    (fun t n h1 h2 => ⟨fun _ => (hbefore t n h1 (by omega)).1, (hbefore t n h1 (by omega)).2⟩)
    (by omega) (by omega)]
  simp only [hp, hT]
  rw [pin_mask_wait_loop_check hc hbad]

/-- The wait of `select_unit0` on a drive that never reports unit-selected:
the fault and ready lines are not looked at, and the job ends with the
timeout error after 100001 microseconds. -/
theorem select_unit0_never_selected (E : Env) (s : Machine)
    (hsel : ∀ t n, E.pins t n &&& (1 <<< E.cfg.GPIO_UNIT_SELECTED) ≠
      1 <<< E.cfg.GPIO_UNIT_SELECTED)
    (hdl : s.time + 100001 ≤ E.deadline) :
    select_unit0 E s =
      .halt (halted_with .XST_ERR_TIMEOUT
        { s with time := s.time + 100001, samples := s.samples + 100002,
                 out := s.out.put .GPIO_UNIT_SELECT_TAG true }) := by
  have h1 : unit0_select_tag s =
      .ret () { s with out := s.out.put .GPIO_UNIT_SELECT_TAG true } := rfl
  unfold select_unit0
  rw [Prog.bind_ret h1]
  have h2 := pin_mask_wait_times_out E (1 <<< E.cfg.GPIO_UNIT_SELECTED)
    (1 <<< E.cfg.GPIO_UNIT_SELECTED) 100000 0
    { s with out := s.out.put .GPIO_UNIT_SELECT_TAG true }
    (fun t n => ⟨fun h => absurd rfl h, hsel t n⟩) (by simp only; omega)
  have h3 : pin_wait_for_one E E.cfg.GPIO_UNIT_SELECTED 100000 0 =
      pin_mask_wait E (1 <<< E.cfg.GPIO_UNIT_SELECTED) (1 <<< E.cfg.GPIO_UNIT_SELECTED)
        100000 0 := rfl
  simp only [h3, Prog.bind_apply, h2]
  simp [samples_per_poll]

/-- Counterexample to C13 as stated: on a drive that asserts fault all the
time and never reports unit-selected, `select_unit0` ends the job with the
timeout error (100001 microseconds after its start), not with drive-error. -/
theorem select_unit0_times_out_under_fault :
    ¬ fault_free example_env_faulty.cfg (example_env_faulty.pins 0 0) ∧
    ∃ s1, select_unit0 example_env_faulty (example_machine []) = .halt s1 ∧
      s1.status = .XST_ERR_TIMEOUT ∧ s1.time = 100001 :=
  ⟨by decide, _, select_unit0_never_selected example_env_faulty (example_machine [])
    (fun _ _ => (by decide : ((1 <<< 10) ||| (1 <<< 12)) &&& (1 <<< 13) ≠ 1 <<< 13))
    (by decide), rfl, rfl⟩

/-- C13, amended. The seek wait of `select_cylinder` and the index-fall and
index-rise waits of `read_data` with `skip_checks` false are `pin_mask_wait`
with the checks on, each after a `check_drive_error` of its own: the fault,
seek-error, unit-ready and unit-selected lines are sampled before the wait
and at the start of every poll, one poll per microsecond. If the lines are
fine and the awaited value is absent until the time `T`, and at the poll of
time `T` the checks fail, the job ends there with drive-error when fault or
seek-error is asserted and otherwise with drive-not-ready, never with
timeout. The unit-selected wait of `select_unit0` runs with the checks off;
the lines are sampled once, after that wait has succeeded. -/
theorem waits_sample_the_drive_lines (E : Env) (s : Machine) (mask value timeout c T : Nat)
    (hc : c ≠ 0)
    (hbefore : ∀ t n, s.time ≤ t → t < T →
      (fault_free E.cfg (E.pins t n) ∧ ready_and_selected E.cfg (E.pins t n)) ∧
        E.pins t n &&& mask ≠ value)
    (hT1 : s.time ≤ T) (hT2 : T ≤ s.time + timeout + 1) (hdl : T ≤ E.deadline)
    (hbad : ¬ (fault_free E.cfg (E.pins T (s.samples + 2 * (T - s.time))) ∧
      ready_and_selected E.cfg (E.pins T (s.samples + 2 * (T - s.time))))) :
    pin_mask_wait E mask value timeout c s =
      .halt (halted_with
        (if fault_free E.cfg (E.pins T (s.samples + 2 * (T - s.time))) then
          .XST_ERR_DRIVE_NOT_READY
        else .XST_ERR_DRIVE_ERROR)
        { s with time := T, samples := s.samples + 2 * (T - s.time) + 1 }) ∧
    (∀ n, select_cylinder E n = (do
      check_drive_error E
      tag1_cylinder E n
      sleep_us E 1000
      pin_mask_wait E ((1 <<< E.cfg.GPIO_ON_CYLINDER) ||| (1 <<< E.cfg.GPIO_SEEK_END))
        ((1 <<< E.cfg.GPIO_ON_CYLINDER) ||| (1 <<< E.cfg.GPIO_SEEK_END)) 1000000 1)) ∧
    (∀ b w, read_data E b w 1 0 = (do
      check_drive_error E
      pin_mask_wait E (1 <<< E.cfg.GPIO_INDEX) 0 E.cfg.index_fall_timeout_us 1
      pin_mask_wait E (1 <<< E.cfg.GPIO_INDEX) (1 <<< E.cfg.GPIO_INDEX)
        E.cfg.index_rise_timeout_us 1
      clocked_read_into_buffer E b w
      read_data_wait E 0
      lift_pool (wrote_buffer b))) ∧
    select_unit0 E = (do
      unit0_select_tag
      pin_mask_wait E (1 <<< E.cfg.GPIO_UNIT_SELECTED) (1 <<< E.cfg.GPIO_UNIT_SELECTED) 100000 0
      check_drive_error E) :=
  ⟨pin_mask_wait_check_fails E mask value timeout c T s hc hbefore hT1 hT2 hdl hbad,
    fun _ => rfl, fun _ _ => rfl, rfl⟩

/-- Witness of C13, amended: the seek wait begun at time 1010 on a drive that
asserts fault from time 1015 on ends the job with drive-error at time 1015. -/
theorem waits_sample_the_drive_lines_witness :
    pin_mask_wait example_env_late_fault ((1 <<< 14) ||| (1 <<< 15)) ((1 <<< 14) ||| (1 <<< 15))
        1000000 1 { example_machine [] with time := 1010 } =
      .halt (halted_with .XST_ERR_DRIVE_ERROR
        { example_machine [] with time := 1015, samples := 11 }) := by
  have h := (waits_sample_the_drive_lines example_env_late_fault
    { example_machine [] with time := 1010 } ((1 <<< 14) ||| (1 <<< 15))
    ((1 <<< 14) ||| (1 <<< 15)) 1000000 1 1015 (by decide)
    (fun t n _ h2 => by
      have h3 : example_env_late_fault.pins t n = (1 <<< 12) ||| (1 <<< 13) := by
        simp [example_env_late_fault, h2]
      rw [h3]
      decide)
    (by decide) (by decide) (by decide) (by decide)).1
  rw [h]
  rfl

/-! ## The drain step of the control loop -/

/-- What `handle_frontend_data_transfers` does, in terms of the scan. -/
theorem handle_frontend_data_transfers_eq (bufs : Pool) :
    ((∀ b ∈ bufs, b.status ≠ .WRITTEN) ∧ handle_frontend_data_transfers bufs = .ret () bufs) ∨
    ((∃ b ∈ bufs, b.status = .WRITTEN) ∧
      handle_frontend_data_transfers bufs = .panic .PANIC_UNEXPECTED_STATE bufs) := by
  rcases find_buffer_index_loop_spec .WRITTEN bufs 0 with
    ⟨hall, hres⟩ | ⟨k, b, hk, hst, -, hres⟩
  · left
    refine ⟨hall, ?_⟩
    simp [handle_frontend_data_transfers, get_written_buffer_index, find_buffer_index, hres]
  · right
    refine ⟨⟨b, List.getElem?_mem hk, hst⟩, ?_⟩
    have hl := lt_length_of_getElem? hk
    simp only [Nat.zero_add] at hres
    have hk0 : ¬ ((k : Int) < 0) := by omega
    simp [handle_frontend_data_transfers, get_written_buffer_index, find_buffer_index, hres,
      hk0, get_buffer_size, check_buffer_index_ok hl, release_buffer_eq hk, hst]

/-- C16, what the code does. One pass of `handle_frontend_data_transfers`
leaves the pool as it was when no buffer is WRITTEN. When some buffer is
WRITTEN it calls `release_buffer` on the lowest WRITTEN buffer without
`transferred_buffer` before, and `release_buffer` panics with
`PANIC_UNEXPECTED_STATE` on a buffer that is not TRANSFERRED: the pass ends in
that panic and no buffer has changed. With one WRITTEN buffer: a panic. -/
theorem drain_step_panics_on_written (bufs : Pool) :
    handle_frontend_data_transfers bufs =
      (if ∃ b ∈ bufs, b.status = .WRITTEN then .panic .PANIC_UNEXPECTED_STATE bufs
        else .ret () bufs) ∧
    handle_frontend_data_transfers [example_buffer .WRITTEN] =
      .panic .PANIC_UNEXPECTED_STATE [example_buffer .WRITTEN] := by
  refine ⟨?_, rfl⟩
  rcases handle_frontend_data_transfers_eq bufs with ⟨hall, h⟩ | ⟨hex, h⟩
  · have hn : ¬ ∃ b ∈ bufs, b.status = .WRITTEN := by
      rintro ⟨b, hb, hs⟩; exact hall b hb hs
    rw [h, if_neg hn]
  · rw [h, if_pos hex]

/-! ## The transfer count of a capture -/

/-- What `clocked_read_into_buffer` does on a busy buffer. -/
theorem clocked_read_into_buffer_ok {E : Env} {s : Machine} {b : Nat} {x : buffer} (n_bytes : Nat)
    (hb : s.buffers[b]? = some x) (hx : x.status = .BUSY) :
    clocked_read_into_buffer E b n_bytes s = .ret ()
      { s with
        dma_transfer :=
          some (b, E.cfg.BYTES_TO_32BIT_WORDS (min n_bytes E.cfg.MAX_DATA_BUFFER_SIZE))
        bus_log := s.bus_log ++
          [.capture (E.cfg.BYTES_TO_32BIT_WORDS (min n_bytes E.cfg.MAX_DATA_BUFFER_SIZE))] } := by
  have hl := lt_length_of_getElem? hb
  have hmin : (if n_bytes > E.cfg.MAX_DATA_BUFFER_SIZE then E.cfg.MAX_DATA_BUFFER_SIZE
      else n_bytes) = min n_bytes E.cfg.MAX_DATA_BUFFER_SIZE := by
    by_cases h : n_bytes > E.cfg.MAX_DATA_BUFFER_SIZE
    · rw [if_pos h]; omega
    · rw [if_neg h]; omega
  have hs : s.buffers = s.buffers := rfl
  simp only [clocked_read_into_buffer, hmin, Prog.bind_apply, lift_pool,
    check_buffer_index_ok hl, machine, buffer_at_of_getElem? hb, hx, ne_eq,
    not_true_eq_false, if_false, Prog.pure_apply, bus_record]

/-- C12, what the code does. `read_data` hands its word count `w` to
`clocked_read_into_buffer` as the byte count, so on a busy buffer the transfer
is armed for `BYTES_TO_32BIT_WORDS(min(w, MAX_DATA_BUFFER_SIZE))` 32-bit
words and not for `w`. With buffers of 1024 bytes and the conversion
`(n + 3) / 4`, the single read of 8 words gets a buffer of 32 bytes and a
transfer of 2 words, and the batch read of 8 words per track arms a transfer
of 2 words as well. -/
theorem read_data_arms_bytes_as_words (E : Env) (s : Machine) (b w : Nat) :
    (clocked_read_into_buffer E b w s).state.dma_transfer =
      (if b < s.buffers.length ∧ (buffer_at s.buffers b).status = .BUSY then
        some (b, E.cfg.BYTES_TO_32BIT_WORDS (min w E.cfg.MAX_DATA_BUFFER_SIZE))
      else s.dma_transfer) ∧
    (∀ index_sync skip_checks, read_data E b w index_sync skip_checks = (do
      if c_not skip_checks ≠ 0 then check_drive_error E
      if index_sync ≠ 0 then do
        pin_wait_for_zero E E.cfg.GPIO_INDEX E.cfg.index_fall_timeout_us (c_not skip_checks)
        pin_wait_for_one E E.cfg.GPIO_INDEX E.cfg.index_rise_timeout_us (c_not skip_checks)
      clocked_read_into_buffer E b w
      read_data_wait E skip_checks
      lift_pool (wrote_buffer b))) ∧
    ((core1_slice example_env 0
        (xop_read_data example_env 8 0 1 (example_machine [example_buffer .FREE])).state
      ).state.dma_transfer = some (0, 2) ∧
      ((core1_slice example_env 0
        (xop_read_data example_env 8 0 1 (example_machine [example_buffer .FREE])).state
      ).state.buffers.map fun x => (x.size, x.status)) = [(32, .WRITTEN)]) := by
  refine ⟨?_, fun _ _ => rfl, ?_⟩
  · by_cases hl : b < s.buffers.length
    · have hb : s.buffers[b]? = some s.buffers[b] := List.getElem?_eq_getElem hl
      by_cases hx : (buffer_at s.buffers b).status = .BUSY
      · rw [if_pos ⟨hl, hx⟩]
        rw [buffer_at_of_getElem? hb] at hx
        rw [clocked_read_into_buffer_ok w hb hx]
        rfl
      · rw [if_neg (fun h => hx h.2)]
        simp [clocked_read_into_buffer, lift_pool, check_buffer_index_ok hl, machine, hx, PANIC,
          Outcome.state]
    · rw [if_neg (fun h => hl h.1)]
      have hp : check_buffer_index b s.buffers = .panic .PANIC_BOUNDS_CHECK_FAILED s.buffers := by
        simp [check_buffer_index]; omega
      simp [clocked_read_into_buffer, lift_pool, hp, Outcome.state]
  · simp [xop_read_data, reset, multicore_reset_core1, lift_pool, allocate_buffer,
      get_next_free_buffer_index, find_buffer_index, find_buffer_index_loop, check_buffer_index,
      set_buffer_status, set_buffer_size, buffer_at, run, set_status, multicore_launch_core1,
      core1_slice, job_body, job_read_data, BEGIN, get_absolute_time, machine,
      get_buffer_filename, next_read_data_serial_post_increment, snprintf_filename, read_data,
      c_not, clocked_read_into_buffer, read_data_wait, read_data_loop, clocked_read_is_running,
      example_env, example_config, example_machine, example_buffer, wrote_buffer,
      get_buffer_status, DONE, job_halt, Outcome.state, bus_record, PANIC]

/-! ## Waits that complete -/

/-- A wait on a drive whose lines are fine and on which the masked word has
the awaited value at the latest `j` microseconds from now, within the time
allowed: the wait returns after at most `j` microseconds and changes only the
clock and the count of samples. -/
theorem pin_mask_wait_loop_completes (E : Env) (mask value timeout c t0 : Nat)
    (hclean : ∀ t n, fault_free E.cfg (E.pins t n) ∧ ready_and_selected E.cfg (E.pins t n))
    (j : Nat) :
    ∀ (fuel : Nat) (s : Machine), (∀ n, E.pins (s.time + j) n &&& mask = value) →
      s.time + j ≤ t0 + timeout → s.time + j ≤ E.deadline → j < fuel →
      ∃ i k, i ≤ j ∧ pin_mask_wait_loop E mask value timeout c t0 fuel s =
        .ret () { s with time := s.time + i, samples := s.samples + k } := by
  induction j with
  | zero =>
    intro fuel s hm _ _ hf
    obtain ⟨f, rfl⟩ : ∃ f, fuel = f + 1 := ⟨fuel - 1, by omega⟩
    exact ⟨0, samples_per_poll c, le_refl _,
      pin_mask_wait_loop_match (fun _ => hclean _ _) (hm _)⟩
  | succ j ih =>
    intro fuel s hm h1 h2 hf
    obtain ⟨f, rfl⟩ : ∃ f, fuel = f + 1 := ⟨fuel - 1, by omega⟩
    by_cases hnow : E.pins s.time (s.samples + (samples_per_poll c - 1)) &&& mask = value
    · exact ⟨0, samples_per_poll c, Nat.zero_le _,
        pin_mask_wait_loop_match (fun _ => hclean _ _) hnow⟩
    · rw [pin_mask_wait_loop_step (fun _ => hclean _ _) hnow (by omega) (by omega)]
      have e : s.time + 1 + j = s.time + (j + 1) := by omega
      obtain ⟨i, k, hi, hr⟩ := ih f
        { s with samples := s.samples + samples_per_poll c, time := s.time + 1 }
        (fun n => by simp only [e]; exact hm n) (by simp only; omega) (by simp only; omega)
        (by omega)
      refine ⟨i + 1, samples_per_poll c + k, by omega, ?_⟩
      rw [hr]
      have e1 : s.time + 1 + i = s.time + (i + 1) := by omega
      have e2 : s.samples + samples_per_poll c + k = s.samples + (samples_per_poll c + k) := by
        omega
      simp only [e1, e2]

theorem pin_mask_wait_completes (E : Env) (mask value timeout c : Nat)
    (hclean : ∀ t n, fault_free E.cfg (E.pins t n) ∧ ready_and_selected E.cfg (E.pins t n))
    (s : Machine) (j : Nat) (hj : j ≤ timeout)
    (hm : ∀ n, E.pins (s.time + j) n &&& mask = value) (hdl : s.time + j ≤ E.deadline) :
    ∃ i k, i ≤ j ∧ pin_mask_wait E mask value timeout c s =
      .ret () { s with time := s.time + i, samples := s.samples + k } := by
  simp only [pin_mask_wait, Prog.bind_apply, get_absolute_time]
  exact pin_mask_wait_loop_completes E mask value timeout c s.time hclean j _ s hm (by omega) hdl
    (by omega)

/-- The wait for the end of the capture, with the checks on, on a drive whose
lines are fine and whose capture is over at the latest `j` microseconds from
now. -/
theorem read_data_loop_completes (E : Env)
    (hclean : ∀ t n, fault_free E.cfg (E.pins t n) ∧ ready_and_selected E.cfg (E.pins t n))
    (j : Nat) :
    ∀ (fuel : Nat) (s : Machine), (∀ n, E.dma_busy (s.time + j) n = false) →
      s.time + j ≤ E.deadline → j < fuel →
      ∃ i k, i ≤ j ∧ read_data_loop E 0 fuel s =
        .ret () { s with time := s.time + i, samples := s.samples + k } := by
  induction j with
  | zero =>
    intro fuel s hm _ hf
    obtain ⟨f, rfl⟩ : ∃ f, fuel = f + 1 := ⟨fuel - 1, by omega⟩
    refine ⟨0, 1, le_refl _, ?_⟩
    have h0 := hm s.samples
    simp only [Nat.add_zero] at h0
    simp [read_data_loop, clocked_read_is_running, h0]
  | succ j ih =>
    intro fuel s hm h2 hf
    obtain ⟨f, rfl⟩ : ∃ f, fuel = f + 1 := ⟨fuel - 1, by omega⟩
    by_cases hnow : E.dma_busy s.time s.samples = false
    · refine ⟨0, 1, Nat.zero_le _, ?_⟩
      simp [read_data_loop, clocked_read_is_running, hnow]
    · have hb : E.dma_busy s.time s.samples = true := by
        cases h : E.dma_busy s.time s.samples
        · exact absurd h hnow
        · rfl
      have e : s.time + 1 + j = s.time + (j + 1) := by omega
      obtain ⟨i, k, hi, hr⟩ := ih f
        { s with samples := s.samples + 2, time := s.time + 1 }
        (fun n => by simp only [e]; exact hm n) (by simp only; omega) (by omega)
      refine ⟨i + 1, 2 + k, by omega, ?_⟩
      have hck := check_drive_error_ok (E := E) (s := { s with samples := s.samples + 1 })
        (hclean _ _).1 (hclean _ _).2
      have hsl : s.time + 1 ≤ E.deadline := by omega
      have e1 : s.time + 1 + i = s.time + (i + 1) := by omega
      have e2 : s.samples + 2 + k = s.samples + (2 + k) := by omega
      simp only [e1, e2] at hr
      simp [read_data_loop, clocked_read_is_running, hb, c_not, hck, sleep_us, hsl, hr]

/-! ## The steps of the sequencer on an ideal drive -/

theorem tag2_head_ok {E : Env} {s : Machine} (head : Nat) (h : s.time + 10 ≤ E.deadline) :
    tag2_head E head s = .ret ()
      { s with time := s.time + 10, out := s.out.cleared,
               bus_log := s.bus_log ++ [.clear, .tag2 head, .clear] } := by
  simp [tag2_head, clear_output_eq, set_bits_eq, gpio_put, bus_record, sleep_us,
    TAG_SLEEP_US, h, Outputs.put, Outputs.cleared]

theorem tag3_ctrl_ok (s : Machine) (ctrl : Nat) :
    ∃ o, tag3_ctrl ctrl s = .ret ()
      { s with out := o, bus_log := s.bus_log ++ [.clear, .tag3 ctrl] } := by
  refine ⟨(tag3_ctrl ctrl s).state.out, ?_⟩
  simp [tag3_ctrl, clear_output_eq, set_bits_eq, gpio_put, bus_record, Outcome.state]

theorem select_cylinder_ok {E : Env} {D : Nat} (hE : ideal_drive E D) (s : Machine)
    (cylinder : Nat) (hdl : s.time + 1001010 ≤ E.deadline) :
    ∃ i k, i ≤ 1001010 ∧ select_cylinder E cylinder s = .ret ()
      { s with time := s.time + i, samples := s.samples + k, out := s.out.cleared,
               bus_log := s.bus_log ++ [.clear, .tag1 cylinder, .clear] } := by
  have h1 := check_drive_error_ok (hE.clean s.time s.samples).1 (hE.clean s.time s.samples).2
  obtain ⟨j, hj, hm⟩ := hE.seek (s.time + 10 + 1000)
  have h3 : ∀ s2 : Machine, s2.time + 1000 ≤ E.deadline →
      sleep_us E 1000 s2 = .ret () { s2 with time := s2.time + 1000 } := by
    intro s2 h; simp [sleep_us, h]
  unfold select_cylinder
  rw [Prog.bind_ret h1, Prog.bind_ret (tag1_cylinder_ok cylinder (by simp only; omega)),
    Prog.bind_ret (h3 _ (by simp only; omega))]
  simp only []
  obtain ⟨i, k, hi, hr⟩ := pin_mask_wait_completes E (seek_bits E.cfg) (seek_bits E.cfg)
    1000000 1 hE.clean
    { s with samples := s.samples + 1, time := s.time + 10 + 1000, out := s.out.cleared,
             bus_log := s.bus_log ++ [.clear, .tag1 cylinder, .clear] } j hj hm
    (by simp only; omega)
  refine ⟨1010 + i, 1 + k, by omega, ?_⟩
  have e1 : s.time + 10 + 1000 + i = s.time + (1010 + i) := by omega
  have e2 : s.samples + 1 + k = s.samples + (1 + k) := by omega
  simp only [e1, e2] at hr
  exact hr

theorem select_head_ok {E : Env} {D : Nat} (hE : ideal_drive E D) (s : Machine) (head : Nat)
    (hdl : s.time + 10 ≤ E.deadline) :
    select_head E head s = .ret ()
      { s with time := s.time + 10, samples := s.samples + 1, out := s.out.cleared,
               bus_log := s.bus_log ++ [.clear, .tag2 head, .clear] } := by
  have h1 := check_drive_error_ok (hE.clean s.time s.samples).1 (hE.clean s.time s.samples).2
  unfold select_head
  rw [Prog.bind_ret h1, tag2_head_ok head (by simp only; omega)]

theorem read_enable_ex_ok {E : Env} {D : Nat} (hE : ideal_drive E D) (s : Machine)
    (servo_offset data_strobe_delay : Int) :
    ∃ o, read_enable_ex E servo_offset data_strobe_delay s = .ret ()
      { s with samples := s.samples + 1, out := o,
               bus_log := s.bus_log ++
                 [.clear, .tag3 (read_enable_word E.cfg servo_offset data_strobe_delay)] } := by
  have h1 := check_drive_error_ok (hE.clean s.time s.samples).1 (hE.clean s.time s.samples).2
  obtain ⟨o, ho⟩ := tag3_ctrl_ok { s with samples := s.samples + 1 }
    (read_enable_word E.cfg servo_offset data_strobe_delay)
  refine ⟨o, ?_⟩
  unfold read_enable_ex
  rw [Prog.bind_ret h1]
  exact ho

theorem read_data_wait_completes {E : Env} {D : Nat} (hE : ideal_drive E D) (s : Machine)
    (hdl : s.time + D ≤ E.deadline) :
    ∃ i k, i ≤ D ∧ read_data_wait E 0 s =
      .ret () { s with time := s.time + i, samples := s.samples + k } := by
  obtain ⟨j, hj, hm⟩ := hE.capture s.time
  obtain ⟨i, k, hi, hr⟩ := read_data_loop_completes E hE.clean j (E.deadline - s.time + 1) s hm
    (by omega) (by omega)
  exact ⟨i, k, by omega, hr⟩

/-- A capture on an ideal drive, into a busy buffer: the index falls, the
index rises, the transfer is armed with the word count taken as a byte count,
the capture ends, the buffer is marked WRITTEN. -/
theorem read_data_ok {E : Env} {D : Nat} (hE : ideal_drive E D) (s : Machine) (b w : Nat)
    (x : buffer) (hb : s.buffers[b]? = some x) (hx : x.status = .BUSY)
    (hdl : s.time + (E.cfg.index_fall_timeout_us + E.cfg.index_rise_timeout_us + D) ≤
      E.deadline) :
    ∃ i k, i ≤ E.cfg.index_fall_timeout_us + E.cfg.index_rise_timeout_us + D ∧
      read_data E b w 1 0 s = .ret ()
        { s with
          time := s.time + i
          samples := s.samples + k
          dma_transfer :=
            some (b, E.cfg.BYTES_TO_32BIT_WORDS (min w E.cfg.MAX_DATA_BUFFER_SIZE))
          bus_log := s.bus_log ++
            [.capture (E.cfg.BYTES_TO_32BIT_WORDS (min w E.cfg.MAX_DATA_BUFFER_SIZE))]
          buffers := s.buffers.set b { x with status := .WRITTEN } } := by
  have hrd : read_data E b w 1 0 = (do
      check_drive_error E
      pin_mask_wait E (1 <<< E.cfg.GPIO_INDEX) 0 E.cfg.index_fall_timeout_us 1
      pin_mask_wait E (1 <<< E.cfg.GPIO_INDEX) (1 <<< E.cfg.GPIO_INDEX)
        E.cfg.index_rise_timeout_us 1
      clocked_read_into_buffer E b w
      read_data_wait E 0
      lift_pool (wrote_buffer b)) := rfl
  have h1 := check_drive_error_ok (hE.clean s.time s.samples).1 (hE.clean s.time s.samples).2
  obtain ⟨j0, hj0, hm0⟩ := hE.index_fall s.time
  obtain ⟨i0, k0, hi0, hr0⟩ := pin_mask_wait_completes E (1 <<< E.cfg.GPIO_INDEX) 0
    E.cfg.index_fall_timeout_us 1 hE.clean { s with samples := s.samples + 1 } j0 hj0 hm0
    (by simp only; omega)
  obtain ⟨j1, hj1, hm1⟩ := hE.index_rise (s.time + i0)
  obtain ⟨i1, k1, hi1, hr1⟩ := pin_mask_wait_completes E (1 <<< E.cfg.GPIO_INDEX)
    (1 <<< E.cfg.GPIO_INDEX) E.cfg.index_rise_timeout_us 1 hE.clean
    { s with samples := s.samples + 1 + k0, time := s.time + i0 } j1 hj1 hm1
    (by simp only; omega)
  have h4 := clocked_read_into_buffer_ok (E := E)
    (s := { s with samples := s.samples + 1 + k0 + k1, time := s.time + i0 + i1 }) w hb hx
  obtain ⟨i2, k2, hi2, hr2⟩ := read_data_wait_completes hE
    { s with samples := s.samples + 1 + k0 + k1, time := s.time + i0 + i1,
             dma_transfer :=
               some (b, E.cfg.BYTES_TO_32BIT_WORDS (min w E.cfg.MAX_DATA_BUFFER_SIZE)),
             bus_log := s.bus_log ++
               [.capture (E.cfg.BYTES_TO_32BIT_WORDS (min w E.cfg.MAX_DATA_BUFFER_SIZE))] }
    (by simp only; omega)
  refine ⟨i0 + i1 + i2, 1 + k0 + k1 + k2, by omega, ?_⟩
  simp only [] at hr0 hr1 h4 hr2
  rw [hrd, Prog.bind_ret h1, Prog.bind_ret hr0, Prog.bind_ret hr1, Prog.bind_ret h4,
    Prog.bind_ret hr2]
  have e1 : s.time + i0 + i1 + i2 = s.time + (i0 + i1 + i2) := by omega
  have e2 : s.samples + 1 + k0 + k1 + k2 = s.samples + (1 + k0 + k1 + k2) := by omega
  simp only [lift_pool, wrote_buffer_eq hb, hx, if_true, e1, e2]

/-! ## The batch read, step by step -/

/-- `allocate_buffer` takes the first free buffer. -/
theorem allocate_buffer_first {bufs : Pool} {k : Nat} {f : buffer} (M size : Nat)
    (hk : bufs[k]? = some f) (hf : f.status = .FREE)
    (hmin : ∀ j b1, j < k → bufs[j]? = some b1 → b1.status ≠ .FREE) :
    allocate_buffer M size bufs =
      .ret k (bufs.set k { f with status := .BUSY, size := min size M }) := by
  rcases allocate_buffer_eq M size bufs with ⟨hall, -⟩ | ⟨k1, f1, hk1, hf1, hmin1, hr⟩
  · exact absurd hf (hall f (List.getElem?_mem hk))
  · have hkk : k1 = k := by
      rcases Nat.lt_trichotomy k1 k with h | h | h
      · exact absurd hf1 (hmin k1 f1 h hk1)
      · exact h
      · exact absurd hf (hmin1 k f h hk)
    subst hkk
    rw [hk] at hk1
    cases hk1
    exact hr

theorem allocate_buffer_none {bufs : Pool} (M size : Nat)
    (hall : ∀ b ∈ bufs, b.status ≠ .FREE) :
    allocate_buffer M size bufs = .panic .PANIC_ALLOCATION_ERROR bufs := by
  rcases allocate_buffer_eq M size bufs with ⟨-, h⟩ | ⟨k1, f1, hk1, hf1, -, -⟩
  · exact h
  · exact absurd hf1 (hall f1 (List.getElem?_mem hk1))

theorem batch_read_label_ok (E : Env) (s : Machine) (bi c h : Nat) (so dsd : Int) (y : buffer)
    (hy : s.buffers[bi]? = some y) :
    batch_read_label E bi c h so dsd s =
      .ret () { s with buffers := s.buffers.set bi (batch_labelled E y c h so dsd) } := by
  have hl := lt_length_of_getElem? hy
  simp [batch_read_label, get_buffer_filename_ok hl, snprintf_filename,
    buffer_at_of_getElem? hy, batch_labelled]

/-- One combination of the batch read on an ideal drive, when the buffer of
the head is `bi` (not free) and the first free buffer is `k`: the label goes
to the buffer `bi`, the capture goes to the buffer `k`. -/
theorem batch_read_combination_ok {E : Env} {D : Nat} (hE : ideal_drive E D) (s : Machine)
    (bi n c h : Nat) (so dsd : Int) (y f : buffer) (k : Nat)
    (hy : s.buffers[bi]? = some y) (hys : y.status ≠ .FREE)
    (hk : s.buffers[k]? = some f) (hf : f.status = .FREE)
    (hmin : ∀ j b1, j < k → s.buffers[j]? = some b1 → b1.status ≠ .FREE)
    (hdl : s.time + (E.cfg.index_fall_timeout_us + E.cfg.index_rise_timeout_us + D) ≤
      E.deadline) :
    ∃ i m o d, i ≤ E.cfg.index_fall_timeout_us + E.cfg.index_rise_timeout_us + D ∧
      batch_read_combination E bi n c h so dsd s = .ret ()
        { s with
          time := s.time + i
          samples := s.samples + m
          out := o
          dma_transfer := d
          bus_log := s.bus_log ++
            [.clear, .tag3 (read_enable_word E.cfg so dsd), .capture (armed_words E n), .clear]
          buffers :=
            (s.buffers.set bi (batch_labelled E y c h so dsd)).set k (captured E f n) } := by
  have hne : bi ≠ k := by
    rintro rfl
    rw [hy] at hk
    cases hk
    exact hys hf
  have h1 := batch_read_label_ok E s bi c h so dsd y hy
  obtain ⟨o, h2⟩ := read_enable_ex_ok hE
    { s with buffers := s.buffers.set bi (batch_labelled E y c h so dsd) } so dsd
  have hk1 : (s.buffers.set bi (batch_labelled E y c h so dsd))[k]? = some f := by
    rw [List.getElem?_set_ne hne]; exact hk
  have hmin1 : ∀ j b1, j < k →
      (s.buffers.set bi (batch_labelled E y c h so dsd))[j]? = some b1 → b1.status ≠ .FREE := by
    intro j b1 hj hb1
    by_cases hbj : bi = j
    · subst hbj
      rw [List.getElem?_set_self (lt_length_of_getElem? hy)] at hb1
      cases hb1
      exact hys
    · rw [List.getElem?_set_ne hbj] at hb1
      exact hmin j b1 hj hb1
  have h3 := allocate_buffer_first E.cfg.MAX_DATA_BUFFER_SIZE n hk1 hf hmin1
  have hkl : k < (s.buffers.set bi (batch_labelled E y c h so dsd)).length :=
    lt_length_of_getElem? hk1
  obtain ⟨i, m, hi, h4⟩ := read_data_ok hE
    { s with
      buffers := (s.buffers.set bi (batch_labelled E y c h so dsd)).set k (allocated E f n)
      samples := s.samples + 1
      out := o
      bus_log := s.bus_log ++ [.clear, .tag3 (read_enable_word E.cfg so dsd)] }
    k n (allocated E f n)
    (by simp only; rw [List.getElem?_set_self hkl]) rfl (by simp only; omega)
  refine ⟨i, 1 + m, o.cleared, some (k, armed_words E n), hi, ?_⟩
  unfold batch_read_combination
  rw [Prog.bind_ret h1, Prog.bind_ret h2]
  simp only [allocated] at h3 h4
  simp only [Prog.bind_apply, lift_pool, h3, h4, clear_output_eq, List.set_set,
    List.append_assoc, List.cons_append, List.nil_append, Nat.add_assoc, captured,
    armed_words]

/-! ## The label and the capture of a combination -/

theorem example_env_spinning_odd {t : Nat} (h : t % 2 = 1) (n : Nat) :
    example_env_spinning.pins t n =
      (1 <<< 12) ||| (1 <<< 13) ||| (1 <<< 14) ||| (1 <<< 15) ||| (1 <<< 16) := by
  simp [example_env_spinning, h]

theorem example_env_spinning_even {t : Nat} (h : t % 2 = 0) (n : Nat) :
    example_env_spinning.pins t n = (1 <<< 12) ||| (1 <<< 13) ||| (1 <<< 14) ||| (1 <<< 15) := by
  simp [example_env_spinning, h]

/-- The example drive with the toggling index line is an ideal drive. -/
theorem example_env_spinning_ideal : ideal_drive example_env_spinning 0 where
  clean := by
    intro t n
    rcases Nat.mod_two_eq_zero_or_one t with h | h
    · rw [example_env_spinning_even h]; decide
    · rw [example_env_spinning_odd h]; decide
  seek := by
    intro t
    refine ⟨0, by omega, fun n => ?_⟩
    rcases Nat.mod_two_eq_zero_or_one (t + 0) with h | h
    · rw [example_env_spinning_even h]; decide
    · rw [example_env_spinning_odd h]; decide
  index_fall := by
    intro t
    rcases Nat.mod_two_eq_zero_or_one t with h | h
    · refine ⟨0, by decide, fun n => ?_⟩
      rw [example_env_spinning_even (by omega)]; decide
    · refine ⟨1, by decide, fun n => ?_⟩
      rw [example_env_spinning_even (by omega)]; decide
  index_rise := by
    intro t
    rcases Nat.mod_two_eq_zero_or_one t with h | h
    · refine ⟨1, by decide, fun n => ?_⟩
      rw [example_env_spinning_odd (by omega)]; decide
    · refine ⟨0, by decide, fun n => ?_⟩
      rw [example_env_spinning_odd (by omega)]; decide
  capture := fun _ => ⟨0, le_refl _, fun _ => rfl⟩

/-- C17, what the code does. In one combination of the batch read, on an
ideal drive, with the buffer `bi` that was allocated for the head (so not
free) and the first free buffer `k`: the label of the combination is stored in
the buffer `bi`, which stays as busy as it was, and the data is captured into
the buffer `k`, another buffer, freshly allocated; the buffer `k` is marked
WRITTEN with the label it had before, whatever that was. Every other buffer is
as before. -/
theorem batch_label_goes_to_another_buffer {E : Env} {D : Nat} (hE : ideal_drive E D)
    (s : Machine) (bi n c h : Nat) (so dsd : Int) (y f : buffer) (k : Nat)
    (hy : s.buffers[bi]? = some y) (hys : y.status ≠ .FREE)
    (hk : s.buffers[k]? = some f) (hf : f.status = .FREE)
    (hmin : ∀ j b1, j < k → s.buffers[j]? = some b1 → b1.status ≠ .FREE)
    (hdl : s.time + (E.cfg.index_fall_timeout_us + E.cfg.index_rise_timeout_us + D) ≤
      E.deadline) :
    bi ≠ k ∧
    ∃ s1, batch_read_combination E bi n c h so dsd s = .ret () s1 ∧
      s1.buffers[k]? = some (captured E f n) ∧
      (captured E f n).status = .WRITTEN ∧ (captured E f n).filename = f.filename ∧
      s1.buffers[bi]? = some (batch_labelled E y c h so dsd) ∧
      (batch_labelled E y c h so dsd).status = y.status ∧
      (batch_labelled E y c h so dsd).filename =
        c_snprintf E.cfg.CLOCKED_READ_BUFFER_FILENAME_MAX_LENGTH (batch_filename c h so dsd)
          y.filename ∧
      ∀ j, j ≠ k → j ≠ bi → s1.buffers[j]? = s.buffers[j]? := by
  have hne : bi ≠ k := by
    rintro rfl
    rw [hy] at hk
    cases hk
    exact hys hf
  obtain ⟨i, m, o, d, -, hr⟩ :=
    batch_read_combination_ok hE s bi n c h so dsd y f k hy hys hk hf hmin hdl
  refine ⟨hne, _, hr, ?_, rfl, rfl, ?_, rfl, rfl, ?_⟩
  · simp only
    rw [List.getElem?_set_self]
    rw [List.length_set]
    exact lt_length_of_getElem? hk
  · simp only
    rw [List.getElem?_set_ne (Ne.symm hne), List.getElem?_set_self (lt_length_of_getElem? hy)]
  · intro j hjk hjb
    simp only
    rw [List.getElem?_set_ne (Ne.symm hjk), List.getElem?_set_ne (Ne.symm hjb)]

/-- Witness of C17: with the head's buffer 0 busy and the buffer 1 free, the
combination of cylinder 0, head 0 and the values 0, 0 stores
`cylinder0000-head0.nrz` in the buffer 0 and marks the buffer 1 WRITTEN with
an empty label. -/
theorem batch_label_goes_to_another_buffer_witness :
    (batch_labelled example_env_spinning (example_buffer .BUSY) 0 0 0 0).filename =
      "cylinder0000-head0.nrz".toList ∧
    (captured example_env_spinning (example_buffer .FREE) 8).filename = [] ∧
    ∃ s1, batch_read_combination example_env_spinning 0 8 0 0 0 0
        (example_machine [example_buffer .BUSY, example_buffer .FREE]) = .ret () s1 ∧
      s1.buffers[1]? = some (captured example_env_spinning (example_buffer .FREE) 8) ∧
      s1.buffers[0]? =
        some (batch_labelled example_env_spinning (example_buffer .BUSY) 0 0 0 0) := by
  obtain ⟨-, s1, h1, h2, -, -, h3, -⟩ :=
    batch_label_goes_to_another_buffer example_env_spinning_ideal
      (example_machine [example_buffer .BUSY, example_buffer .FREE]) 0 8 0 0 0 0
      (example_buffer .BUSY) (example_buffer .FREE) 1 rfl (by decide) rfl rfl
      (fun j b1 hj hb => by
        have hj0 : j = 0 := by omega
        subst hj0
        cases hb
        decide)
      (by decide)
  exact ⟨by decide, rfl, s1, h1, h2, h3⟩

/-! ## The allocations of the batch read -/

theorem Prog.bind_panic {σ α β : Type} {m : Prog σ α} {f : α → Prog σ β} {s s1 : σ}
    {c : panic_code} (h : m s = .panic c s1) : (m >>= f) s = .panic c s1 := by
  simp [h]

theorem Prog.bind_halt {σ α β : Type} {m : Prog σ α} {f : α → Prog σ β} {s s1 : σ}
    (h : m s = .halt s1) : (m >>= f) s = .halt s1 := by
  simp [h]

/-- The guarded wait of the batch read when some buffer is free: it is over at
once and changes nothing. -/
theorem batch_read_wait_loop_free (E : Env) (t0 fuel : Nat) (s : Machine)
    (hfree : ∃ b ∈ s.buffers, b.status = .FREE) :
    batch_read_wait_loop E t0 (fuel + 1) s = .ret () s := by
  rcases can_allocate_buffer_eq s.buffers with ⟨hall, -⟩ | ⟨-, hr⟩
  · obtain ⟨b, hb, hs⟩ := hfree
    exact absurd hs (hall b hb)
  · simp [batch_read_wait_loop, lift_pool, hr, c_not]

/-- A combination of the batch read when no buffer is free: the label is
stored, the read gate is raised, and the allocation panics. -/
theorem batch_read_combination_panics {E : Env} {D : Nat} (hE : ideal_drive E D) (s : Machine)
    (bi n c h : Nat) (so dsd : Int) (y : buffer) (hy : s.buffers[bi]? = some y)
    (hall : ∀ b ∈ s.buffers, b.status ≠ .FREE) :
    ∃ o, batch_read_combination E bi n c h so dsd s = .panic .PANIC_ALLOCATION_ERROR
      { s with buffers := s.buffers.set bi (batch_labelled E y c h so dsd),
               samples := s.samples + 1, out := o,
               bus_log := s.bus_log ++ [.clear, .tag3 (read_enable_word E.cfg so dsd)] } := by
  have h1 := batch_read_label_ok E s bi c h so dsd y hy
  obtain ⟨o, h2⟩ := read_enable_ex_ok hE
    { s with buffers := s.buffers.set bi (batch_labelled E y c h so dsd) } so dsd
  have hall1 : ∀ b ∈ s.buffers.set bi (batch_labelled E y c h so dsd), b.status ≠ .FREE := by
    intro b hb
    rcases List.mem_or_eq_of_mem_set hb with hb1 | hb1
    · exact hall b hb1
    · subst hb1
      exact hall y (List.getElem?_mem hy)
  have h3 := allocate_buffer_none E.cfg.MAX_DATA_BUFFER_SIZE n hall1
  refine ⟨o, ?_⟩
  unfold batch_read_combination
  rw [Prog.bind_ret h1, Prog.bind_ret h2]
  simp only [Prog.bind_apply, lift_pool, h3]

/-- The round of the batch read for a selected head when exactly one buffer is
free: the guarded allocation takes that buffer, and the allocation of the
first combination panics. -/
theorem batch_read_head_panics {E : Env} {D : Nat} (hE : ideal_drive E D) (s : Machine)
    (n head_set c h mask : Nat) (so dsd : Int) (sos dsds : List Int) (k : Nat) (f : buffer)
    (hbit : head_set &&& mask ≠ 0)
    (hk : s.buffers[k]? = some f) (hf : f.status = .FREE)
    (hothers : ∀ j b1, j ≠ k → s.buffers[j]? = some b1 → b1.status ≠ .FREE)
    (hdl : s.time + 10 ≤ E.deadline) :
    ∃ s1, batch_read_head E n head_set (so :: sos) (dsd :: dsds) c h mask s =
        .panic .PANIC_ALLOCATION_ERROR s1 ∧
      s1.status = s.status ∧ s1.status_log = s.status_log := by
  have h1 := select_head_ok hE s h hdl
  have hkl := lt_length_of_getElem? hk
  have h2 := allocate_buffer_first E.cfg.MAX_DATA_BUFFER_SIZE n hk hf
    (fun j b1 hj hb => hothers j b1 (by omega) hb)
  have hall : ∀ b ∈ s.buffers.set k (allocated E f n), b.status ≠ .FREE := by
    intro b hb
    obtain ⟨j, hj⟩ := List.mem_iff_getElem?.mp hb
    by_cases hjk : k = j
    · subst hjk
      rw [List.getElem?_set_self hkl] at hj
      cases hj
      simp [allocated]
    · rw [List.getElem?_set_ne hjk] at hj
      exact hothers j b (Ne.symm hjk) hj
  obtain ⟨o, h3⟩ := batch_read_combination_panics hE
    { s with time := s.time + 10, samples := s.samples + 1, out := s.out.cleared,
             bus_log := s.bus_log ++ [.clear, .tag2 h, .clear],
             buffers := s.buffers.set k (allocated E f n) }
    k n c h so dsd (allocated E f n) (by simp only; rw [List.getElem?_set_self hkl]) hall
  unfold batch_read_head
  rw [if_neg hbit, Prog.bind_ret h1]
  simp only [Prog.bind_apply, get_absolute_time]
  rw [batch_read_wait_loop_free E _ _
    { s with time := s.time + 10, samples := s.samples + 1, out := s.out.cleared,
             bus_log := s.bus_log ++ [.clear, .tag2 h, .clear] }
    ⟨f, List.getElem?_mem hk, hf⟩]
  simp only [lift_pool, h2, allocated, for_each, Prog.bind_apply]
  simp only [allocated] at h3
  rw [h3]
  exact ⟨_, rfl, rfl, rfl⟩

theorem loop_values_cons {ER v : Int} (h : v = ER ∨ (-1 ≤ v ∧ v ≤ 1)) :
    (∃ x xs, servo_offset_values ER v = x :: xs) ∧
      ∃ x xs, data_strobe_delay_values ER v = x :: xs := by
  have h1 : servo_offset_values ER v =
      (if v = ER then [-1, 0, 1] else if -1 ≤ v ∧ v ≤ 1 then [v] else []) := loop_values_eq ER v
  have h2 : data_strobe_delay_values ER v =
      (if v = ER then [-1, 0, 1] else if -1 ≤ v ∧ v ≤ 1 then [v] else []) := loop_values_eq ER v
  rw [h1, h2]
  by_cases hv : v = ER
  · simp [hv]
  · have hr : -1 ≤ v ∧ v ≤ 1 := by
      rcases h with h | h
      · exact absurd h hv
      · exact h
    simp [hv, hr]

/-- The batch read on an ideal drive, for a cylinder range that is not empty,
with the head 0 selected and exactly one free buffer `k`: the job panics in
the allocation of its first combination. -/
theorem job_batch_read_panics {E : Env} {D : Nat} (hE : ideal_drive E D) (s : Machine) (k : Nat)
    (f : buffer)
    (hcyl : s.job_args.batch_read_cylinder0 ≤ s.job_args.batch_read_cylinder1)
    (hhead : s.job_args.batch_read_head_set &&& 1 ≠ 0) (hHC : 0 < E.cfg.DRIVE_HEAD_COUNT)
    (hso : s.job_args.batch_read_servo_offset = E.cfg.ENTIRE_RANGE ∨
      (-1 ≤ s.job_args.batch_read_servo_offset ∧ s.job_args.batch_read_servo_offset ≤ 1))
    (hdsd : s.job_args.batch_read_data_strobe_delay = E.cfg.ENTIRE_RANGE ∨
      (-1 ≤ s.job_args.batch_read_data_strobe_delay ∧
        s.job_args.batch_read_data_strobe_delay ≤ 1))
    (hk : s.buffers[k]? = some f) (hf : f.status = .FREE)
    (hothers : ∀ j b1, j ≠ k → s.buffers[j]? = some b1 → b1.status ≠ .FREE)
    (hdl : s.time + 1001020 ≤ E.deadline) :
    ∃ s1, job_batch_read E s = .panic .PANIC_ALLOCATION_ERROR s1 ∧
      s1.status = s.status ∧ s1.status_log = s.status_log := by
  obtain ⟨so, sos, hsos⟩ := (loop_values_cons hso).1
  obtain ⟨dsd, dsds, hdsds⟩ := (loop_values_cons hdsd).2
  obtain ⟨m, hm⟩ : ∃ m, E.cfg.DRIVE_HEAD_COUNT = m + 1 :=
    ⟨E.cfg.DRIVE_HEAD_COUNT - 1, by omega⟩
  have h0 : BEGIN s = .ret () { s with job_begin_time_us := s.time } := rfl
  have h1 := check_drive_error_ok (E := E) (s := { s with job_begin_time_us := s.time })
    (hE.clean _ _).1 (hE.clean _ _).2
  obtain ⟨i, q, hi, h2⟩ := select_cylinder_ok hE
    { s with job_begin_time_us := s.time, samples := s.samples + 1 }
    s.job_args.batch_read_cylinder0 (by simp only; omega)
  obtain ⟨s1, h3, hst, hlg⟩ := batch_read_head_panics hE
    { s with job_begin_time_us := s.time, samples := s.samples + 1 + q, time := s.time + i,
             out := s.out.cleared,
             bus_log := s.bus_log ++ [.clear, .tag1 s.job_args.batch_read_cylinder0, .clear] }
    s.job_args.batch_read_n_32bit_words_per_track s.job_args.batch_read_head_set
    s.job_args.batch_read_cylinder0 0 1 so dsd sos dsds k f hhead hk hf hothers
    (by simp only; omega)
  simp only [] at h2 h3
  unfold job_batch_read
  rw [Prog.bind_ret h0, Prog.bind_ret h1]
  simp only [Prog.bind_apply, machine, batch_read_cylinders, hsos, hdsds]
  rw [batch_read_cylinder_loop, if_pos hcyl]
  simp only [Prog.bind_apply, h2, hm, batch_read_head_loop, h3]
  exact ⟨s1, rfl, hst, hlg⟩

/-- C15, what the code does. The batch read guards only the allocation it
makes for each head; the allocation it makes for each combination is not
guarded. On an ideal drive, for a cylinder range that is not empty, with the
head 0 selected, spec values in `[-1, 1]` or the sentinel, and a pool in
which exactly one buffer is free: `can_allocate_buffer` answers 1, the guarded
allocation takes the free buffer, and the allocation of the first combination
is called with no free buffer and panics with `PANIC_ALLOCATION_ERROR`. The
job ends in that panic, with neither `DONE` nor an error code assigned to the
status. -/
theorem batch_read_allocates_unguarded {E : Env} {D : Nat} (hE : ideal_drive E D)
    (s : Machine) (k : Nat) (f : buffer)
    (hcyl : s.job_args.batch_read_cylinder0 ≤ s.job_args.batch_read_cylinder1)
    (hhead : s.job_args.batch_read_head_set &&& 1 ≠ 0) (hHC : 0 < E.cfg.DRIVE_HEAD_COUNT)
    (hso : s.job_args.batch_read_servo_offset = E.cfg.ENTIRE_RANGE ∨
      (-1 ≤ s.job_args.batch_read_servo_offset ∧ s.job_args.batch_read_servo_offset ≤ 1))
    (hdsd : s.job_args.batch_read_data_strobe_delay = E.cfg.ENTIRE_RANGE ∨
      (-1 ≤ s.job_args.batch_read_data_strobe_delay ∧
        s.job_args.batch_read_data_strobe_delay ≤ 1))
    (hk : s.buffers[k]? = some f) (hf : f.status = .FREE)
    (hothers : ∀ j b1, j ≠ k → s.buffers[j]? = some b1 → b1.status ≠ .FREE)
    (hdl : s.time + 1001020 ≤ E.deadline) :
    can_allocate_buffer s.buffers = .ret 1 s.buffers ∧
    ∃ s1, job_batch_read E s = .panic .PANIC_ALLOCATION_ERROR s1 ∧
      s1.status = s.status ∧ s1.status_log = s.status_log := by
  refine ⟨?_, job_batch_read_panics hE s k f hcyl hhead hHC hso hdsd hk hf hothers hdl⟩
  rcases can_allocate_buffer_eq s.buffers with ⟨hall, -⟩ | ⟨-, hr⟩
  · exact absurd hf (hall f (List.getElem?_mem hk))
  · exact hr

/-- Witness of C15: the batch read of cylinder 0, head 0, with the values 0
and 0, on the example drive whose index toggles and with a pool of one free
buffer, panics in `allocate_buffer`. -/
theorem batch_read_allocates_unguarded_witness :
    ∃ s1, job_batch_read example_env_spinning
        { example_machine [example_buffer .FREE] with job_args.batch_read_head_set := 1 } =
      .panic .PANIC_ALLOCATION_ERROR s1 := by
  obtain ⟨s1, h, -⟩ := (batch_read_allocates_unguarded example_env_spinning_ideal
    { example_machine [example_buffer .FREE] with job_args.batch_read_head_set := 1 } 0
    (example_buffer .FREE) (by decide) (by decide) (by decide) (by decide) (by decide) rfl rfl
    (fun j b1 hj hb => by
      have hn : ([example_buffer .FREE] : Pool)[j]? = none :=
        List.getElem?_eq_none (by simp; omega)
      change ([example_buffer .FREE] : Pool)[j]? = some b1 at hb
      rw [hn] at hb
      cases hb)
    (by decide)).2
  exact ⟨s1, h⟩

/-! ## The trace of the batch read -/

theorem free_count_set {bufs : Pool} {k : Nat} {f : buffer} (b : buffer)
    (hk : bufs[k]? = some f) :
    free_count (bufs.set k b) + (if f.status = .FREE then 1 else 0) =
      free_count bufs + (if b.status = .FREE then 1 else 0) := by
  induction bufs generalizing k with
  | nil => simp at hk
  | cons x rest ih =>
    cases k with
    | zero =>
      simp only [List.getElem?_cons_zero, Option.some.injEq] at hk
      subst hk
      simp only [List.set_cons_zero, free_count, List.countP_cons, decide_eq_true_eq]
      omega
    | succ k =>
      simp only [List.getElem?_cons_succ] at hk
      have h := ih hk
      simp only [List.set_cons_succ, free_count, List.countP_cons, decide_eq_true_eq] at h ⊢
      omega

theorem exists_first_free {bufs : Pool} (h : 0 < free_count bufs) :
    ∃ (k : Nat) (f : buffer), bufs[k]? = some f ∧ f.status = .FREE ∧
      ∀ (j : Nat) (b1 : buffer), j < k → bufs[j]? = some b1 → b1.status ≠ .FREE := by
  rcases find_buffer_index_loop_spec .FREE bufs 0 with ⟨hall, -⟩ | ⟨k, b, hk, hst, hmin, -⟩
  · exfalso
    have h0 : free_count bufs = 0 := by
      unfold free_count
      rw [List.countP_eq_zero]
      intro b hb
      simp [hall b hb]
    omega
  · exact ⟨k, b, hk, hst, hmin⟩

/-- The rule of the `for` loops: if every round, started with `r + 1` rounds
to go in a state that satisfies `I (r + 1)`, returns in a state that satisfies
`I r` and adds `X x` to the log, the loop returns, adds the entries of its
rounds in order, and ends in a state that satisfies `I 0`. -/
theorem for_each_trace {β : Type} (body : β → Job Unit) (X : β → List bus_event)
    (I : Nat → Machine → Prop)
    (hbody : ∀ x r s, I (r + 1) s →
      ∃ s1, body x s = .ret () s1 ∧ s1.bus_log = s.bus_log ++ X x ∧ I r s1)
    (xs : List β) :
    ∀ s, I xs.length s →
      ∃ s1, for_each xs body s = .ret () s1 ∧ s1.bus_log = s.bus_log ++ trace_for xs X ∧
        I 0 s1 := by
  induction xs with
  | nil =>
    intro s hs
    exact ⟨s, rfl, by simp [trace_for], hs⟩
  | cons x rest ih =>
    intro s hs
    obtain ⟨s1, h1, hl1, hi1⟩ := hbody x rest.length s hs
    obtain ⟨s2, h2, hl2, hi2⟩ := ih s1 hi1
    refine ⟨s2, ?_, ?_, hi2⟩
    · simp only [for_each, Prog.bind_apply, h1, h2]
    · rw [hl2, hl1, trace_for, List.append_assoc]

/-- One combination of the batch read on an ideal drive, as a round of the
loops: the head's buffer `bi` stays valid and not free, one free buffer is
used up, at most `combination_us` microseconds pass. -/
theorem combination_round {E : Env} {D : Nat} (hE : ideal_drive E D) (bi n c h : Nat)
    (so dsd : Int) (F T r : Nat) (s : Machine)
    (hbi : ∃ y, s.buffers[bi]? = some y ∧ y.status ≠ .FREE)
    (hfree : F + (r + 1) ≤ free_count s.buffers)
    (htime : s.time + (r + 1) * combination_us E D + T ≤ E.deadline) :
    ∃ s1, batch_read_combination E bi n c h so dsd s = .ret () s1 ∧
      s1.bus_log = s.bus_log ++ combination_trace E n so dsd ∧
      (∃ y, s1.buffers[bi]? = some y ∧ y.status ≠ .FREE) ∧
      F + r ≤ free_count s1.buffers ∧
      s1.time + r * combination_us E D + T ≤ E.deadline := by
  obtain ⟨y, hy, hys⟩ := hbi
  obtain ⟨k, f, hk, hf, hmin⟩ := @exists_first_free s.buffers (by omega)
  have hne : bi ≠ k := by
    rintro rfl
    rw [hy] at hk
    cases hk
    exact hys hf
  have hsucc : (r + 1) * combination_us E D = r * combination_us E D + combination_us E D := by
    ring
  obtain ⟨i, m, o, d, hi, hr⟩ := batch_read_combination_ok hE s bi n c h so dsd y f k hy hys hk
    hf hmin (by
      have e : E.cfg.index_fall_timeout_us + E.cfg.index_rise_timeout_us + D =
        combination_us E D := rfl
      rw [e]; omega)
  have hi1 : i ≤ combination_us E D := hi
  have hk1 : (s.buffers.set bi (batch_labelled E y c h so dsd))[k]? = some f := by
    rw [List.getElem?_set_ne hne]; exact hk
  have hc1 := free_count_set (batch_labelled E y c h so dsd) hy
  have hc2 := free_count_set (captured E f n) hk1
  have hl : (batch_labelled E y c h so dsd).status = y.status := rfl
  have hw : (captured E f n).status = .WRITTEN := rfl
  rw [hl, if_neg hys] at hc1
  rw [hw, if_pos hf] at hc2
  simp only [reduceCtorEq, if_false] at hc2
  refine ⟨_, hr, rfl, ⟨batch_labelled E y c h so dsd, ?_, hys⟩, ?_, ?_⟩
  · simp only
    rw [List.getElem?_set_ne (Ne.symm hne), List.getElem?_set_self (lt_length_of_getElem? hy)]
  · simp only
    omega
  · simp only
    omega

/-- The combinations of one head on an ideal drive: the servo offsets in
order and for each of them the data strobe delays in order. -/
theorem combinations_rounds {E : Env} {D : Nat} (hE : ideal_drive E D) (bi n c h : Nat)
    (sos dsds : List Int) (F T : Nat) (s : Machine)
    (hbi : ∃ y, s.buffers[bi]? = some y ∧ y.status ≠ .FREE)
    (hfree : F + sos.length * dsds.length ≤ free_count s.buffers)
    (htime : s.time + sos.length * dsds.length * combination_us E D + T ≤ E.deadline) :
    ∃ s1, for_each sos (fun so => for_each dsds fun dsd =>
          batch_read_combination E bi n c h so dsd) s = .ret () s1 ∧
      s1.bus_log = s.bus_log ++
        trace_for sos (fun so => trace_for dsds fun dsd => combination_trace E n so dsd) ∧
      (∃ y, s1.buffers[bi]? = some y ∧ y.status ≠ .FREE) ∧
      F ≤ free_count s1.buffers ∧ s1.time + T ≤ E.deadline := by
  have houter := for_each_trace
    (fun so => for_each dsds fun dsd => batch_read_combination E bi n c h so dsd)
    (fun so => trace_for dsds fun dsd => combination_trace E n so dsd)
    (fun r s => (∃ y, s.buffers[bi]? = some y ∧ y.status ≠ .FREE) ∧
      F + r * dsds.length ≤ free_count s.buffers ∧
      s.time + r * (dsds.length * combination_us E D) + T ≤ E.deadline)
    (by
      intro so r s2 ⟨h1, h2, h3⟩
      have e1 : (r + 1) * dsds.length = r * dsds.length + dsds.length := by ring
      have e2 : (r + 1) * (dsds.length * combination_us E D) =
          r * (dsds.length * combination_us E D) + dsds.length * combination_us E D := by ring
      have hinner := for_each_trace
        (fun dsd => batch_read_combination E bi n c h so dsd)
        (fun dsd => combination_trace E n so dsd)
        (fun q s => (∃ y, s.buffers[bi]? = some y ∧ y.status ≠ .FREE) ∧
          (F + r * dsds.length) + q ≤ free_count s.buffers ∧
          s.time + q * combination_us E D + (r * (dsds.length * combination_us E D) + T) ≤
            E.deadline)
        (by
          intro dsd q s3 ⟨g1, g2, g3⟩
          exact combination_round hE bi n c h so dsd _ _ q s3 g1 g2 g3)
        dsds s2 ⟨h1, by omega, by omega⟩
      obtain ⟨s3, g0, gl, g1, g2, g3⟩ := hinner
      exact ⟨s3, g0, gl, g1, by omega, by omega⟩)
    sos s ⟨hbi, hfree, by
      have e : sos.length * (dsds.length * combination_us E D) =
        sos.length * dsds.length * combination_us E D := by ring
      omega⟩
  obtain ⟨s1, g0, gl, g1, g2, g3⟩ := houter
  exact ⟨s1, g0, gl, g1, by omega, by omega⟩

/-- The round of the batch read for a selected head on an ideal drive: the
head is selected, one buffer is allocated for the head, then the combinations
follow; `1 + sos.length * dsds.length` free buffers are used up. -/
theorem head_round {E : Env} {D : Nat} (hE : ideal_drive E D) (n head_set c h mask : Nat)
    (sos dsds : List Int) (F T : Nat) (s : Machine) (hbit : head_set &&& mask ≠ 0)
    (hfree : F + (1 + sos.length * dsds.length) ≤ free_count s.buffers)
    (htime : s.time + head_us E D (sos.length * dsds.length) + T ≤ E.deadline) :
    ∃ s1, batch_read_head E n head_set sos dsds c h mask s = .ret () s1 ∧
      s1.bus_log = s.bus_log ++ head_trace E n sos dsds h ∧
      F ≤ free_count s1.buffers ∧ s1.time + T ≤ E.deadline := by
  have hu : head_us E D (sos.length * dsds.length) =
      10 + sos.length * dsds.length * combination_us E D := rfl
  obtain ⟨k, f, hk, hf, hmin⟩ := @exists_first_free s.buffers (by omega)
  have hkl := lt_length_of_getElem? hk
  have h1 := select_head_ok hE s h (by omega)
  have h2 := allocate_buffer_first E.cfg.MAX_DATA_BUFFER_SIZE n hk hf hmin
  have hc := free_count_set (allocated E f n) hk
  have hb : (allocated E f n).status = .BUSY := rfl
  rw [if_pos hf, hb] at hc
  simp only [reduceCtorEq, if_false] at hc
  obtain ⟨s1, g0, gl, -, g2, g3⟩ := combinations_rounds hE k n c h sos dsds F T
    { s with time := s.time + 10, samples := s.samples + 1, out := s.out.cleared,
             bus_log := s.bus_log ++ [.clear, .tag2 h, .clear],
             buffers := s.buffers.set k (allocated E f n) }
    ⟨allocated E f n, by simp only; rw [List.getElem?_set_self hkl], by simp [allocated]⟩
    (by simp only; omega) (by simp only; omega)
  refine ⟨s1, ?_, ?_, g2, g3⟩
  · unfold batch_read_head
    rw [if_neg hbit, Prog.bind_ret h1]
    simp only [Prog.bind_apply, get_absolute_time]
    rw [batch_read_wait_loop_free E _ _
      { s with time := s.time + 10, samples := s.samples + 1, out := s.out.cleared,
               bus_log := s.bus_log ++ [.clear, .tag2 h, .clear] }
      ⟨f, List.getElem?_mem hk, hf⟩]
    simp only [lift_pool, h2, allocated]
    simp only [allocated] at g0
    exact g0
  · rw [gl]
    simp only [head_trace, List.append_assoc]

theorem shifted_mask {head : Nat} (h : head + 1 < 32) :
    ((1 <<< head) <<< 1) % 2 ^ 32 = 1 <<< (head + 1) := by
  have e : (1 <<< head) <<< 1 = 2 ^ (head + 1) := by
    simp [Nat.shiftLeft_eq, pow_succ]
  rw [e, Nat.one_shiftLeft]
  exact Nat.mod_eq_of_lt (Nat.pow_lt_pow_right (by decide) h)

/-- The loop over the heads on an ideal drive, with `cnt` rounds to go from
the head `head` on: the rounds of the heads whose bit is set, in ascending
order. -/
theorem head_loop_rounds {E : Env} {D : Nat} (hE : ideal_drive E D) (n head_set c : Nat)
    (sos dsds : List Int) (cnt : Nat) :
    ∀ (head mask F T : Nat) (s : Machine), (cnt ≠ 0 → mask = 1 <<< head) → head + cnt ≤ 32 →
      F + ((List.range' head cnt).filter
          fun h => decide (head_set &&& (1 <<< h) ≠ 0)).length *
        (1 + sos.length * dsds.length) ≤ free_count s.buffers →
      s.time + ((List.range' head cnt).filter
          fun h => decide (head_set &&& (1 <<< h) ≠ 0)).length *
        head_us E D (sos.length * dsds.length) + T ≤ E.deadline →
      ∃ s1, batch_read_head_loop E n head_set sos dsds c cnt head mask s = .ret () s1 ∧
        s1.bus_log = s.bus_log ++
          trace_for ((List.range' head cnt).filter
            fun h => decide (head_set &&& (1 <<< h) ≠ 0)) (head_trace E n sos dsds) ∧
        F ≤ free_count s1.buffers ∧ s1.time + T ≤ E.deadline := by
  induction cnt with
  | zero =>
    intro head mask F T s _ _ hfree htime
    refine ⟨s, rfl, by simp [trace_for], ?_, ?_⟩
    · simpa using hfree
    · simpa using htime
  | succ cnt ih =>
    intro head mask F T s hmask hle hfree htime
    have hm : mask = 1 <<< head := hmask (by omega)
    subst hm
    have hnext : cnt ≠ 0 → ((1 <<< head) <<< 1) % 2 ^ 32 = 1 <<< (head + 1) :=
      fun h0 => shifted_mask (by omega)
    rw [List.range'_succ] at hfree htime ⊢
    by_cases hbit : head_set &&& (1 <<< head) ≠ 0
    · have hp : decide (head_set &&& (1 <<< head) ≠ 0) = true := by simpa using hbit
      simp only [List.filter_cons, hp, if_true] at hfree htime ⊢
      simp only [List.length_cons] at hfree htime
      have e1 : ∀ L U : Nat, (L + 1) * U = L * U + U := fun L U => by ring
      rw [e1] at hfree htime
      obtain ⟨s1, g0, gl, g2, g3⟩ := head_round hE n head_set c head (1 <<< head) sos dsds
        (F + ((List.range' (head + 1) cnt).filter
          fun h => decide (head_set &&& (1 <<< h) ≠ 0)).length * (1 + sos.length * dsds.length))
        (((List.range' (head + 1) cnt).filter
          fun h => decide (head_set &&& (1 <<< h) ≠ 0)).length *
            head_us E D (sos.length * dsds.length) + T)
        s hbit (by omega) (by omega)
      obtain ⟨s2, k0, kl, k2, k3⟩ := ih (head + 1) (((1 <<< head) <<< 1) % 2 ^ 32) F T s1 hnext
        (by omega) g2 (by omega)
      refine ⟨s2, ?_, ?_, k2, k3⟩
      · simp only [batch_read_head_loop, Prog.bind_apply, g0, k0]
      · rw [kl, gl, trace_for, List.append_assoc]
    · have hp : decide (head_set &&& (1 <<< head) ≠ 0) = false := by simpa using hbit
      simp only [List.filter_cons, hp, Bool.false_eq_true, if_false] at hfree htime ⊢
      have hz : head_set &&& (1 <<< head) = 0 := by
        by_contra hne; exact hbit hne
      obtain ⟨s2, k0, kl, k2, k3⟩ := ih (head + 1) (((1 <<< head) <<< 1) % 2 ^ 32) F T s hnext
        (by omega) hfree htime
      refine ⟨s2, ?_, kl, k2, k3⟩
      simp only [batch_read_head_loop, batch_read_head, hz, if_true, Prog.bind_apply,
        Prog.pure_apply, k0]

/-- The round of the batch read for one cylinder on an ideal drive. -/
theorem cylinder_round {E : Env} {D : Nat} (hE : ideal_drive E D) (n head_set c : Nat)
    (sos dsds : List Int) (hHC : E.cfg.DRIVE_HEAD_COUNT ≤ 32) (F T : Nat) (s : Machine)
    (hfree : F + (batch_heads E.cfg.DRIVE_HEAD_COUNT head_set).length *
      (1 + sos.length * dsds.length) ≤ free_count s.buffers)
    (htime : s.time + cylinder_us E D (batch_heads E.cfg.DRIVE_HEAD_COUNT head_set).length
      (sos.length * dsds.length) + T ≤ E.deadline) :
    ∃ s1, (do
        select_cylinder E c
        batch_read_head_loop E n head_set sos dsds c E.cfg.DRIVE_HEAD_COUNT 0 1) s =
          .ret () s1 ∧
      s1.bus_log = s.bus_log ++
        cylinder_trace E n (batch_heads E.cfg.DRIVE_HEAD_COUNT head_set) sos dsds c ∧
      F ≤ free_count s1.buffers ∧ s1.time + T ≤ E.deadline := by
  have hu : cylinder_us E D (batch_heads E.cfg.DRIVE_HEAD_COUNT head_set).length
      (sos.length * dsds.length) =
      1001010 + (batch_heads E.cfg.DRIVE_HEAD_COUNT head_set).length *
        head_us E D (sos.length * dsds.length) := rfl
  obtain ⟨i, q, hi, h1⟩ := select_cylinder_ok hE s c (by omega)
  obtain ⟨s1, g0, gl, g2, g3⟩ := head_loop_rounds hE n head_set c sos dsds
    E.cfg.DRIVE_HEAD_COUNT 0 1 F T
    { s with time := s.time + i, samples := s.samples + q, out := s.out.cleared,
             bus_log := s.bus_log ++ [.clear, .tag1 c, .clear] }
    (fun _ => rfl) (by omega) hfree
    (by
      have e : batch_heads E.cfg.DRIVE_HEAD_COUNT head_set =
        (List.range' 0 E.cfg.DRIVE_HEAD_COUNT).filter
          fun h => decide (head_set &&& (1 <<< h) ≠ 0) := rfl
      rw [e] at hu htime
      simp only
      omega)
  refine ⟨s1, ?_, ?_, g2, g3⟩
  · simp only [Prog.bind_apply, h1, g0]
  · rw [gl]
    simp only [cylinder_trace, List.append_assoc]
    rfl

/-- The loop over the cylinders on an ideal drive, with `m` cylinders to go
from the cylinder `c` on. -/
theorem cylinder_loop_rounds {E : Env} {D : Nat} (hE : ideal_drive E D) (n head_set : Nat)
    (sos dsds : List Int) (hHC : E.cfg.DRIVE_HEAD_COUNT ≤ 32) (c1 : Nat)
    (hc1 : c1 < 2 ^ 32 - 1) (m : Nat) :
    ∀ (c fuel F T : Nat) (s : Machine), m = c1 + 1 - c → m < fuel →
      F + m * ((batch_heads E.cfg.DRIVE_HEAD_COUNT head_set).length *
        (1 + sos.length * dsds.length)) ≤ free_count s.buffers →
      s.time + m * cylinder_us E D (batch_heads E.cfg.DRIVE_HEAD_COUNT head_set).length
        (sos.length * dsds.length) + T ≤ E.deadline →
      ∃ s1, batch_read_cylinder_loop E n head_set sos dsds c1 fuel c s = .ret () s1 ∧
        s1.bus_log = s.bus_log ++ trace_for (List.range' c m)
          (cylinder_trace E n (batch_heads E.cfg.DRIVE_HEAD_COUNT head_set) sos dsds) ∧
        F ≤ free_count s1.buffers ∧ s1.time + T ≤ E.deadline := by
  induction m with
  | zero =>
    intro c fuel F T s hm hfuel hfree htime
    obtain ⟨f, rfl⟩ : ∃ f, fuel = f + 1 := ⟨fuel - 1, by omega⟩
    have hc : ¬ c ≤ c1 := by omega
    refine ⟨s, ?_, by simp [trace_for], by simpa using hfree, by simpa using htime⟩
    simp only [batch_read_cylinder_loop, hc, if_false, Prog.pure_apply]
  | succ m ih =>
    intro c fuel F T s hm hfuel hfree htime
    obtain ⟨f, rfl⟩ : ∃ f, fuel = f + 1 := ⟨fuel - 1, by omega⟩
    have hc : c ≤ c1 := by omega
    have e1 : ∀ U : Nat, (m + 1) * U = m * U + U := fun U => by ring
    rw [e1] at hfree htime
    obtain ⟨s1, g0, gl, g2, g3⟩ := cylinder_round hE n head_set c sos dsds hHC
      (F + m * ((batch_heads E.cfg.DRIVE_HEAD_COUNT head_set).length *
        (1 + sos.length * dsds.length)))
      (m * cylinder_us E D (batch_heads E.cfg.DRIVE_HEAD_COUNT head_set).length
        (sos.length * dsds.length) + T)
      s (by omega) (by omega)
    have hwrap : (c + 1) % 2 ^ 32 = c + 1 := Nat.mod_eq_of_lt (by omega)
    obtain ⟨s2, k0, kl, k2, k3⟩ := ih (c + 1) f F T s1 (by omega) (by omega) g2 (by omega)
    simp only [Prog.bind_apply] at g0
    refine ⟨s2, ?_, ?_, k2, k3⟩
    · rw [batch_read_cylinder_loop, if_pos hc]
      simp only [Prog.bind_apply, hwrap]
      cases hsel : select_cylinder E c s with
      | ret a s3 =>
        rw [hsel] at g0
        simp only at g0 ⊢
        rw [g0]
        exact k0
      | halt s3 => rw [hsel] at g0; cases g0
      | panic x s3 => rw [hsel] at g0; cases g0
      | cut s3 => rw [hsel] at g0; cases g0
    · rw [kl, gl, List.range'_succ, trace_for, List.append_assoc]

/-! ## The batch read on an ideal drive -/

theorem DONE_eq (s : Machine) : (DONE : Job Unit) s = .halt (halted_with .XST_DONE s) := rfl

/-- The batch read on an ideal drive, with enough free buffers and enough
time: it ends `DONE` and has shown on the bus the rounds of its cylinders,
heads and combinations, in order. -/
theorem job_batch_read_runs {E : Env} {D : Nat} (hE : ideal_drive E D) (s : Machine)
    (hc1 : s.job_args.batch_read_cylinder1 < 2 ^ 32 - 1)
    (hHC : E.cfg.DRIVE_HEAD_COUNT ≤ 32)
    (hfree :
      (batch_cylinders s.job_args.batch_read_cylinder0 s.job_args.batch_read_cylinder1).length *
        ((batch_heads E.cfg.DRIVE_HEAD_COUNT s.job_args.batch_read_head_set).length *
          (1 + (servo_offset_values E.cfg.ENTIRE_RANGE s.job_args.batch_read_servo_offset).length *
            (data_strobe_delay_values E.cfg.ENTIRE_RANGE
              s.job_args.batch_read_data_strobe_delay).length)) ≤ free_count s.buffers)
    (htime : s.time +
      (batch_cylinders s.job_args.batch_read_cylinder0 s.job_args.batch_read_cylinder1).length *
        cylinder_us E D
          (batch_heads E.cfg.DRIVE_HEAD_COUNT s.job_args.batch_read_head_set).length
          ((servo_offset_values E.cfg.ENTIRE_RANGE s.job_args.batch_read_servo_offset).length *
            (data_strobe_delay_values E.cfg.ENTIRE_RANGE
              s.job_args.batch_read_data_strobe_delay).length) ≤ E.deadline) :
    ∃ s1, job_batch_read E s = .halt s1 ∧ s1.status = .XST_DONE ∧
      s1.bus_log = s.bus_log ++
        batch_trace E s.job_args.batch_read_n_32bit_words_per_track
          (batch_cylinders s.job_args.batch_read_cylinder0 s.job_args.batch_read_cylinder1)
          (batch_heads E.cfg.DRIVE_HEAD_COUNT s.job_args.batch_read_head_set)
          (servo_offset_values E.cfg.ENTIRE_RANGE s.job_args.batch_read_servo_offset)
          (data_strobe_delay_values E.cfg.ENTIRE_RANGE
            s.job_args.batch_read_data_strobe_delay) := by
  have hlen : (batch_cylinders s.job_args.batch_read_cylinder0
      s.job_args.batch_read_cylinder1).length =
      s.job_args.batch_read_cylinder1 + 1 - s.job_args.batch_read_cylinder0 := by
    simp [batch_cylinders]
  rw [hlen] at hfree htime
  have h0 : BEGIN s = .ret () { s with job_begin_time_us := s.time } := rfl
  have h1 := check_drive_error_ok (E := E) (s := { s with job_begin_time_us := s.time })
    (hE.clean _ _).1 (hE.clean _ _).2
  have hU : 1 ≤ cylinder_us E D
      (batch_heads E.cfg.DRIVE_HEAD_COUNT s.job_args.batch_read_head_set).length
      ((servo_offset_values E.cfg.ENTIRE_RANGE s.job_args.batch_read_servo_offset).length *
        (data_strobe_delay_values E.cfg.ENTIRE_RANGE
          s.job_args.batch_read_data_strobe_delay).length) := by
    unfold cylinder_us; omega
  have hfuel := Nat.le_mul_of_pos_right
    (s.job_args.batch_read_cylinder1 + 1 - s.job_args.batch_read_cylinder0) hU
  obtain ⟨s1, g0, gl, -, -⟩ := cylinder_loop_rounds hE
    s.job_args.batch_read_n_32bit_words_per_track s.job_args.batch_read_head_set
    (servo_offset_values E.cfg.ENTIRE_RANGE s.job_args.batch_read_servo_offset)
    (data_strobe_delay_values E.cfg.ENTIRE_RANGE s.job_args.batch_read_data_strobe_delay)
    hHC s.job_args.batch_read_cylinder1 hc1
    (s.job_args.batch_read_cylinder1 + 1 - s.job_args.batch_read_cylinder0)
    s.job_args.batch_read_cylinder0 (E.deadline - s.time + 1) 0 0
    { s with job_begin_time_us := s.time, samples := s.samples + 1 }
    rfl (by omega) (by simp only; omega) (by simp only; omega)
  refine ⟨halted_with .XST_DONE s1, ?_, rfl, ?_⟩
  · unfold job_batch_read
    rw [Prog.bind_ret h0, Prog.bind_ret h1]
    simp only [Prog.bind_apply, machine, batch_read_cylinders, g0, DONE_eq]
  · show s1.bus_log = _
    rw [gl]
    rfl

/-- C14, what the code does. Take a drive that is always ready, selected and
fault-free and completes every seek, index wait and capture, a pool with a
free buffer for every allocation (one per selected head of every cylinder and
one more per combination), enough time before core 1 is reset,
`cylinder1 < 2 ^ 32 - 1` and at most 32 heads. Then the batch read ends `DONE`
and `bus_log` has grown by exactly this, in this order: for each cylinder from
`cylinder0` to `cylinder1`, ascending (none when `cylinder0 > cylinder1`), a
strobe of tag1 with the cylinder; for each head below `DRIVE_HEAD_COUNT` whose
bit is set, ascending, a strobe of tag2 with the head; for each value of the
servo offset loop, ascending, and each value of the data strobe delay loop,
ascending: tag3 raised with the read gate word of the two values, one capture
armed, `clear_output`. The values of each loop are `[-1, 0, 1]` for the
sentinel, `[v]` for `v` in `[-1, 1]`, and none for any other `v`: for such a
`v` the heads are selected and nothing is captured. -/
theorem batch_read_trace_on_ideal_drive {E : Env} {D : Nat} (hE : ideal_drive E D)
    (s : Machine) (hc1 : s.job_args.batch_read_cylinder1 < 2 ^ 32 - 1)
    (hHC : E.cfg.DRIVE_HEAD_COUNT ≤ 32)
    (hfree :
      (batch_cylinders s.job_args.batch_read_cylinder0 s.job_args.batch_read_cylinder1).length *
        ((batch_heads E.cfg.DRIVE_HEAD_COUNT s.job_args.batch_read_head_set).length *
          (1 + (servo_offset_values E.cfg.ENTIRE_RANGE s.job_args.batch_read_servo_offset).length *
            (data_strobe_delay_values E.cfg.ENTIRE_RANGE
              s.job_args.batch_read_data_strobe_delay).length)) ≤ free_count s.buffers)
    (htime : s.time +
      (batch_cylinders s.job_args.batch_read_cylinder0 s.job_args.batch_read_cylinder1).length *
        cylinder_us E D
          (batch_heads E.cfg.DRIVE_HEAD_COUNT s.job_args.batch_read_head_set).length
          ((servo_offset_values E.cfg.ENTIRE_RANGE s.job_args.batch_read_servo_offset).length *
            (data_strobe_delay_values E.cfg.ENTIRE_RANGE
              s.job_args.batch_read_data_strobe_delay).length) ≤ E.deadline) :
    (∃ s1, job_batch_read E s = .halt s1 ∧ s1.status = .XST_DONE ∧
      s1.bus_log = s.bus_log ++
        batch_trace E s.job_args.batch_read_n_32bit_words_per_track
          (batch_cylinders s.job_args.batch_read_cylinder0 s.job_args.batch_read_cylinder1)
          (batch_heads E.cfg.DRIVE_HEAD_COUNT s.job_args.batch_read_head_set)
          (servo_offset_values E.cfg.ENTIRE_RANGE s.job_args.batch_read_servo_offset)
          (data_strobe_delay_values E.cfg.ENTIRE_RANGE
            s.job_args.batch_read_data_strobe_delay)) ∧
    (∀ v : Int, servo_offset_values E.cfg.ENTIRE_RANGE v =
      (if v = E.cfg.ENTIRE_RANGE then [-1, 0, 1] else if -1 ≤ v ∧ v ≤ 1 then [v] else [])) ∧
    (∀ v : Int, data_strobe_delay_values E.cfg.ENTIRE_RANGE v =
      (if v = E.cfg.ENTIRE_RANGE then [-1, 0, 1] else if -1 ≤ v ∧ v ≤ 1 then [v] else [])) :=
  ⟨job_batch_read_runs hE s hc1 hHC hfree htime, fun v => loop_values_eq _ v,
    fun v => loop_values_eq _ v⟩

/-- Witness of C14, at the failing input: the batch read of cylinder 0 and
head 0 with the servo offset 2 and the data strobe delay 0 selects the
cylinder and the head, captures nothing and ends `DONE`; the range of the
specification for the value 2 is `[1]`. -/
theorem batch_read_trace_on_ideal_drive_witness :
    spec_values 100 2 = [1] ∧
    ∃ s1, job_batch_read example_env_spinning
        (example_batch_machine [example_buffer .FREE] 2) = .halt s1 ∧
      s1.status = .XST_DONE ∧
      s1.bus_log = [.clear, .tag1 0, .clear, .clear, .tag2 0, .clear] := by
  obtain ⟨s1, h1, h2, h3⟩ := (batch_read_trace_on_ideal_drive example_env_spinning_ideal
    (example_batch_machine [example_buffer .FREE] 2) (by decide) (by decide) (by decide)
    (by decide)).1
  refine ⟨by decide, s1, h1, h2, ?_⟩
  rw [h3]
  decide

/-- The batch read of cylinder 0 and head 0 with the sweep sentinel as the
servo offset and the data strobe delay 0, with four free buffers: three
captures, for the servo offsets -1, 0 and 1 in this order, each after its
read gate word and before `clear_output`. -/
theorem batch_read_sweep_example :
    ∃ s1, job_batch_read example_env_spinning
        (example_batch_machine
          [example_buffer .FREE, example_buffer .FREE, example_buffer .FREE,
           example_buffer .FREE] 100) = .halt s1 ∧
      s1.status = .XST_DONE ∧
      s1.bus_log =
        [.clear, .tag1 0, .clear, .clear, .tag2 0, .clear,
         .clear, .tag3 10, .capture 2, .clear,
         .clear, .tag3 2, .capture 2, .clear,
         .clear, .tag3 6, .capture 2, .clear] := by
  obtain ⟨s1, h1, h2, h3⟩ := job_batch_read_runs example_env_spinning_ideal
    (example_batch_machine
      [example_buffer .FREE, example_buffer .FREE, example_buffer .FREE,
       example_buffer .FREE] 100) (by decide) (by decide) (by decide) (by decide)
  refine ⟨s1, h1, h2, ?_⟩
  rw [h3]
  decide

/-! ## A single read that errors, then a second one -/

/-- The entry point of the single read takes the first free buffer, stores its
arguments and leaves the clock and the count of samples as they are. -/
theorem xop_read_data_first_free (E : Env) (n i x : Nat) (s : Machine) (k : Nat) (f : buffer)
    (hk : s.buffers[k]? = some f) (hf : f.status = .FREE)
    (hmin : ∀ j b1, j < k → s.buffers[j]? = some b1 → b1.status ≠ .FREE) :
    ∃ s1, xop_read_data E n i x s = .ret k s1 ∧
      s1.buffers = s.buffers.set k (allocated E f ((n <<< 2) % 2 ^ 32)) ∧
      s1.job_args.read_data_buffer_index = k ∧ s1.job_args.read_data_skip_checks = x ∧
      s1.time = s.time ∧ s1.samples = s.samples := by
  have h := allocate_buffer_first E.cfg.MAX_DATA_BUFFER_SIZE ((n <<< 2) % 2 ^ 32) hk hf hmin
  unfold xop_read_data
  generalize (n <<< 2) % 2 ^ 32 = sz at h ⊢
  simp only [Prog.bind_apply, reset, multicore_reset_core1, lift_pool, h, run_eq,
    Prog.pure_apply]
  exact ⟨_, rfl, rfl, rfl, rfl, rfl, rfl⟩

/-- A history that consists of the launch of one single read is the entry
point followed by the slice of core 1. -/
theorem run_history_one_read {E : Env} {n i x b budget : Nat} {s s1 : Machine}
    (h : xop_read_data E n i x s = .ret b s1) :
    run_history E [.launch (.read_data n i x) budget] s =
      .ret () (core1_slice E budget s1).state := by
  have hc := (xop_read_data_ret h).2.2.1
  simp only [run_history, do_event, xop_launch, Prog.bind_apply, h, Prog.pure_apply,
    core1_slice_eq hc, Outcome.state]

theorem map_status_set {bufs : Pool} {i : Nat} {b b1 : buffer} (h : bufs[i]? = some b)
    (hs : b1.status = b.status) :
    (bufs.set i b1).map (fun y => y.status) = bufs.map (fun y => y.status) := by
  apply List.ext_getElem?
  intro j
  by_cases hj : i = j
  · subst hj
    have hl := lt_length_of_getElem? h
    rw [List.getElem?_map, List.getElem?_map, List.getElem?_set_self hl, h]
    simp [hs]
  · simp [List.getElem?_map, List.getElem?_set_ne hj]

/-- A capture with the checks on, on a drive that shows no fault but is not
ready and selected: the first check ends the job with drive-not-ready. -/
theorem read_data_not_ready {E : Env} {s : Machine} (b w index_sync : Nat)
    (h1 : fault_free E.cfg (E.pins s.time s.samples))
    (h2 : ¬ ready_and_selected E.cfg (E.pins s.time s.samples)) :
    read_data E b w index_sync 0 s =
      .halt (halted_with .XST_ERR_DRIVE_NOT_READY { s with samples := s.samples + 1 }) := by
  have hc : check_drive_error E s =
      .halt (halted_with .XST_ERR_DRIVE_NOT_READY { s with samples := s.samples + 1 }) := by
    rw [check_drive_error_eq]
    simp [h1, h2]
  simp [read_data, c_not, hc]

/-- The single read with the checks on, on a drive that shows no fault but is
not ready and selected: the job labels its buffer, then ends with
drive-not-ready, and the statuses of the buffers are as the entry point left
them. -/
theorem job_read_data_not_ready (E : Env) (s : Machine) (x : buffer)
    (hb : s.buffers[s.job_args.read_data_buffer_index]? = some x)
    (hsk : s.job_args.read_data_skip_checks = 0)
    (h1 : fault_free E.cfg (E.pins s.time s.samples))
    (h2 : ¬ ready_and_selected E.cfg (E.pins s.time s.samples)) :
    (job_read_data E s).state.status = .XST_ERR_DRIVE_NOT_READY ∧
      (job_read_data E s).state.buffers.map (fun y => y.status) =
        s.buffers.map (fun y => y.status) := by
  have hl := lt_length_of_getElem? hb
  have h0 : BEGIN s = .ret () { s with job_begin_time_us := s.time } := rfl
  unfold job_read_data
  rw [Prog.bind_ret h0]
  rw [Prog.bind_ret (rfl : machine { s with job_begin_time_us := s.time } = .ret _ _)]
  simp only []
  rw [Prog.bind_ret (get_buffer_filename_ok (s := { s with job_begin_time_us := s.time }) hl)]
  rw [Prog.bind_ret (rfl : next_read_data_serial_post_increment _ = .ret _ _)]
  rw [Prog.bind_ret (rfl : snprintf_filename E _ _ _ = .ret _ _)]
  rw [Prog.bind_ret (rfl : machine _ = .ret _ _)]
  simp only [hsk, Prog.bind_apply]
  rw [read_data_not_ready]
  · refine ⟨rfl, ?_⟩
    simp only [Outcome.state, halted_with, snprintf_filename, buffer_at_of_getElem? hb]
    exact map_status_set hb rfl
  · exact h1
  · exact h2

theorem status_of_map {bufs : Pool} {l : List buffer_status}
    (h : bufs.map (fun y => y.status) = l) (j : Nat) (st : buffer_status)
    (hj : l[j]? = some st) : ∃ b, bufs[j]? = some b ∧ b.status = st := by
  rw [← h, List.getElem?_map] at hj
  cases hb : bufs[j]? with
  | none => rw [hb] at hj; cases hj
  | some b =>
    rw [hb] at hj
    simp only [Option.map_some', Option.some.injEq] at hj
    exact ⟨b, rfl, hj⟩

/-- The scenario of a single read that errors: on the example drive that is
not ready, with two free buffers, the first single read (checks on) takes the
buffer 0 and its job ends with drive-not-ready; the single read launched
after it takes the buffer 1. -/
theorem errored_read_then_second :
    ∃ s1 s s2, xop_read_data example_env_not_ready 1 0 0
        (startup (example_machine [example_buffer .FREE, example_buffer .FREE])) = .ret 0 s1 ∧
      s = (core1_slice example_env_not_ready 10 s1).state ∧
      run_history example_env_not_ready [.launch (.read_data 1 0 0) 10]
        (startup (example_machine [example_buffer .FREE, example_buffer .FREE])) = .ret () s ∧
      s.status = .XST_ERR_DRIVE_NOT_READY ∧
      xop_read_data example_env_not_ready 1 0 0 s = .ret 1 s2 := by
  obtain ⟨s1, hl0, hb1, hidx, hsk, -, -⟩ := xop_read_data_first_free example_env_not_ready 1 0 0
    (startup (example_machine [example_buffer .FREE, example_buffer .FREE])) 0
    (example_buffer .FREE) rfl rfl (fun j _ hj => absurd hj (by omega))
  have hc := (xop_read_data_ret hl0).2.2.1
  have hx : s1.buffers[s1.job_args.read_data_buffer_index]? =
      some (allocated example_env_not_ready (example_buffer .FREE) ((1 <<< 2) % 2 ^ 32)) := by
    rw [hidx, hb1]; rfl
  have hpins : fault_free example_config 0 ∧ ¬ ready_and_selected example_config 0 := by
    decide
  obtain ⟨hst, hmap⟩ := job_read_data_not_ready
    { example_env_not_ready with deadline := s1.time + 10 } s1 _ hx hsk hpins.1 hpins.2
  have hs : (core1_slice example_env_not_ready 10 s1).state =
      (job_read_data { example_env_not_ready with deadline := s1.time + 10 } s1).state := by
    rw [core1_slice_eq hc]; rfl
  have hmap2 : (core1_slice example_env_not_ready 10 s1).state.buffers.map (fun y => y.status) =
      [.BUSY, .FREE] := by
    rw [hs, hmap, hb1]; rfl
  obtain ⟨b0, hb0, hb0s⟩ := status_of_map hmap2 0 .BUSY rfl
  obtain ⟨f1, hf1, hf1s⟩ := status_of_map hmap2 1 .FREE rfl
  obtain ⟨s2, hl, -⟩ := xop_read_data_first_free example_env_not_ready 1 0 0
    (core1_slice example_env_not_ready 10 s1).state 1 f1 hf1 hf1s
    (fun j b hj hb => by
      have hj0 : j = 0 := by omega
      subst hj0
      rw [hb0] at hb
      cases hb
      rw [hb0s]
      decide)
  exact ⟨s1, _, s2, hl0, rfl, run_history_one_read hl0, by rw [hs]; exact hst, hl⟩

/-- Witness of C10, amended, on the example of the claim: the first single
read errors (the drive is not ready) after it has labelled its buffer
`custom0001.nrz`; the single read launched after it, the second since
startup, labels its buffer `custom0002.nrz`. -/
theorem kth_read_data_label_witness :
    ∃ s s1, run_history example_env_not_ready [.launch (.read_data 1 0 0) 10]
        (startup (example_machine [example_buffer .FREE, example_buffer .FREE])) = .ret () s ∧
      s.status = .XST_ERR_DRIVE_NOT_READY ∧
      (buffer_at s.buffers 0).filename = "custom0001.nrz".toList ∧
      xop_read_data example_env_not_ready 1 0 0 s = .ret 1 s1 ∧
      (buffer_at (core1_slice example_env_not_ready 10 s1).state.buffers 1).filename =
        "custom0002.nrz".toList := by
  obtain ⟨s0, s, s1, hl0, hs, hrun, hst, hl⟩ := errored_read_then_second
  refine ⟨s, s1, hrun, hst, ?_, hl, ?_⟩
  · rw [hs]
    exact (kth_read_data_label example_env_not_ready
      (example_machine [example_buffer .FREE, example_buffer .FREE]) _ s0 [] 1 0 0 0 10 rfl hl0
      (by decide) (by decide)).trans (by decide)
  · exact (kth_read_data_label example_env_not_ready
      (example_machine [example_buffer .FREE, example_buffer .FREE]) s s1
      [.launch (.read_data 1 0 0) 10] 1 0 0 1 10 hrun hl (by decide) (by decide)).trans
      (by decide)

end SmdPico
